import Mathlib

/-!
Delivery service simulator: a verification development.

A shallow embedding of the delivery service (`internal/delivery/...`) and of the
3PL simulator (`cmd/3pl/main.go`).

Conventions of the embedding:

* a Go `error` is an `Option String`: `none` is `nil`, `some msg` carries `err.Error()`;
  where the source compares an error with the value `context.Canceled`, the error is an
  `app.WorkerError`, which keeps that value apart from every other error;
* a `time.Time` is the instant it denotes, an integer number of nanoseconds; every
  call of `time.Now()` is an explicit argument of the function making it;
* a `float64` coordinate is the rational number it denotes (coordinates arrive as JSON
  numbers, which are finite, and the code only compares them);
* a SQL table is the list of its rows; `LIMIT n` without `ORDER BY` keeps the first `n`
  rows in table order, and a sequential run has no locked row for `SKIP LOCKED` to skip;
* calls to collaborators are recorded in the result of the function making them;
* the failures of the store during a pass of a worker (`sql.Faults`), with the error value
  the driver returns, are an argument of the pass; the functions without that argument are
  the pass in which nothing fails;
* the goroutines of a 3PL pass post concurrently; which of them have posted when one of them
  ends the process is an argument of the pass (`threepl.Delivery.reached`);
* a loop of the source takes fuel, and returns `none` when the fuel did not suffice.
-/

/-! ## Package `time` -/

namespace time

/-- An instant, in nanoseconds. -/
abbrev Time := Int

/-- A `time.Duration`: a signed 64-bit count of nanoseconds. -/
abbrev Duration := Int

def Second : Duration := 1000000000

def Minute : Duration := 60 * Second

def Hour : Duration := 60 * Minute

def minDuration : Duration := -(2 ^ 63)

def maxDuration : Duration := 2 ^ 63 - 1

/-- `t.Before(u)`. -/
def Before (t u : Time) : Bool := decide (t < u)

/-- `t.Sub(u)`: the difference, saturated to the range of a `Duration`. -/
def Sub (t u : Time) : Duration :=
  if t - u < minDuration then minDuration
  else if maxDuration < t - u then maxDuration
  else t - u

/-- `t.Add(d)`. -/
def Add (t : Time) (d : Duration) : Time := t + d

end time

/-! ## Package `domain` -/

namespace domain

structure UserInfo where
  UserUID : String
  Address : String
deriving DecidableEq, Repr

def UserInfo.Validate (o : UserInfo) : Option String :=
  if o.UserUID = "" then some ".user_uid is required"
  else if o.Address = "" then some ".address is required"
  else none

structure Location where
  Lat : Rat
  Long : Rat
deriving DecidableEq, Repr

def Location.Validate (o : Location) : Option String :=
  if o.Lat < -90 ∨ o.Lat > 90 then some ".lat must be between -90 and 90"
  else if o.Long < -180 ∨ o.Long > 180 then some ".long must be between -180 and 180"
  else none

structure RoutingInfo where
  Origin : Location
  Destination : Location
deriving DecidableEq, Repr

def RoutingInfo.Validate (o : RoutingInfo) : Option String :=
  match o.Origin.Validate with
  | some err => some (".origin" ++ err)
  | none =>
    match o.Destination.Validate with
    | some err => some (".destination" ++ err)
    | none => none

structure ScheduledDeliveryWindow where
  StartTime : time.Time
  EndTime : time.Time
deriving DecidableEq, Repr

/-- `ScheduledDeliveryWindow.Validate`; `now` is the value of its `time.Now()`. -/
def ScheduledDeliveryWindow.Validate (o : ScheduledDeliveryWindow) (now : time.Time) :
    Option String :=
  if time.Before o.EndTime now then some ".end_time expired"
  else if time.Sub o.EndTime o.StartTime ≠ 2 * time.Hour then some " must be 2 hours"
  else none

structure RequestInput where
  ShipmentUID : String
  UserInfo : UserInfo
  RoutingInfo : RoutingInfo
  ScheduledDeliveryWindow : ScheduledDeliveryWindow
deriving DecidableEq, Repr

/-- `RequestInput.Validate`; `now` is the clock reading of the window check. -/
def RequestInput.Validate (o : RequestInput) (now : time.Time) : Option String :=
  if o.ShipmentUID = "" then some "shipment_uid is required"
  else
    match o.UserInfo.Validate with
    | some err => some ("user_info" ++ err)
    | none =>
      match o.RoutingInfo.Validate with
      | some err => some ("routing_info" ++ err)
      | none =>
        match o.ScheduledDeliveryWindow.Validate now with
        | some err => some ("scheduled_delivery_window" ++ err)
        | none => none

structure WebhookInput where
  ShipmentUID : String
  Status : String
deriving DecidableEq, Repr

def WebhookInput.Validate (o : WebhookInput) : Option String :=
  if o.ShipmentUID = "" then some "shipment_uid is required"
  else if o.Status = "" then some "status is required"
  else none

/-- The `domain.Shipment` of `domain/repo.go`. -/
structure Shipment where
  UID : String
  UserUID : String
  UserAddr : String
  OriginPoint : Location
  DestinationPoint : Location
  ScheduledDeliveryMinTime : time.Time
  ScheduledDeliveryMaxTime : time.Time
  Status : String
deriving DecidableEq, Repr

structure ThirdPartyLogisticsRequestDeliveryGuyInput where
  ShipmentUID : String
  RoutingInfo : RoutingInfo
  ScheduledDeliveryWindow : ScheduledDeliveryWindow
deriving DecidableEq, Repr

structure CoreWebhookInput where
  ShipmentUID : String
  Status : String
deriving DecidableEq, Repr

end domain

/-! ## Package `repo`: the table `shipments` -/

namespace repo

/-- A PostgreSQL `point` value `(x,y)`. -/
structure Point where
  x : Rat
  y : Rat
deriving DecidableEq, Repr

/-- A row of table `shipments`, with the columns the statements name. -/
structure Row where
  uid : String
  user_uid : String
  user_addr : String
  origin_point : Point
  destination_point : Point
  scheduled_delivery_min_time : time.Time
  scheduled_delivery_max_time : time.Time
  status : String
deriving DecidableEq, Repr

/-- The table `shipments`. -/
abbrev DB := List Row

/-- SQL `point(a, b)`. -/
def point (a b : Rat) : Point := ⟨a, b⟩

end repo

/-- `Location.Scan` on the text `(x,y)` of a stored point: `l.Long = x`, `l.Lat = y`. -/
def domain.Location.Scan (value : repo.Point) : domain.Location :=
  { Long := value.x, Lat := value.y }

namespace repo

/-- The `row.Scan(...)` of one selected row into a `domain.Shipment`. -/
def scanShipment (r : Row) : domain.Shipment :=
  { UID := r.uid
    UserUID := r.user_uid
    UserAddr := r.user_addr
    OriginPoint := domain.Location.Scan r.origin_point
    DestinationPoint := domain.Location.Scan r.destination_point
    ScheduledDeliveryMinTime := r.scheduled_delivery_min_time
    ScheduledDeliveryMaxTime := r.scheduled_delivery_max_time
    Status := r.status }

/-- The row written by the `INSERT ... VALUES($1, $2, $3, point($4, $5), point($6, $7), $8, $9, $10)`
of `InsertShipment`, with its arguments in the order the call passes them. -/
def insertedRow (shipment : domain.Shipment) : Row :=
  { uid := shipment.UID
    user_uid := shipment.UserUID
    user_addr := shipment.UserAddr
    origin_point := point shipment.OriginPoint.Lat shipment.OriginPoint.Long
    destination_point := point shipment.DestinationPoint.Lat shipment.DestinationPoint.Long
    scheduled_delivery_min_time := shipment.ScheduledDeliveryMinTime
    scheduled_delivery_max_time := shipment.ScheduledDeliveryMaxTime
    status := shipment.Status }

/-- Modelled from the spec: the schema of table `shipments` (the migrations) is not among the
sources; the spec gives a Shipment a unique identifier and keys the store by it, so an insert
whose `uid` is already present is refused. -/
def uniqueViolation (db : DB) (uid : String) : Bool :=
  db.any (fun r => decide (r.uid = uid))

def GetShipment (db : DB) (shipmentUID : String) : Except String domain.Shipment :=
  match db.find? (fun r => decide (r.uid = shipmentUID)) with
  | none => .error "sql: no rows in result set"
  | some r => .ok (scanShipment r)

def InsertShipment (db : DB) (shipment : domain.Shipment) : Except String DB :=
  if uniqueViolation db shipment.UID then
    .error "pq: duplicate key value violates unique constraint"
  else .ok (db ++ [insertedRow shipment])

/-- The statement `UPDATE shipments SET status = $1 WHERE uid = $2`. -/
def updateStatus (db : DB) (status : String) (uid : String) : DB :=
  db.map (fun r => if r.uid = uid then { r with status := status } else r)

def SetShipmentStatus (db : DB) (shipmentUID : String) (status : String) : Except String DB :=
  match ((updateStatus db status shipmentUID).filter (fun r => decide (r.uid = shipmentUID))).head? with
  | none => .error "sql: no rows in result set"
  | some r =>
    if r.uid ≠ shipmentUID then .error "scanned uid is not equal to shipment_uid"
    else .ok (updateStatus db status shipmentUID)

end repo

/-! ## Package `_3pl`: the client of the 3PL service -/

namespace _3pl

/-- What `http.Post` returns when the transport did not fail. -/
structure Response where
  StatusCode : Int
deriving DecidableEq, Repr

/-- `RequestDeliveryGuy`; `post` is the result of its `http.Post`: a transport error or a
response. On a response the variable `err` of the source holds `nil`, and that is what the
status check returns. -/
def RequestDeliveryGuy (post : Except String Response) : Option String :=
  match post with
  | .error e => some e
  | .ok resp =>
    let err : Option String := none
    if resp.StatusCode ≠ 200 then err else none

end _3pl

/-- The request body `RequestDeliveryGuy` posts, as the 3PL handler decodes it: the JSON
object with the one field `shipment_uid`, read back into `Shipment.ShipmentUID`. -/
def _3pl.postedShipmentUID (input : domain.ThirdPartyLogisticsRequestDeliveryGuyInput) :
    Option String :=
  some input.ShipmentUID

/-! ## Package `core` -/

namespace core

/-- `core.Webhook` logs and returns `nil`. -/
def Webhook (_input : domain.CoreWebhookInput) : Option String := none

end core

/-! ## Package `usecase` -/

namespace usecase

/-- The errors a use case returns: `internal_error.ValidationError` or any other error. -/
inductive Error where
  | ValidationError (msg : String)
  | other (msg : String)
deriving DecidableEq, Repr

/-- The interface `ThirdPartyLogistics`: the error of one `RequestDeliveryGuy` call. -/
abbrev ThirdPartyLogistics := domain.ThirdPartyLogisticsRequestDeliveryGuyInput → Option String

/-- The interface `Core`: the error of one `Webhook` call. -/
abbrev Core := domain.CoreWebhookInput → Option String

/-- What a use case call leaves behind: the store, the collaborator calls it made, in order,
and the error it returned. -/
structure Outcome where
  db : repo.DB
  requests : List domain.ThirdPartyLogisticsRequestDeliveryGuyInput
  webhooks : List domain.CoreWebhookInput
  err : Option Error
deriving DecidableEq, Repr

/-- `usecase.Request`; `nowValidate` is the clock reading inside `input.Validate()`,
`now` the later one of the status decision. -/
def Request (_3pl : ThirdPartyLogistics) (nowValidate now : time.Time) (db : repo.DB)
    (input : domain.RequestInput) : Outcome :=
  match input.Validate nowValidate with
  | some err => ⟨db, [], [], some (.ValidationError err)⟩
  | none =>
    let status :=
      if time.Before input.ScheduledDeliveryWindow.StartTime now then "requested" else "queued"
    let shipment : domain.Shipment :=
      { UID := input.ShipmentUID
        UserUID := input.UserInfo.UserUID
        UserAddr := input.UserInfo.Address
        OriginPoint := input.RoutingInfo.Origin
        DestinationPoint := input.RoutingInfo.Destination
        ScheduledDeliveryMinTime := input.ScheduledDeliveryWindow.StartTime
        ScheduledDeliveryMaxTime := input.ScheduledDeliveryWindow.EndTime
        Status := status }
    match repo.InsertShipment db shipment with
    | .error err => ⟨db, [], [], some (.other err)⟩
    | .ok db1 =>
      if status ≠ "queued" then
        let req : domain.ThirdPartyLogisticsRequestDeliveryGuyInput :=
          { ShipmentUID := input.ShipmentUID
            RoutingInfo := input.RoutingInfo
            ScheduledDeliveryWindow := input.ScheduledDeliveryWindow }
        match _3pl req with
        | some err => ⟨db1, [req], [], some (.other err)⟩
        | none => ⟨db1, [req], [], none⟩
      else ⟨db1, [], [], none⟩

/-- The tail of `usecase.Webhook`: the call of `core.Webhook` and the return. -/
def forward (core : Core) (db : repo.DB)
    (requests : List domain.ThirdPartyLogisticsRequestDeliveryGuyInput)
    (input : domain.WebhookInput) : Outcome :=
  let note : domain.CoreWebhookInput := { ShipmentUID := input.ShipmentUID, Status := input.Status }
  match core note with
  | some err => ⟨db, requests, [note], some (.other err)⟩
  | none => ⟨db, requests, [note], none⟩

/-- `usecase.Webhook`; `hour` is the value of `time.Now().Hour()`. -/
def Webhook (_3pl : ThirdPartyLogistics) (core : Core) (hour : Nat) (db : repo.DB)
    (input : domain.WebhookInput) : Outcome :=
  match input.Validate with
  | some err => ⟨db, [], [], some (.ValidationError err)⟩
  | none =>
    match repo.SetShipmentStatus db input.ShipmentUID input.Status with
    | .error err => ⟨db, [], [], some (.other err)⟩
    | .ok db1 =>
      if input.Status = "not_found" then
        if hour < 23 then
          match repo.GetShipment db1 input.ShipmentUID with
          | .error err => ⟨db1, [], [], some (.other err)⟩
          | .ok shipment =>
            let req : domain.ThirdPartyLogisticsRequestDeliveryGuyInput :=
              { ShipmentUID := input.ShipmentUID
                RoutingInfo :=
                  { Origin := shipment.OriginPoint, Destination := shipment.DestinationPoint }
                ScheduledDeliveryWindow :=
                  { StartTime := shipment.ScheduledDeliveryMinTime
                    EndTime := shipment.ScheduledDeliveryMaxTime } }
            match _3pl req with
            | some err => ⟨db1, [req], [], some (.other err)⟩
            | none => forward core db1 [req] input
        else forward core db1 [] input
      else forward core db1 [] input

end usecase

/-! ## Package `config` -/

namespace config

structure WorkerConfig where
  PendingIntervalInSeconds : Int
  PendingWorkerBatchSize : Int
  ShipmentWorkerBatchSize : Int
deriving DecidableEq, Repr

end config

/-! ## Failures of the store -/

namespace sql

/-- What the store does to one pass of a worker: whether `db.Begin`, the first statement
(`tx.Query`), a later statement (`tx.Exec`, or the second `tx.Query`) or `tx.Commit` returns
an error, for which identifiers the `rows.Scan` of the row returns an error, and `err`, the
error value the driver returns from the store call that fails (a pass ends at its first
failing `Begin`, statement or `Commit`). -/
structure Faults where
  beginFails : Bool
  queryFails : Bool
  execFails : Bool
  commitFails : Bool
  scanFails : String → Bool
  err : String

/-- A pass in which no store call fails and every row decodes. -/
def noFaults : Faults :=
  { beginFails := false, queryFails := false, execFails := false, commitFails := false
    scanFails := fun _ => false, err := "" }

end sql

/-! ## Package `app`: the workers of the delivery service -/

namespace app

/-- SQL `LIMIT n`: PostgreSQL refuses a negative count. -/
def limit {α : Type} (n : Int) (rows : List α) : Except String (List α) :=
  if n < 0 then .error "pq: LIMIT must not be negative" else .ok (rows.take n.toNat)

/-- The statement `UPDATE shipments SET status = ... WHERE uid IN (...)` (or `= ANY(...)`). -/
def updateStatusIn (db : repo.DB) (status : String) (uids : List String) : repo.DB :=
  db.map (fun r => if r.uid ∈ uids then { r with status := status } else r)

/-- One pass of the `for` loop of `runPendingWorker`. -/
structure PendingCycle where
  db : repo.DB
  updatedCount : Nat
  err : Option String
deriving DecidableEq, Repr

/-- One pass of the `for` loop of `runPendingWorker`; `now` is the value of SQL `NOW()`. -/
def pendingCycle (cfg : config.WorkerConfig) (now : time.Time) (db : repo.DB) : PendingCycle :=
  match limit cfg.PendingWorkerBatchSize
      (db.filter (fun r => decide (r.status = "queued" ∧
        r.scheduled_delivery_min_time ≤ now + cfg.PendingIntervalInSeconds * time.Second))) with
  | .error err => ⟨db, 0, some err⟩
  | .ok rows =>
    let uids := rows.map (fun r => r.uid)
    ⟨updateStatusIn db "pending" uids, (db.filter (fun r => decide (r.uid ∈ uids))).length, none⟩

/-- One pass of the `for` loop of `runShippingWorker`. -/
structure ShippingCycle where
  db : repo.DB
  shipments : List domain.Shipment
  requests : List domain.ThirdPartyLogisticsRequestDeliveryGuyInput
  shipmentRequestUIDs : List String
  webhooks : List domain.CoreWebhookInput
  err : Option String
deriving DecidableEq, Repr

/-- The argument of the `RequestDeliveryGuy` call `runShippingWorker` makes for a shipment. -/
def deliveryGuyInput (shipment : domain.Shipment) :
    domain.ThirdPartyLogisticsRequestDeliveryGuyInput :=
  { ShipmentUID := shipment.UID
    RoutingInfo := { Origin := shipment.OriginPoint, Destination := shipment.DestinationPoint }
    ScheduledDeliveryWindow :=
      { StartTime := shipment.ScheduledDeliveryMinTime
        EndTime := shipment.ScheduledDeliveryMaxTime } }

/-- One pass of the `for` loop of `runShippingWorker`. The goroutines of a pass run
concurrently; the identifiers they send are listed here in batch order. The errors of
`core.Webhook` are logged only. -/
def shippingCycle (_3pl : usecase.ThirdPartyLogistics) (cfg : config.WorkerConfig)
    (db : repo.DB) : ShippingCycle :=
  match limit cfg.PendingWorkerBatchSize (db.filter (fun r => decide (r.status = "pending"))) with
  | .error err => ⟨db, [], [], [], [], some err⟩
  | .ok rows =>
    let shipments := rows.map repo.scanShipment
    if shipments.length = 0 then ⟨db, [], [], [], [], none⟩
    else
      let shipmentRequestUIDs :=
        (shipments.filter (fun s => (_3pl (deliveryGuyInput s)).isNone)).map (fun s => s.UID)
      ⟨updateStatusIn db "requested" shipmentRequestUIDs,
        shipments,
        shipments.map deliveryGuyInput,
        shipmentRequestUIDs,
        shipmentRequestUIDs.map (fun uid => { ShipmentUID := uid, Status := "requested" }),
        none⟩

end app

namespace app

/-- The `WHERE` clause of the claim of `runPendingWorker`: `status = 'queued'` and
`scheduled_delivery_min_time <= NOW() + ($1 * INTERVAL '1 second')`. -/
def pendingDue (cfg : config.WorkerConfig) (now : time.Time) (r : repo.Row) : Bool :=
  decide (r.status = "queued" ∧
    r.scheduled_delivery_min_time ≤ now + cfg.PendingIntervalInSeconds * time.Second)

/-- One pass of the `for` loop of `runPendingWorker` under the store failures `f`. A failed
`Begin`, `Query` or `Commit` returns the error of the driver (`return err`) and leaves the
table as it was; a returned `uid` whose `rows.Scan` fails is logged and not counted. On an
error the count is unused. -/
def pendingPass (f : sql.Faults) (cfg : config.WorkerConfig) (now : time.Time)
    (db : repo.DB) : PendingCycle :=
  if f.beginFails then ⟨db, 0, some f.err⟩
  else if f.queryFails then ⟨db, 0, some f.err⟩
  else
    match limit cfg.PendingWorkerBatchSize (db.filter (pendingDue cfg now)) with
    | .error err => ⟨db, 0, some err⟩
    | .ok rows =>
      let uids := rows.map (fun r => r.uid)
      let returned := (db.filter (fun r => decide (r.uid ∈ uids))).map (fun r => r.uid)
      let updatedCount := (returned.filter (fun uid => !f.scanFails uid)).length
      if f.commitFails then ⟨db, 0, some f.err⟩
      else ⟨updateStatusIn db "pending" uids, updatedCount, none⟩

/-- A call of `runPendingWorker`: the table it leaves, the `updatedCount` of each pass that
committed, in order, and the error it returned. -/
structure PendingRun where
  db : repo.DB
  counts : List Nat
  err : Option String
deriving DecidableEq, Repr

/-- The function `runPendingWorker`: passes back to back until one updates no row or fails.
`faults k` and `clock k` are the store failures and the value of `NOW()` of pass `k`;
`none` when `fuel` passes did not finish the call. -/
def runPendingWorker (cfg : config.WorkerConfig) :
    Nat → (Nat → sql.Faults) → (Nat → time.Time) → repo.DB → Option PendingRun
  | 0, _, _, _ => none
  | fuel + 1, faults, clock, db =>
    let c := pendingPass (faults 0) cfg (clock 0) db
    match c.err with
    | some err => some ⟨c.db, [], some err⟩
    | none =>
      if c.updatedCount = 0 then some ⟨c.db, [0], none⟩
      else
        match runPendingWorker cfg fuel (fun k => faults (k + 1)) (fun k => clock (k + 1))
            c.db with
        | none => none
        | some r => some ⟨r.db, c.updatedCount :: r.counts, r.err⟩

end app

namespace app

/-- One pass of the `for` loop of `runShippingWorker` under the store failures `f`. A failed
`Begin`, `Query` or `Commit` returns the error of the driver (`return err`) and leaves the
table as it was; a selected row whose `rows.Scan` fails is logged and left out of
`shipments`. The second statement fails after the 3PL requests of the pass were made. -/
def shippingPass (f : sql.Faults) (_3pl : usecase.ThirdPartyLogistics)
    (cfg : config.WorkerConfig) (db : repo.DB) : ShippingCycle :=
  if f.beginFails then ⟨db, [], [], [], [], some f.err⟩
  else if f.queryFails then ⟨db, [], [], [], [], some f.err⟩
  else
    match limit cfg.PendingWorkerBatchSize (db.filter (fun r => decide (r.status = "pending"))) with
    | .error err => ⟨db, [], [], [], [], some err⟩
    | .ok rows =>
      let shipments := (rows.filter (fun r => !f.scanFails r.uid)).map repo.scanShipment
      if shipments.length = 0 then
        if f.commitFails then ⟨db, [], [], [], [], some f.err⟩
        else ⟨db, [], [], [], [], none⟩
      else
        let shipmentRequestUIDs :=
          (shipments.filter (fun s => (_3pl (deliveryGuyInput s)).isNone)).map (fun s => s.UID)
        if f.execFails then
          ⟨db, shipments, shipments.map deliveryGuyInput, shipmentRequestUIDs, [],
            some f.err⟩
        else if f.commitFails then
          ⟨db, shipments, shipments.map deliveryGuyInput, shipmentRequestUIDs, [],
            some f.err⟩
        else
          ⟨updateStatusIn db "requested" shipmentRequestUIDs,
            shipments,
            shipments.map deliveryGuyInput,
            shipmentRequestUIDs,
            shipmentRequestUIDs.map (fun uid => { ShipmentUID := uid, Status := "requested" }),
            none⟩

/-- A call of `runShippingWorker`: the table it leaves, `len(shipments)` of each pass that
reached the test `len(shipments) == 0`, in order, the `RequestDeliveryGuy` calls and the
`core.Webhook` calls of its passes, and the error it returned. -/
structure ShippingRun where
  db : repo.DB
  batches : List Nat
  requests : List domain.ThirdPartyLogisticsRequestDeliveryGuyInput
  webhooks : List domain.CoreWebhookInput
  err : Option String
deriving DecidableEq, Repr

/-- The function `runShippingWorker`: passes back to back, with nothing between the end of
one and the `Begin` of the next, until one selects no shipment (`break`, `return nil`) or
fails on the store (`return err`). `faults k` and `clients k` are the store failures and the
3PL collaborator of pass `k`; `none` when `fuel` passes did not finish the call. -/
def runShippingWorker (cfg : config.WorkerConfig) :
    Nat → (Nat → sql.Faults) → (Nat → usecase.ThirdPartyLogistics) → repo.DB →
      Option ShippingRun
  | 0, _, _, _ => none
  | fuel + 1, faults, clients, db =>
    let c := shippingPass (faults 0) (clients 0) cfg db
    match c.err with
    | some err => some ⟨c.db, [], c.requests, c.webhooks, some err⟩
    | none =>
      if c.shipments.length = 0 then some ⟨c.db, [0], [], [], none⟩
      else
        match runShippingWorker cfg fuel (fun k => faults (k + 1)) (fun k => clients (k + 1))
            c.db with
        | none => none
        | some r =>
          some ⟨r.db, c.shipments.length :: r.batches, c.requests ++ r.requests,
            c.webhooks ++ r.webhooks, r.err⟩

end app

/-! ## Package `app`: the worker loops -/

namespace app

/-- What the `select` of a worker loop receives: a tick of its ticker or the cancellation of
its context. -/
inductive Signal where
  | tick
  | done
deriving DecidableEq, Repr

/-- An `error` returned by `StartPendingWorker` or `StartShippingWorker`, told apart the way
`main` does, by identity with the value `context.Canceled`. `Canceled` is that value: it is
what `ctx.Err()` returns once the context, made by `context.WithCancel`, is cancelled.
`store err` is the error of a store call, as the driver returned it. The store calls of the
workers take no context (`Begin()`, `tx.Query(...)`, `tx.Commit()`), so the error of one is
not the value `context.Canceled`. -/
inductive WorkerError where
  | Canceled
  | store (err : String)
deriving DecidableEq, Repr

/-- A call of `StartPendingWorker` or `StartShippingWorker`: the table it leaves, the number
of calls of its run function it made, and the error it returned, `none` while it still
waits in its `select`. -/
structure Worker where
  db : repo.DB
  runs : Nat
  returned : Option WorkerError
deriving DecidableEq, Repr

/-- The `for`/`select` loop of `StartPendingWorker` and of `StartShippingWorker`, which differ
in the run function only, after `runs` calls of it: on `ctx.Done()` the loop returns
`ctx.Err()`; on a tick it calls the run function and returns its error if there is one.
`run n db` is call `n` of the run function on the table `db`: the table it leaves and the
error it returns, `none` when the call does not finish. -/
def workerLoop (run : Nat → repo.DB → Option (repo.DB × Option String)) :
    Nat → List Signal → repo.DB → Option Worker
  | runs, [], db => some ⟨db, runs, none⟩
  | runs, .done :: _, db => some ⟨db, runs, some .Canceled⟩
  | runs, .tick :: rest, db =>
    match run runs db with
    | none => none
    | some (db1, some err) => some ⟨db1, runs + 1, some (.store err)⟩
    | some (db1, none) => workerLoop run (runs + 1) rest db1

/-- The body of `StartPendingWorker` and of `StartShippingWorker`: the test of `ctx.Err()`,
one call of the run function, then the loop. `cancelled` tells whether the context is
already cancelled at the call; `signals` is what the `select` receives, in order. -/
def startWorker (run : Nat → repo.DB → Option (repo.DB × Option String)) (cancelled : Bool)
    (signals : List Signal) (db : repo.DB) : Option Worker :=
  if cancelled then some ⟨db, 0, some .Canceled⟩
  else
    match run 0 db with
    | none => none
    | some (db1, some err) => some ⟨db1, 1, some (.store err)⟩
    | some (db1, none) => workerLoop run 1 signals db1

end app

/-! ## Package `main` of `cmd/delivery` -/

namespace delivery

end delivery

/-! ## The delivery service as a machine over its store -/

namespace delivery

/-- An operation of the delivery service on the table `shipments`: a call of
`usecase.Request`, a call of `usecase.Webhook`, one pass of the Pending Worker, or one pass of
the Dispatch Worker, each with the clock readings and collaborators it runs against. -/
inductive Op where
  | request (_3pl : usecase.ThirdPartyLogistics) (nowValidate now : time.Time)
      (input : domain.RequestInput)
  | webhook (_3pl : usecase.ThirdPartyLogistics) (core : usecase.Core) (hour : Nat)
      (input : domain.WebhookInput)
  | pendingWorker (now : time.Time)
  | dispatchWorker (_3pl : usecase.ThirdPartyLogistics)

/-- The table after an operation. -/
def Op.apply (cfg : config.WorkerConfig) : Op → repo.DB → repo.DB
  | .request _3pl nowValidate now input, db => (usecase.Request _3pl nowValidate now db input).db
  | .webhook _3pl core hour input, db => (usecase.Webhook _3pl core hour db input).db
  | .pendingWorker now, db => (app.pendingCycle cfg now db).db
  | .dispatchWorker _3pl, db => (app.shippingCycle _3pl cfg db).db

/-- The status a webhook operation carries, when its input passes validation. -/
def Op.webhookStatus : Op → Option String
  | .webhook _ _ _ input => if input.Validate = none then some input.Status else none
  | _ => none

/-- The table after a sequence of operations. -/
def run (cfg : config.WorkerConfig) (ops : List Op) (db : repo.DB) : repo.DB :=
  ops.foldl (fun db op => op.apply cfg db) db

end delivery

/-! ## Package `main` of `cmd/3pl`: the 3PL simulator -/

namespace threepl

/-- The struct `Shipment` of `cmd/3pl/main.go`, also a row of its tracking table. -/
structure Shipment where
  ShipmentUID : String
  StartTime : time.Time
  Retries : Int
  Status : String
deriving DecidableEq, Repr

/-- The 3PL database: the rows of each relation that exists, by relation name. -/
abbrev Database := String → Option (List Shipment)

/-- Replace the rows of relation `rel`. -/
def Database.set (db : Database) (rel : String) (rows : List Shipment) : Database :=
  fun name => if name = rel then some rows else db name

/-- The statement `select retries, status from <rel> where shipment_uid = $1` read by
`QueryRow(...).Scan`: an error when the relation is missing, else the first matching row. -/
def queryRow (db : Database) (rel : String) (uid : String) : Except String (Option Shipment) :=
  match db rel with
  | none => .error "pq: relation does not exist"
  | some rows => .ok (rows.find? (fun r => decide (r.ShipmentUID = uid)))

/-- The statement
`update <rel> set retries = $1, status = $2, start_time = NOW() + INTERVAL '5 minutes' where shipment_uid = $3`. -/
def execUpdate (db : Database) (rel : String) (now : time.Time) (retries : Int) (status : String)
    (uid : String) : Except String Database :=
  match db rel with
  | none => .error "pq: relation does not exist"
  | some rows =>
    .ok (db.set rel (rows.map (fun r =>
      if r.ShipmentUID = uid then
        { r with Retries := retries, Status := status, StartTime := now + 5 * time.Minute }
      else r)))

/-- The statement `insert into <rel> (shipment_uid,start_time,retries,status)
values ($1,NOW() + INTERVAL '5 minutes',$2,$3)`. -/
def execInsert (db : Database) (rel : String) (now : time.Time) (uid : String) (retries : Int)
    (status : String) : Except String Database :=
  match db rel with
  | none => .error "pq: relation does not exist"
  | some rows => .ok (db.set rel (rows ++ [⟨uid, now + 5 * time.Minute, retries, status⟩]))

/-- The handler of `POST /request`. `body` is the decoded request body (`none` when it is
not JSON), `now` the value of SQL `NOW()`. Returns the database after the transaction and
the HTTP status code of the response. -/
def requestHandler (now : time.Time) (db : Database) (body : Option String) : Database × Int :=
  match body with
  | none => (db, 400)
  | some shipmentUID =>
    match queryRow db "shipments_3pl" shipmentUID with
    | .ok (some row) =>
      let (retries, status) :=
        if row.Retries < 3 then (row.Retries + 1, row.Status) else (row.Retries, "found")
      match execUpdate db "shipment_3pl" now retries status shipmentUID with
      | .error _ => (db, 500)
      | .ok db1 => (db1, 200)
    | .error _ => (db, 500)
    | .ok none =>
      match execInsert db "shipments_3pl" now shipmentUID 1 "requested" with
      | .error _ => (db, 500)
      | .ok db1 => (db1, 200)

/-- Consecutive calls of the handler for one identifier, one per clock reading. -/
def intakeCalls (uid : String) : List time.Time → Database → Database × List Int
  | [], db => (db, [])
  | now :: rest, db =>
    let r := requestHandler now db (some uid)
    let rs := intakeCalls uid rest r.1
    (rs.1, r.2 :: rs.2)

end threepl

/-! ## Package `main` of `cmd/3pl`: the workers -/

namespace threepl

/-- The delivery service as the goroutines of a 3PL pass meet it: `respond body` is what
`http.Post` to `/webhook` returns for a body, a transport error or the status code of the
response; `reached uid` tells, for a pass one of whose posts fails, whether the goroutine of
`uid` has posted by the time the failing goroutine ends the process (the failing goroutine
itself has). -/
structure Delivery where
  respond : domain.WebhookInput → Except String Int
  reached : String → Bool

/-- Whether a goroutine that posts `body` ends in `os.Exit(1)`: on a transport error or a
status code other than 200. -/
def postFails (delivery : Delivery) (body : domain.WebhookInput) : Bool :=
  match delivery.respond body with
  | .error _ => true
  | .ok code => decide (code ≠ 200)

/-- The posts made by the goroutines a pass starts, one for each of `bodies`. When no post
fails every goroutine posts and the pass waits for all of them (`wg.Wait()`). A goroutine
whose post fails calls `os.Exit(1)`: the process ends there, and of the posts of the pass
only those of the goroutines that had posted by then were made. -/
def posted (delivery : Delivery) (bodies : List domain.WebhookInput) :
    List domain.WebhookInput :=
  if bodies.any (postFails delivery) then
    bodies.filter (fun body => delivery.reached body.ShipmentUID)
  else bodies

/-- One pass of the `for` loop of `runSearchingWorker` or `runShippingWorker`: the database
it leaves, the identifiers it collected, the webhook posts its goroutines made (their order
is not fixed by the code), and whether the pass called `os.Exit(1)`, which ends the process
and with it every worker and the HTTP listener. -/
structure Pass where
  db : Database
  uids : List String
  webhooks : List domain.WebhookInput
  exit : Bool

/-- One pass of the `for` loop of `runSearchingWorker` under the store failures `f`; `now` is
the value of SQL `NOW()`. A failed `Begin`, `Query` or `Commit` exits the process with the
table as it was and before any post. -/
def searchingPass (f : sql.Faults) (delivery : Delivery) (now : time.Time) (db : Database) :
    Pass :=
  if f.beginFails then ⟨db, [], [], true⟩
  else if f.queryFails then ⟨db, [], [], true⟩
  else
    match db "shipments_3pl" with
    | none => ⟨db, [], [], true⟩
    | some rows =>
      let ids := ((rows.filter (fun r => decide (r.Status = "requested" ∧ r.StartTime ≤ now))).take
        100).map (fun r => r.ShipmentUID)
      let returned := (rows.filter (fun r => decide (r.ShipmentUID ∈ ids))).map
        (fun r => r.ShipmentUID)
      let uids := returned.filter (fun uid => !f.scanFails uid)
      if f.commitFails then ⟨db, [], [], true⟩
      else
        let db1 := db.set "shipments_3pl" (rows.map (fun r =>
          if r.ShipmentUID ∈ ids then
            { r with Status := "searching", StartTime := now + 5 * time.Minute }
          else r))
        if uids.length = 0 then ⟨db1, [], [], false⟩
        else
          let webhooks : List domain.WebhookInput :=
            uids.map (fun uid => { ShipmentUID := uid, Status := "searching" })
          ⟨db1, uids, posted delivery webhooks, webhooks.any (postFails delivery)⟩

/-- One pass of the `for` loop of `runShippingWorker` of the 3PL under the store failures
`f`; `now` is the value of SQL `NOW()`. -/
def shippingPass (f : sql.Faults) (delivery : Delivery) (now : time.Time) (db : Database) :
    Pass :=
  if f.beginFails then ⟨db, [], [], true⟩
  else if f.queryFails then ⟨db, [], [], true⟩
  else
    match db "shipments_3pl" with
    | none => ⟨db, [], [], true⟩
    | some rows =>
      let ids := ((rows.filter (fun r => decide (r.Status = "found" ∧ r.StartTime ≤ now))).take
        100).map (fun r => r.ShipmentUID)
      let returned := (rows.filter (fun r => decide (r.ShipmentUID ∈ ids))).map
        (fun r => r.ShipmentUID)
      let uids := returned.filter (fun uid => !f.scanFails uid)
      if f.commitFails then ⟨db, [], [], true⟩
      else
        let db1 := db.set "shipments_3pl" (rows.map (fun r =>
          if r.ShipmentUID ∈ ids then { r with Status := "shipped", StartTime := now } else r))
        if uids.length = 0 then ⟨db1, [], [], false⟩
        else
          let webhooks : List domain.WebhookInput :=
            uids.map (fun uid => { ShipmentUID := uid, Status := "shipped" })
          ⟨db1, uids, posted delivery webhooks, webhooks.any (postFails delivery)⟩

/-- One pass of the `for` loop of `runFindingWorker`: the database it leaves, the shipments
it scanned, the webhook posts its goroutines made, and whether it called `os.Exit(1)`. -/
structure FindingPass where
  db : Database
  shipments : List Shipment
  webhooks : List domain.WebhookInput
  exit : Bool

/-- The zero `time.Time`, 0001-01-01 00:00:00 UTC. -/
def zeroTime : time.Time := -62135596800 * time.Second

/-- The `rows.Scan(&shipment.ShipmentUID, &shipment.Retries, &shipment.Status)` of a selected
row: `StartTime` is not selected and keeps its zero value. -/
def scanShipment (r : Shipment) : Shipment :=
  { ShipmentUID := r.ShipmentUID, StartTime := zeroTime, Retries := r.Retries, Status := r.Status }

/-- The statement `update shipments_3pl set status = $1 where shipment_uid = $2`. -/
def setStatus (rows : List Shipment) (status : String) (uid : String) : List Shipment :=
  rows.map (fun r => if r.ShipmentUID = uid then { r with Status := status } else r)

/-- One pass of the `for` loop of `runFindingWorker` under the store failures `f`; `now` is
the value of SQL `NOW()`. The first loop over `shipments` assigns "found" to the `Status` of
its loop variable, a copy of the element, and passes that to the `update`; the elements of
`shipments`, which the goroutines of the second loop read, keep the status scanned from the
row. -/
def findingPass (f : sql.Faults) (delivery : Delivery) (now : time.Time) (db : Database) :
    FindingPass :=
  if f.beginFails then ⟨db, [], [], true⟩
  else if f.queryFails then ⟨db, [], [], true⟩
  else
    match db "shipments_3pl" with
    | none => ⟨db, [], [], true⟩
    | some rows =>
      let selected := (rows.filter (fun r =>
        decide (r.Status = "searching" ∧ r.StartTime ≤ now + 5 * time.Minute))).take 100
      let shipments := (selected.filter (fun r => !f.scanFails r.ShipmentUID)).map scanShipment
      if shipments.length = 0 then
        if f.commitFails then ⟨db, [], [], true⟩ else ⟨db, [], [], false⟩
      else if f.execFails then ⟨db, [], [], true⟩
      else
        let rows1 := shipments.foldl (fun acc shipment =>
          let copy : Shipment := { shipment with Status := "found" }
          setStatus acc copy.Status copy.ShipmentUID) rows
        if f.commitFails then ⟨db, [], [], true⟩
        else
          let webhooks : List domain.WebhookInput := shipments.map (fun shipment =>
            { ShipmentUID := shipment.ShipmentUID
              Status := if shipment.Status ≠ "found" then "not_found" else shipment.Status })
          ⟨db.set "shipments_3pl" rows1, shipments, posted delivery webhooks,
            webhooks.any (postFails delivery)⟩

end threepl

/-! ## Concrete inputs -/

/-- A request whose window is `[0h, 2h]`, to be validated at the instant `2h`. -/
def requestEndingNow : domain.RequestInput :=
  { ShipmentUID := "s1"
    UserInfo := { UserUID := "u1", Address := "a1" }
    RoutingInfo := { Origin := { Lat := 0, Long := 0 }, Destination := { Lat := 0, Long := 0 } }
    ScheduledDeliveryWindow := { StartTime := 0, EndTime := 7200000000000 } }

/-- A 3PL database whose only relation is `shipments_3pl`, with the given rows. -/
def trackingOnly (rows : List threepl.Shipment) : threepl.Database :=
  fun name => if name = "shipments_3pl" then some rows else none

/-- A 3PL database that also has an (empty) relation named `shipment_3pl`. -/
def trackingAndTwin (rows : List threepl.Shipment) : threepl.Database :=
  fun name =>
    if name = "shipments_3pl" then some rows
    else if name = "shipment_3pl" then some []
    else none

/-- The worker configuration of `cmd/delivery/main.go`. -/
def workerConfig : config.WorkerConfig :=
  { PendingIntervalInSeconds := 3600, PendingWorkerBatchSize := 100, ShipmentWorkerBatchSize := 100 }

/-- A row of table `shipments` with the given identifier and status, at the origin of the
map, with the window `[0h, 2h]`. -/
def rowOf (uid status : String) : repo.Row :=
  { uid := uid, user_uid := "u1", user_addr := "a1",
    origin_point := repo.point 0 0, destination_point := repo.point 0 0,
    scheduled_delivery_min_time := 0, scheduled_delivery_max_time := 7200000000000,
    status := status }

/-- A table with two pending shipments and a queued one. -/
def dispatchTable : repo.DB := [rowOf "s1" "pending", rowOf "s2" "pending", rowOf "s3" "queued"]

/-- A 3PL collaborator whose `RequestDeliveryGuy` fails for the one identifier `uid`. -/
def failingFor (uid : String) : usecase.ThirdPartyLogistics :=
  fun input => if input.ShipmentUID = uid then some "connection refused" else none

/-- A request for shipment `s1` with origin latitude 91 and longitude 0. -/
def requestLat91 : domain.RequestInput :=
  { ShipmentUID := "s1"
    UserInfo := { UserUID := "u1", Address := "a1" }
    RoutingInfo := { Origin := { Lat := 91, Long := 0 }, Destination := { Lat := 0, Long := 0 } }
    ScheduledDeliveryWindow := { StartTime := 0, EndTime := 7200000000000 } }

/-- A shipment from (lat 10, long 20) to (lat 30, long 40). -/
def shipmentTenTwenty : domain.Shipment :=
  { UID := "s1", UserUID := "u1", UserAddr := "a1"
    OriginPoint := { Lat := 10, Long := 20 }
    DestinationPoint := { Lat := 30, Long := 40 }
    ScheduledDeliveryMinTime := 0, ScheduledDeliveryMaxTime := 7200000000000
    Status := "requested" }

/-- A worker configuration whose batch size is 0. -/
def zeroBatchConfig : config.WorkerConfig :=
  { PendingIntervalInSeconds := 3600, PendingWorkerBatchSize := 0, ShipmentWorkerBatchSize := 0 }

/-- A worker configuration whose batch size is 2. -/
def batchOfTwo : config.WorkerConfig :=
  { PendingIntervalInSeconds := 3600, PendingWorkerBatchSize := 2, ShipmentWorkerBatchSize := 2 }

/-- A table with three queued shipments whose window starts at instant 0, and a requested
one. -/
def queuedTable : repo.DB :=
  [rowOf "s1" "queued", rowOf "s2" "queued", rowOf "s3" "requested", rowOf "s4" "queued"]

/-- Tracking rows: `a` requested and due at instant 0, `b` requested and due at instant 5000,
`c` searching and due at 0, `d` found and due at 0. -/
def trackingRows : List threepl.Shipment :=
  [⟨"a", 0, 1, "requested"⟩, ⟨"b", 5000, 1, "requested"⟩, ⟨"c", 0, 1, "searching"⟩,
    ⟨"d", 0, 1, "found"⟩]

/-- A delivery service that answers every webhook with 200. -/
def deliveryOk : threepl.Delivery := { respond := fun _ => .ok 200, reached := fun _ => true }

/-- Store failures of a pass in which the `rows.Scan` of the row `uid` fails. -/
def scanFailure (uid : String) : sql.Faults :=
  { sql.noFaults with scanFails := fun u => decide (u = uid) }

/-- Store failures of a pass in which the `rows.Scan` of the rows `uids` fails. -/
def scanFailureOf (uids : List String) : sql.Faults :=
  { sql.noFaults with scanFails := fun u => decide (u ∈ uids) }

/-- A 3PL collaborator whose `RequestDeliveryGuy` fails for every shipment. -/
def alwaysFailing : usecase.ThirdPartyLogistics := fun _ => some "connection refused"

/-- The 3PL collaborators of the passes of a call: failing for every shipment in pass 0,
succeeding afterwards. -/
def failingFirstPass : Nat → usecase.ThirdPartyLogistics :=
  fun k => if k = 0 then alwaysFailing else fun _ => none

/-- Tracking rows: `a` requested and due at instant 0, `b` requested and due at instant 1000,
`e` requested and due at instant 1001, `c` searching and due at 0. -/
def requestedRows : List threepl.Shipment :=
  [⟨"a", 0, 1, "requested"⟩, ⟨"b", 1000, 1, "requested"⟩, ⟨"e", 1001, 1, "requested"⟩,
    ⟨"c", 0, 1, "searching"⟩]

/-- A delivery service that answers the webhook for `a` with 500 and every other with 200, met
by a pass in which only the goroutine of `a` has posted when that answer ends the process. -/
def deliveryRefusingA : threepl.Delivery :=
  { respond := fun body => if body.ShipmentUID = "a" then .ok 500 else .ok 200
    reached := fun uid => decide (uid = "a") }

theorem time_Hour_eq : time.Hour = (3600000000000 : Int) := by
  norm_num [time.Hour, time.Minute, time.Second]

theorem saturate_eq_iff (d : Int) :
    (if d < -9223372036854775808 then (-9223372036854775808 : Int)
      else if 9223372036854775807 < d then 9223372036854775807 else d) = 2 * 3600000000000
      ↔ d = 2 * 3600000000000 := by
  split_ifs <;> constructor <;> intro h <;> omega

theorem time_Sub_eq_two_hours (t u : time.Time) :
    time.Sub t u = 2 * time.Hour ↔ t - u = 2 * time.Hour := by
  have hmin : time.minDuration = (-9223372036854775808 : Int) := by
    norm_num [time.minDuration]
  have hmax : time.maxDuration = (9223372036854775807 : Int) := by
    norm_num [time.maxDuration]
  unfold time.Sub
  rw [hmin, hmax, time_Hour_eq]
  exact saturate_eq_iff (t - u)

theorem Location_Validate_none_iff (o : domain.Location) :
    o.Validate = none ↔ (-90 ≤ o.Lat ∧ o.Lat ≤ 90) ∧ (-180 ≤ o.Long ∧ o.Long ≤ 180) := by
  unfold domain.Location.Validate
  split_ifs with h1 h2
  · simp only [reduceCtorEq, false_iff, not_and, not_le]
    intro h
    rcases h1 with h1 | h1
    · exact absurd h.1 (not_le.mpr h1)
    · exact absurd h.2 (not_le.mpr h1)
  · simp only [reduceCtorEq, false_iff, not_and, not_le]
    intro _ h
    rcases h2 with h2 | h2
    · exact absurd h (not_le.mpr h2)
    · exact h2
  · push_neg at h1 h2
    simp only [true_iff]
    exact ⟨h1, h2⟩

theorem UserInfo_Validate_none_iff (o : domain.UserInfo) :
    o.Validate = none ↔ o.UserUID ≠ "" ∧ o.Address ≠ "" := by
  unfold domain.UserInfo.Validate
  by_cases h1 : o.UserUID = "" <;> by_cases h2 : o.Address = "" <;> simp [h1, h2]

theorem RoutingInfo_Validate_none_iff (o : domain.RoutingInfo) :
    o.Validate = none ↔ o.Origin.Validate = none ∧ o.Destination.Validate = none := by
  unfold domain.RoutingInfo.Validate
  cases h1 : o.Origin.Validate <;> cases h2 : o.Destination.Validate <;> simp

theorem Window_Validate_none_iff (o : domain.ScheduledDeliveryWindow) (now : time.Time) :
    o.Validate now = none ↔ now ≤ o.EndTime ∧ o.EndTime - o.StartTime = 2 * time.Hour := by
  unfold domain.ScheduledDeliveryWindow.Validate time.Before
  by_cases h1 : o.EndTime < now
  · simp [h1]
  · by_cases h2 : o.EndTime - o.StartTime = 2 * time.Hour
    · simp [h1, h2, not_lt.mp h1, (time_Sub_eq_two_hours _ _).mpr h2]
    · have h3 : ¬ time.Sub o.EndTime o.StartTime = 2 * time.Hour :=
        fun h => h2 ((time_Sub_eq_two_hours _ _).mp h)
      simp [h1, h2, h3]

/-- C2 (amended): `RequestInput.Validate`, evaluated at request time `now`, returns no error
if and only if `shipment_uid`, `user_uid` and `address` are non-empty, the origin and the
destination have latitude in [-90,90] and longitude in [-180,180], `end_time` is not before
`now` (`end_time >= now`: the instant `now` itself is accepted), and `end_time - start_time`
is exactly two hours. -/
theorem RequestInput_Validate_none_iff (o : domain.RequestInput) (now : time.Time) :
    o.Validate now = none ↔
      (o.ShipmentUID ≠ "" ∧ o.UserInfo.UserUID ≠ "" ∧ o.UserInfo.Address ≠ "") ∧
      ((-90 ≤ o.RoutingInfo.Origin.Lat ∧ o.RoutingInfo.Origin.Lat ≤ 90) ∧
        (-180 ≤ o.RoutingInfo.Origin.Long ∧ o.RoutingInfo.Origin.Long ≤ 180)) ∧
      ((-90 ≤ o.RoutingInfo.Destination.Lat ∧ o.RoutingInfo.Destination.Lat ≤ 90) ∧
        (-180 ≤ o.RoutingInfo.Destination.Long ∧ o.RoutingInfo.Destination.Long ≤ 180)) ∧
      now ≤ o.ScheduledDeliveryWindow.EndTime ∧
      o.ScheduledDeliveryWindow.EndTime - o.ScheduledDeliveryWindow.StartTime
        = 2 * time.Hour := by
  rw [← Location_Validate_none_iff, ← Location_Validate_none_iff,
    ← Window_Validate_none_iff, ← and_assoc (a := o.RoutingInfo.Origin.Validate = none),
    ← RoutingInfo_Validate_none_iff, and_assoc, ← UserInfo_Validate_none_iff]
  unfold domain.RequestInput.Validate
  by_cases h0 : o.ShipmentUID = ""
  · simp [h0]
  · cases h1 : o.UserInfo.Validate <;> cases h2 : o.RoutingInfo.Validate <;>
      cases h3 : o.ScheduledDeliveryWindow.Validate now <;> simp [h0]

/-- C2 (counterexample): a request whose `end_time` equals the request time `now` passes
`RequestInput.Validate` although its `end_time` is not strictly in the future, so the
equivalence stated by the claim fails there. -/
theorem RequestInput_Validate_accepts_end_time_now :
    ¬ (domain.RequestInput.Validate requestEndingNow 7200000000000 = none ↔
      (requestEndingNow.ShipmentUID ≠ "" ∧ requestEndingNow.UserInfo.UserUID ≠ "" ∧
        requestEndingNow.UserInfo.Address ≠ "") ∧
      ((-90 ≤ requestEndingNow.RoutingInfo.Origin.Lat ∧
          requestEndingNow.RoutingInfo.Origin.Lat ≤ 90) ∧
        (-180 ≤ requestEndingNow.RoutingInfo.Origin.Long ∧
          requestEndingNow.RoutingInfo.Origin.Long ≤ 180)) ∧
      ((-90 ≤ requestEndingNow.RoutingInfo.Destination.Lat ∧
          requestEndingNow.RoutingInfo.Destination.Lat ≤ 90) ∧
        (-180 ≤ requestEndingNow.RoutingInfo.Destination.Long ∧
          requestEndingNow.RoutingInfo.Destination.Long ≤ 180)) ∧
      requestEndingNow.ScheduledDeliveryWindow.EndTime > 7200000000000 ∧
      requestEndingNow.ScheduledDeliveryWindow.EndTime -
        requestEndingNow.ScheduledDeliveryWindow.StartTime = 2 * time.Hour) := by
  intro h
  have hv : domain.RequestInput.Validate requestEndingNow 7200000000000 = none := by
    decide
  have := (h.mp hv).2.2.2.1
  simp [requestEndingNow] at this

/-! ## Request -/

theorem InsertShipment_ok_iff (db : repo.DB) (s : domain.Shipment) (db1 : repo.DB) :
    repo.InsertShipment db s = .ok db1 ↔
      repo.uniqueViolation db s.UID = false ∧ db1 = db ++ [repo.insertedRow s] := by
  unfold repo.InsertShipment
  cases h : repo.uniqueViolation db s.UID <;> simp [eq_comm]

theorem filter_uid_eq_nil_of_not_violation (db : repo.DB) (uid : String)
    (h : repo.uniqueViolation db uid = false) :
    db.filter (fun r => decide (r.uid = uid)) = [] := by
  unfold repo.uniqueViolation at h
  rw [List.filter_eq_nil_iff]
  intro r hr
  have := (List.any_eq_false.mp h) r hr
  simpa using this

theorem Request_db_of_insert (_3pl : usecase.ThirdPartyLogistics)
    (nowValidate now : time.Time) (db : repo.DB) (input : domain.RequestInput)
    (hv : input.Validate nowValidate = none)
    (hins : repo.uniqueViolation db input.ShipmentUID = false) :
    (usecase.Request _3pl nowValidate now db input).db = db ++ [repo.insertedRow
      ⟨input.ShipmentUID, input.UserInfo.UserUID, input.UserInfo.Address,
        input.RoutingInfo.Origin, input.RoutingInfo.Destination,
        input.ScheduledDeliveryWindow.StartTime, input.ScheduledDeliveryWindow.EndTime,
        if time.Before input.ScheduledDeliveryWindow.StartTime now then "requested"
        else "queued"⟩] := by
  unfold usecase.Request
  simp only [hv, repo.InsertShipment, hins]
  by_cases hlt : time.Before input.ScheduledDeliveryWindow.StartTime now = true
  · simp only [hlt, if_true]
    cases _3pl _ <;> simp
  · simp [hlt]

theorem Request_db_of_refused (_3pl : usecase.ThirdPartyLogistics)
    (nowValidate now : time.Time) (db : repo.DB) (input : domain.RequestInput)
    (h : input.Validate nowValidate ≠ none ∨ repo.uniqueViolation db input.ShipmentUID = true) :
    (usecase.Request _3pl nowValidate now db input).db = db := by
  unfold usecase.Request
  cases hv : input.Validate nowValidate with
  | some e => rfl
  | none =>
    have hu : repo.uniqueViolation db input.ShipmentUID = true := by
      rcases h with h | h
      · exact absurd hv h
      · exact h
    simp [repo.InsertShipment, hu]

/-- C1: for every `RequestInput` that passes validation and whose store insert succeeds (the
identifier is not yet in the table), `usecase.Request` appends exactly one row to the table,
the row `InsertShipment` writes for a Shipment whose UID, user, origin, destination and window
are those of the input, and whose status is "requested" if and only if the window start time
is before the clock reading `now` of the creation, and "queued" otherwise; it is the only row
of the table with that identifier. -/
theorem Request_inserts_one_shipment (_3pl : usecase.ThirdPartyLogistics)
    (nowValidate now : time.Time) (db : repo.DB) (input : domain.RequestInput)
    (hv : input.Validate nowValidate = none)
    (hins : repo.uniqueViolation db input.ShipmentUID = false) :
    ∃ s : domain.Shipment,
      (usecase.Request _3pl nowValidate now db input).db = db ++ [repo.insertedRow s] ∧
      repo.InsertShipment db s = .ok (usecase.Request _3pl nowValidate now db input).db ∧
      s.UID = input.ShipmentUID ∧
      s.UserUID = input.UserInfo.UserUID ∧
      s.UserAddr = input.UserInfo.Address ∧
      s.OriginPoint = input.RoutingInfo.Origin ∧
      s.DestinationPoint = input.RoutingInfo.Destination ∧
      s.ScheduledDeliveryMinTime = input.ScheduledDeliveryWindow.StartTime ∧
      s.ScheduledDeliveryMaxTime = input.ScheduledDeliveryWindow.EndTime ∧
      (s.Status = "requested" ↔ input.ScheduledDeliveryWindow.StartTime < now) ∧
      (s.Status = "queued" ↔ ¬ input.ScheduledDeliveryWindow.StartTime < now) ∧
      ((usecase.Request _3pl nowValidate now db input).db.filter
        (fun r => decide (r.uid = input.ShipmentUID))).length = 1 := by
  have hnil := filter_uid_eq_nil_of_not_violation db input.ShipmentUID hins
  refine ⟨⟨input.ShipmentUID, input.UserInfo.UserUID, input.UserInfo.Address,
    input.RoutingInfo.Origin, input.RoutingInfo.Destination,
    input.ScheduledDeliveryWindow.StartTime, input.ScheduledDeliveryWindow.EndTime,
    if time.Before input.ScheduledDeliveryWindow.StartTime now then "requested" else "queued"⟩,
    ?_⟩
  have hdb := Request_db_of_insert _3pl nowValidate now db input hv hins
  rw [hdb]
  by_cases hlt : input.ScheduledDeliveryWindow.StartTime < now <;>
    simp [repo.InsertShipment, hins, hlt, List.filter_append, hnil, repo.insertedRow,
      time.Before]

theorem requestEndingNow_valid : domain.RequestInput.Validate requestEndingNow 0 = none := by
  decide

/-- C1 (witness): the request `requestEndingNow`, validated at instant 0 and created at
instant 1 against an empty table. -/
theorem Request_inserts_one_shipment_witness :
    domain.RequestInput.Validate requestEndingNow 0 = none ∧
    repo.uniqueViolation [] requestEndingNow.ShipmentUID = false ∧
    ∃ s : domain.Shipment,
      (usecase.Request (fun _ => none) 0 1 [] requestEndingNow).db
        = [] ++ [repo.insertedRow s] ∧
      repo.InsertShipment [] s
        = .ok (usecase.Request (fun _ => none) 0 1 [] requestEndingNow).db ∧
      s.UID = requestEndingNow.ShipmentUID ∧
      s.UserUID = requestEndingNow.UserInfo.UserUID ∧
      s.UserAddr = requestEndingNow.UserInfo.Address ∧
      s.OriginPoint = requestEndingNow.RoutingInfo.Origin ∧
      s.DestinationPoint = requestEndingNow.RoutingInfo.Destination ∧
      s.ScheduledDeliveryMinTime = requestEndingNow.ScheduledDeliveryWindow.StartTime ∧
      s.ScheduledDeliveryMaxTime = requestEndingNow.ScheduledDeliveryWindow.EndTime ∧
      (s.Status = "requested" ↔ requestEndingNow.ScheduledDeliveryWindow.StartTime < 1) ∧
      (s.Status = "queued" ↔ ¬ requestEndingNow.ScheduledDeliveryWindow.StartTime < 1) ∧
      ((usecase.Request (fun _ => none) 0 1 [] requestEndingNow).db.filter
        (fun r => decide (r.uid = requestEndingNow.ShipmentUID))).length = 1 :=
  ⟨requestEndingNow_valid, by decide,
    Request_inserts_one_shipment (fun _ => none) 0 1 [] requestEndingNow
      requestEndingNow_valid (by decide)⟩

/-! ## Intake of the 3PL simulator -/

theorem requestHandler_of_existing (now : time.Time) (db : threepl.Database) (uid : String)
    (row : threepl.Shipment) (h : threepl.queryRow db "shipments_3pl" uid = .ok (some row)) :
    (threepl.requestHandler now db (some uid)).1 "shipments_3pl" = db "shipments_3pl" ∧
    (db "shipment_3pl" = none → threepl.requestHandler now db (some uid) = (db, 500)) := by
  unfold threepl.requestHandler
  simp only [h]
  unfold threepl.execUpdate
  cases h2 : db "shipment_3pl" with
  | none => simp
  | some rows =>
    have hne : ¬ ("shipments_3pl" = "shipment_3pl") := by decide
    simp [threepl.Database.set, hne]

theorem requestHandler_of_absent (now : time.Time) (db : threepl.Database) (uid : String)
    (rows : List threepl.Shipment) (h : db "shipments_3pl" = some rows)
    (hrow : rows.find? (fun r => decide (r.ShipmentUID = uid)) = none) :
    (threepl.requestHandler now db (some uid)).1 "shipments_3pl"
      = some (rows ++ [⟨uid, now + 5 * time.Minute, 1, "requested"⟩]) ∧
    (threepl.requestHandler now db (some uid)).2 = 200 := by
  unfold threepl.requestHandler threepl.queryRow
  simp [h, hrow, threepl.execInsert, threepl.Database.set]

theorem intakeCalls_of_existing (uid : String) (nows : List time.Time) :
    ∀ (db : threepl.Database) (rows : List threepl.Shipment) (row : threepl.Shipment),
      db "shipments_3pl" = some rows →
      rows.find? (fun r => decide (r.ShipmentUID = uid)) = some row →
      (threepl.intakeCalls uid nows db).1 "shipments_3pl" = some rows := by
  induction nows with
  | nil => intro db rows row h _; simpa [threepl.intakeCalls] using h
  | cons now rest ih =>
    intro db rows row h hrow
    have hq : threepl.queryRow db "shipments_3pl" uid = .ok (some row) := by
      simp [threepl.queryRow, h, hrow]
    have h1 := (requestHandler_of_existing now db uid row hq).1
    simp only [threepl.intakeCalls]
    exact ih _ rows row (h1.trans h) hrow

theorem intakeCalls_retries_stay_one (uid : String) (now : time.Time) (rest : List time.Time)
    (db : threepl.Database) (rows : List threepl.Shipment)
    (h : db "shipments_3pl" = some rows)
    (hrow : rows.find? (fun r => decide (r.ShipmentUID = uid)) = none) :
    (threepl.intakeCalls uid (now :: rest) db).1 "shipments_3pl"
      = some (rows ++ [⟨uid, now + 5 * time.Minute, 1, "requested"⟩]) := by
  have h1 := (requestHandler_of_absent now db uid rows h hrow).1
  simp only [threepl.intakeCalls]
  refine intakeCalls_of_existing uid rest _ _ ⟨uid, now + 5 * time.Minute, 1, "requested"⟩ h1 ?_
  rw [List.find?_append, hrow]
  simp

/-- C3 (the code at the failing input): an intake call for an identifier that already has a
tracking row sends its `update` to the relation `shipment_3pl`, not to `shipments_3pl`. With
a row of retries 1 the request is answered 500 and the row keeps retries 1 and its next-check
time; with a row of retries 3 and status "searching" the row keeps status "searching"; and
where a relation `shipment_3pl` does exist the request is answered 200 and the tracking row
is unchanged all the same. -/
theorem requestHandler_existing_row_not_updated :
    (threepl.requestHandler 1000 (trackingOnly [⟨"u", 0, 1, "requested"⟩]) (some "u")).2 = 500 ∧
    (threepl.requestHandler 1000 (trackingOnly [⟨"u", 0, 1, "requested"⟩]) (some "u")).1
      "shipments_3pl" = some [⟨"u", 0, 1, "requested"⟩] ∧
    (threepl.requestHandler 1000 (trackingOnly [⟨"u", 0, 3, "searching"⟩]) (some "u")).2 = 500 ∧
    (threepl.requestHandler 1000 (trackingOnly [⟨"u", 0, 3, "searching"⟩]) (some "u")).1
      "shipments_3pl" = some [⟨"u", 0, 3, "searching"⟩] ∧
    (threepl.requestHandler 1000 (trackingAndTwin [⟨"u", 0, 1, "requested"⟩]) (some "u")).2 = 200 ∧
    (threepl.requestHandler 1000 (trackingAndTwin [⟨"u", 0, 1, "requested"⟩]) (some "u")).1
      "shipments_3pl" = some [⟨"u", 0, 1, "requested"⟩] := by
  decide

/-- C4 (the code at the failing input): two consecutive intake calls for a new identifier
`u`: the first is answered 200 and inserts the row with retries 1, the second is answered 500
and leaves that single row with retries 1 (not 2) and status "requested"; where a relation
`shipment_3pl` exists the second call is answered 200 and the row keeps retries 1 as well. -/
theorem intakeCalls_twice_new_identifier :
    (threepl.intakeCalls "u" [1000, 2000] (trackingOnly [])).2 = [200, 500] ∧
    (threepl.intakeCalls "u" [1000, 2000] (trackingOnly [])).1 "shipments_3pl"
      = some [⟨"u", 1000 + 5 * time.Minute, 1, "requested"⟩] ∧
    (threepl.intakeCalls "u" [1000, 2000] (trackingAndTwin [])).2 = [200, 200] ∧
    (threepl.intakeCalls "u" [1000, 2000] (trackingAndTwin [])).1 "shipments_3pl"
      = some [⟨"u", 1000 + 5 * time.Minute, 1, "requested"⟩] := by
  decide

/-- C5 (the code at the failing input): after two, three and four consecutive intake calls
for a new identifier the retry count of its row is 1, not min(n, 3), and after the fourth
call its status is still "requested", not "found". -/
theorem intakeCalls_retries_not_counted :
    (threepl.intakeCalls "u" [1000, 2000] (trackingOnly [])).1 "shipments_3pl"
      = some [⟨"u", 1000 + 5 * time.Minute, 1, "requested"⟩] ∧
    (threepl.intakeCalls "u" [1000, 2000, 3000] (trackingOnly [])).1 "shipments_3pl"
      = some [⟨"u", 1000 + 5 * time.Minute, 1, "requested"⟩] ∧
    (threepl.intakeCalls "u" [1000, 2000, 3000, 4000] (trackingOnly [])).1 "shipments_3pl"
      = some [⟨"u", 1000 + 5 * time.Minute, 1, "requested"⟩] ∧
    (threepl.intakeCalls "u" [1000, 2000, 3000, 4000] (trackingOnly [])).2
      = [200, 500, 500, 500] := by
  decide

/-! ## The store as a keyed table -/

theorem row_eq_of_uid_eq {db : repo.DB} (hkey : (db.map (fun r => r.uid)).Nodup)
    {r r1 : repo.Row} (hr : r ∈ db) (hr1 : r1 ∈ db) (h : r.uid = r1.uid) : r = r1 :=
  List.inj_on_of_nodup_map hkey hr hr1 h

theorem find_uid_of_mem {db : repo.DB} (hkey : (db.map (fun r => r.uid)).Nodup)
    {r : repo.Row} (hr : r ∈ db) :
    db.find? (fun x => decide (x.uid = r.uid)) = some r := by
  cases h : db.find? (fun x => decide (x.uid = r.uid)) with
  | none =>
    have := List.find?_eq_none.mp h r hr
    simp at this
  | some r1 =>
    have h1 : r1.uid = r.uid := by simpa using List.find?_some h
    have h2 : r1 ∈ db := List.mem_of_find?_eq_some h
    rw [row_eq_of_uid_eq hkey h2 hr h1]

theorem find_updateStatusIn (db : repo.DB) (status : String) (uids : List String) (u : String) :
    (app.updateStatusIn db status uids).find? (fun x => decide (x.uid = u))
      = (db.find? (fun x => decide (x.uid = u))).map
          (fun r => if r.uid ∈ uids then { r with status := status } else r) := by
  unfold app.updateStatusIn
  rw [List.find?_map]
  have hcomp : ((fun x : repo.Row => decide (x.uid = u)) ∘
      (fun r : repo.Row => if r.uid ∈ uids then { r with status := status } else r))
      = fun x => decide (x.uid = u) := by
    funext r
    simp only [Function.comp]
    split_ifs <;> rfl
  rw [hcomp]

theorem limit_ok_sublist {α : Type} (n : Int) (l rows : List α)
    (h : app.limit n l = .ok rows) : rows.Sublist l := by
  unfold app.limit at h
  split_ifs at h
  simp only [Except.ok.injEq] at h
  subst h
  exact List.take_sublist _ _

theorem limit_ok_mem {α : Type} (n : Int) (l rows : List α) (h : app.limit n l = .ok rows) :
    ∀ r ∈ rows, r ∈ l :=
  fun _ hr => (limit_ok_sublist n l rows h).subset hr

/-- What one pass of `runShippingWorker` does, by cases on the batch it selected. -/
theorem shippingCycle_cases (_3pl : usecase.ThirdPartyLogistics) (cfg : config.WorkerConfig)
    (db : repo.DB) :
    ((app.shippingCycle _3pl cfg db).shipments = [] ∧
      (app.shippingCycle _3pl cfg db).db = db ∧
      (app.shippingCycle _3pl cfg db).requests = [] ∧
      (app.shippingCycle _3pl cfg db).webhooks = []) ∨
    (∃ rows : List repo.Row,
      rows.Sublist db ∧
      (∀ r ∈ rows, r ∈ db ∧ r.status = "pending") ∧
      (app.shippingCycle _3pl cfg db).shipments = rows.map repo.scanShipment ∧
      (app.shippingCycle _3pl cfg db).shipmentRequestUIDs
        = ((rows.map repo.scanShipment).filter
            (fun s => (_3pl (app.deliveryGuyInput s)).isNone)).map (fun s => s.UID) ∧
      (app.shippingCycle _3pl cfg db).db
        = app.updateStatusIn db "requested" (app.shippingCycle _3pl cfg db).shipmentRequestUIDs ∧
      (app.shippingCycle _3pl cfg db).requests
        = (app.shippingCycle _3pl cfg db).shipments.map app.deliveryGuyInput ∧
      (app.shippingCycle _3pl cfg db).webhooks
        = (app.shippingCycle _3pl cfg db).shipmentRequestUIDs.map
            (fun uid => { ShipmentUID := uid, Status := "requested" })) := by
  unfold app.shippingCycle
  cases hl : app.limit cfg.PendingWorkerBatchSize
      (db.filter (fun r => decide (r.status = "pending"))) with
  | error e => left; exact ⟨rfl, rfl, rfl, rfl⟩
  | ok rows =>
    dsimp only
    by_cases hlen : (List.map repo.scanShipment rows).length = 0
    · left
      rw [if_pos hlen]
      exact ⟨rfl, rfl, rfl, rfl⟩
    · right
      rw [if_neg hlen]
      refine ⟨rows, (limit_ok_sublist _ _ _ hl).trans (List.filter_sublist _), ?_,
        rfl, rfl, rfl, rfl, rfl⟩
      intro r hr
      have := List.mem_filter.mp (limit_ok_mem _ _ _ hl r hr)
      exact ⟨this.1, by simpa using this.2⟩

theorem mem_shipmentRequestUIDs {db : repo.DB} (hkey : (db.map (fun r => r.uid)).Nodup)
    (_3pl : usecase.ThirdPartyLogistics) (rows : List repo.Row) (hrows : ∀ r ∈ rows, r ∈ db)
    {r : repo.Row} (hr : r ∈ db) :
    r.uid ∈ ((rows.map repo.scanShipment).filter
        (fun s => (_3pl (app.deliveryGuyInput s)).isNone)).map (fun s => s.UID)
      ↔ r ∈ rows ∧ _3pl (app.deliveryGuyInput (repo.scanShipment r)) = none := by
  constructor
  · intro h
    obtain ⟨s, hs, hsu⟩ := List.mem_map.mp h
    obtain ⟨hs1, hs2⟩ := List.mem_filter.mp hs
    obtain ⟨r0, hr0, rfl⟩ := List.mem_map.mp hs1
    have hu : r0.uid = r.uid := hsu
    have : r0 = r := row_eq_of_uid_eq hkey (hrows r0 hr0) hr hu
    subst this
    exact ⟨hr0, by simpa using hs2⟩
  · rintro ⟨h1, h2⟩
    refine List.mem_map.mpr ⟨repo.scanShipment r, List.mem_filter.mpr ⟨?_, ?_⟩, rfl⟩
    · exact List.mem_map.mpr ⟨r, h1, rfl⟩
    · simp [h2]

/-- C6: in one cycle of the Dispatch Worker over a table keyed by `uid`, every selected
shipment was a "pending" row; a selected shipment whose `RequestDeliveryGuy` call returned no
error has status "requested" after the cycle and the core collaborator is sent its
"requested" notification; a selected shipment whose call failed still has status "pending"
and no notification is sent for it; a row that was not selected is unchanged; and the
notifications sent are, once each, those of the selected shipments whose call succeeded. -/
theorem shippingCycle_transitions_succeeded (_3pl : usecase.ThirdPartyLogistics)
    (cfg : config.WorkerConfig) (db : repo.DB) (hkey : (db.map (fun r => r.uid)).Nodup) :
    (∀ s ∈ (app.shippingCycle _3pl cfg db).shipments,
      (∃ r ∈ db, r.status = "pending" ∧ repo.scanShipment r = s) ∧
      (_3pl (app.deliveryGuyInput s) = none →
        (((app.shippingCycle _3pl cfg db).db.find? (fun r => decide (r.uid = s.UID))).map
            (fun r => r.status) = some "requested" ∧
          ({ ShipmentUID := s.UID, Status := "requested" } : domain.CoreWebhookInput)
            ∈ (app.shippingCycle _3pl cfg db).webhooks)) ∧
      (_3pl (app.deliveryGuyInput s) ≠ none →
        (((app.shippingCycle _3pl cfg db).db.find? (fun r => decide (r.uid = s.UID))).map
            (fun r => r.status) = some "pending" ∧
          ({ ShipmentUID := s.UID, Status := "requested" } : domain.CoreWebhookInput)
            ∉ (app.shippingCycle _3pl cfg db).webhooks))) ∧
    (∀ r ∈ db, repo.scanShipment r ∉ (app.shippingCycle _3pl cfg db).shipments →
      (app.shippingCycle _3pl cfg db).db.find? (fun x => decide (x.uid = r.uid)) = some r) ∧
    (∀ w ∈ (app.shippingCycle _3pl cfg db).webhooks, w.Status = "requested" ∧
      ∃ s ∈ (app.shippingCycle _3pl cfg db).shipments,
        s.UID = w.ShipmentUID ∧ _3pl (app.deliveryGuyInput s) = none) ∧
    (app.shippingCycle _3pl cfg db).webhooks.Nodup := by
  rcases shippingCycle_cases _3pl cfg db with ⟨h1, h2, _, h4⟩ | ⟨rows, hsl, hrows, h1, h2, h3, _, h5⟩
  · rw [h1, h2, h4]
    refine ⟨by simp, ?_, by simp, by simp⟩
    intro r hr _
    exact find_uid_of_mem hkey hr
  · have hmem := fun r hr => (hrows r hr).1
    have hiff := fun {r : repo.Row} (hr : r ∈ db) =>
      mem_shipmentRequestUIDs hkey _3pl rows hmem hr
    rw [h5, h3, h2, h1]
    refine ⟨?_, ?_, ?_, ?_⟩
    · intro s hs
      obtain ⟨r, hr, rfl⟩ := List.mem_map.mp hs
      have hrdb := hmem r hr
      have hfind : db.find? (fun x => decide (x.uid = (repo.scanShipment r).UID)) = some r :=
        find_uid_of_mem hkey hrdb
      refine ⟨⟨r, hrdb, (hrows r hr).2, rfl⟩, ?_, ?_⟩
      · intro hok
        have hin := (hiff hrdb).mpr ⟨hr, hok⟩
        refine ⟨?_, ?_⟩
        · rw [find_updateStatusIn, hfind]
          simp [hin]
        · exact List.mem_map.mpr ⟨r.uid, hin, rfl⟩
      · intro hfail
        have hnin : ¬ r.uid ∈ ((rows.map repo.scanShipment).filter
            (fun s => (_3pl (app.deliveryGuyInput s)).isNone)).map (fun s => s.UID) :=
          fun h => hfail ((hiff hrdb).mp h).2
        refine ⟨?_, ?_⟩
        · rw [find_updateStatusIn, hfind]
          simp only [Option.map_some', if_neg hnin, (hrows r hr).2]
        · intro hw
          obtain ⟨u, hu, hueq⟩ := List.mem_map.mp hw
          have : u = r.uid := by
            have := congrArg domain.CoreWebhookInput.ShipmentUID hueq
            simpa [repo.scanShipment] using this
          exact hnin (this ▸ hu)
    · intro r hr hns
      have hnin : ¬ r.uid ∈ ((rows.map repo.scanShipment).filter
          (fun s => (_3pl (app.deliveryGuyInput s)).isNone)).map (fun s => s.UID) :=
        fun h => hns (List.mem_map.mpr ⟨r, ((hiff hr).mp h).1, rfl⟩)
      rw [find_updateStatusIn, find_uid_of_mem hkey hr]
      simp only [Option.map_some', if_neg hnin]
    · intro w hw
      obtain ⟨u, hu, rfl⟩ := List.mem_map.mp hw
      obtain ⟨s, hs, hsu⟩ := List.mem_map.mp hu
      obtain ⟨hs1, hs2⟩ := List.mem_filter.mp hs
      exact ⟨rfl, s, hs1, hsu, by simpa using hs2⟩
    · refine List.Nodup.map ?_ ?_
      · intro a b hab
        exact congrArg domain.CoreWebhookInput.ShipmentUID hab
      · have hsub : (((rows.map repo.scanShipment).filter
            (fun s => (_3pl (app.deliveryGuyInput s)).isNone)).map (fun s => s.UID)).Sublist
            (rows.map (fun r => r.uid)) := by
          have h0 : rows.map (fun r => r.uid)
              = (rows.map repo.scanShipment).map (fun s => s.UID) := by
            rw [List.map_map]; rfl
          rw [h0]
          exact (List.filter_sublist _).map _
        have hrowsNodup : (rows.map (fun r => r.uid)).Nodup :=
          hkey.sublist (hsl.map _)
        exact hrowsNodup.sublist hsub

/-- C6 (witness): the cycle over `dispatchTable`, where the 3PL request for `s2` fails. -/
theorem shippingCycle_transitions_succeeded_witness :
    (dispatchTable.map (fun r => r.uid)).Nodup ∧
    ((∀ s ∈ (app.shippingCycle (failingFor "s2") workerConfig dispatchTable).shipments,
      (∃ r ∈ dispatchTable, r.status = "pending" ∧ repo.scanShipment r = s) ∧
      (failingFor "s2" (app.deliveryGuyInput s) = none →
        (((app.shippingCycle (failingFor "s2") workerConfig dispatchTable).db.find?
            (fun r => decide (r.uid = s.UID))).map (fun r => r.status) = some "requested" ∧
          ({ ShipmentUID := s.UID, Status := "requested" } : domain.CoreWebhookInput)
            ∈ (app.shippingCycle (failingFor "s2") workerConfig dispatchTable).webhooks)) ∧
      (failingFor "s2" (app.deliveryGuyInput s) ≠ none →
        (((app.shippingCycle (failingFor "s2") workerConfig dispatchTable).db.find?
            (fun r => decide (r.uid = s.UID))).map (fun r => r.status) = some "pending" ∧
          ({ ShipmentUID := s.UID, Status := "requested" } : domain.CoreWebhookInput)
            ∉ (app.shippingCycle (failingFor "s2") workerConfig dispatchTable).webhooks))) ∧
    (∀ r ∈ dispatchTable,
      repo.scanShipment r ∉ (app.shippingCycle (failingFor "s2") workerConfig dispatchTable).shipments →
      (app.shippingCycle (failingFor "s2") workerConfig dispatchTable).db.find?
        (fun x => decide (x.uid = r.uid)) = some r) ∧
    (∀ w ∈ (app.shippingCycle (failingFor "s2") workerConfig dispatchTable).webhooks,
      w.Status = "requested" ∧
      ∃ s ∈ (app.shippingCycle (failingFor "s2") workerConfig dispatchTable).shipments,
        s.UID = w.ShipmentUID ∧ failingFor "s2" (app.deliveryGuyInput s) = none) ∧
    (app.shippingCycle (failingFor "s2") workerConfig dispatchTable).webhooks.Nodup) :=
  ⟨by decide,
    shippingCycle_transitions_succeeded (failingFor "s2") workerConfig dispatchTable (by decide)⟩

theorem shippingCycle_dispatchTable :
    (app.shippingCycle (failingFor "s2") workerConfig dispatchTable).db
      = [rowOf "s1" "requested", rowOf "s2" "pending", rowOf "s3" "queued"] ∧
    (app.shippingCycle (failingFor "s2") workerConfig dispatchTable).webhooks
      = [⟨"s1", "requested"⟩] := by
  decide

/-! ## The client of the 3PL service -/

theorem RequestDeliveryGuy_of_response (resp : _3pl.Response) :
    _3pl.RequestDeliveryGuy (.ok resp) = none := by
  unfold _3pl.RequestDeliveryGuy
  by_cases h : resp.StatusCode = 200 <;> simp [h]

/-- C7 (the code at the failing input): for a 3PL response with status code 500 (or 404)
`RequestDeliveryGuy` returns a nil error, as it does for 200; only a transport error is
returned as an error. In a Dispatch Worker cycle whose 3PL requests are all answered with 500
both pending shipments of `dispatchTable` are therefore transitioned to "requested". -/
theorem RequestDeliveryGuy_non200_returns_nil :
    _3pl.RequestDeliveryGuy (.ok ⟨500⟩) = none ∧
    _3pl.RequestDeliveryGuy (.ok ⟨404⟩) = none ∧
    _3pl.RequestDeliveryGuy (.ok ⟨200⟩) = none ∧
    _3pl.RequestDeliveryGuy (.error "connection refused") = some "connection refused" ∧
    (app.shippingCycle (fun _ => _3pl.RequestDeliveryGuy (.ok ⟨500⟩)) workerConfig
        dispatchTable).db
      = [rowOf "s1" "requested", rowOf "s2" "requested", rowOf "s3" "queued"] := by
  decide

/-! ## Webhook -/

theorem find_updateStatus (db : repo.DB) (status uid : String) (u : String) :
    (repo.updateStatus db status uid).find? (fun x => decide (x.uid = u))
      = (db.find? (fun x => decide (x.uid = u))).map
          (fun r => if r.uid = uid then { r with status := status } else r) := by
  unfold repo.updateStatus
  rw [List.find?_map]
  have hcomp : ((fun x : repo.Row => decide (x.uid = u)) ∘
      (fun r : repo.Row => if r.uid = uid then { r with status := status } else r))
      = fun x => decide (x.uid = u) := by
    funext r
    simp only [Function.comp]
    split_ifs <;> rfl
  rw [hcomp]

theorem SetShipmentStatus_of_existing (db : repo.DB) (uid status : String) (row : repo.Row)
    (h : db.find? (fun r => decide (r.uid = uid)) = some row) :
    repo.SetShipmentStatus db uid status = .ok (repo.updateStatus db status uid) := by
  have hu : row.uid = uid := by simpa using List.find?_some h
  unfold repo.SetShipmentStatus
  rw [List.filter_head?, find_updateStatus, h]
  simp [hu]

theorem SetShipmentStatus_cases (db : repo.DB) (uid status : String) :
    (∃ e, repo.SetShipmentStatus db uid status = .error e) ∨
    repo.SetShipmentStatus db uid status = .ok (repo.updateStatus db status uid) := by
  unfold repo.SetShipmentStatus
  cases ((repo.updateStatus db status uid).filter (fun r => decide (r.uid = uid))).head? with
  | none => left; exact ⟨_, rfl⟩
  | some r =>
    by_cases hr : r.uid = uid
    · right; simp [hr]
    · left; exact ⟨"scanned uid is not equal to shipment_uid", by simp [hr]⟩

theorem GetShipment_after_update (db : repo.DB) (uid status : String) (row : repo.Row)
    (h : db.find? (fun r => decide (r.uid = uid)) = some row) :
    repo.GetShipment (repo.updateStatus db status uid) uid
      = .ok (repo.scanShipment { row with status := status }) := by
  have hu : row.uid = uid := by simpa using List.find?_some h
  unfold repo.GetShipment
  rw [find_updateStatus, h]
  simp [hu]

/-- C8: for every valid webhook input for an existing shipment: with status "not_found" and
a wall-clock hour below 23, `usecase.Webhook` issues exactly one `RequestDeliveryGuy` call,
for the same `shipment_uid` and with the origin, destination and window read back from the
stored row; with status "not_found" and an hour that is not below 23 (hour 23) it issues
none; with any other status it issues none, whatever the hour. -/
theorem Webhook_rerequests_only_not_found_before_23 (_3pl : usecase.ThirdPartyLogistics)
    (core : usecase.Core) (hour : Nat) (db : repo.DB) (input : domain.WebhookInput)
    (row : repo.Row) (hv : input.Validate = none)
    (hrow : db.find? (fun r => decide (r.uid = input.ShipmentUID)) = some row) :
    (input.Status = "not_found" → hour < 23 →
      (usecase.Webhook _3pl core hour db input).requests =
        [{ ShipmentUID := input.ShipmentUID
           RoutingInfo :=
             { Origin := domain.Location.Scan row.origin_point
               Destination := domain.Location.Scan row.destination_point }
           ScheduledDeliveryWindow :=
             { StartTime := row.scheduled_delivery_min_time
               EndTime := row.scheduled_delivery_max_time } }]) ∧
    (input.Status = "not_found" → ¬ hour < 23 →
      (usecase.Webhook _3pl core hour db input).requests = []) ∧
    (input.Status ≠ "not_found" →
      (usecase.Webhook _3pl core hour db input).requests = []) := by
  obtain ⟨uid, status⟩ := input
  simp only at hrow ⊢
  have hset := SetShipmentStatus_of_existing db uid status row hrow
  have hget := GetShipment_after_update db uid status row hrow
  refine ⟨?_, ?_, ?_⟩
  · intro hs hh
    subst hs
    unfold usecase.Webhook
    simp only [hv, hset, hget, hh, if_true]
    cases _3pl _ with
    | some e => rfl
    | none =>
      simp only [usecase.forward]
      cases core _ <;> rfl
  · intro hs hh
    subst hs
    unfold usecase.Webhook
    simp only [hv, hset, hh, if_true, if_false, usecase.forward]
    cases core _ <;> rfl
  · intro hs
    unfold usecase.Webhook
    simp only [hv, hset, hs, if_false, usecase.forward]
    cases core _ <;> rfl

/-- C8 (witness): a "not_found" webhook for the stored shipment `s1`, received at hour 10. -/
theorem Webhook_rerequests_only_not_found_before_23_witness :
    domain.WebhookInput.Validate ⟨"s1", "not_found"⟩ = none ∧
    [rowOf "s1" "requested"].find? (fun r => decide (r.uid = "s1"))
      = some (rowOf "s1" "requested") ∧
    ((("not_found" : String) = "not_found" → 10 < 23 →
      (usecase.Webhook (fun _ => none) core.Webhook 10 [rowOf "s1" "requested"]
          ⟨"s1", "not_found"⟩).requests =
        [{ ShipmentUID := "s1"
           RoutingInfo :=
             { Origin := domain.Location.Scan (rowOf "s1" "requested").origin_point
               Destination := domain.Location.Scan (rowOf "s1" "requested").destination_point }
           ScheduledDeliveryWindow :=
             { StartTime := (rowOf "s1" "requested").scheduled_delivery_min_time
               EndTime := (rowOf "s1" "requested").scheduled_delivery_max_time } }]) ∧
    (("not_found" : String) = "not_found" → ¬ 10 < 23 →
      (usecase.Webhook (fun _ => none) core.Webhook 10 [rowOf "s1" "requested"]
          ⟨"s1", "not_found"⟩).requests = []) ∧
    (("not_found" : String) ≠ "not_found" →
      (usecase.Webhook (fun _ => none) core.Webhook 10 [rowOf "s1" "requested"]
          ⟨"s1", "not_found"⟩).requests = [])) :=
  ⟨by decide, by decide,
    Webhook_rerequests_only_not_found_before_23 (fun _ => none) core.Webhook 10
      [rowOf "s1" "requested"] ⟨"s1", "not_found"⟩ (rowOf "s1" "requested")
      (by decide) (by decide)⟩

theorem Webhook_examples :
    (usecase.Webhook (fun _ => none) core.Webhook 10 [rowOf "s1" "requested"]
        ⟨"s1", "not_found"⟩).requests.map (fun r => r.ShipmentUID) = ["s1"] ∧
    (usecase.Webhook (fun _ => none) core.Webhook 23 [rowOf "s1" "requested"]
        ⟨"s1", "not_found"⟩).requests = [] ∧
    (usecase.Webhook (fun _ => none) core.Webhook 10 [rowOf "s1" "requested"]
        ⟨"s1", "found"⟩).requests = [] := by
  decide

/-- C9: for every valid webhook input for an existing shipment, whatever its status and
whatever the hour, `usecase.Webhook` calls the core collaborator exactly once, with the same
`shipment_uid` and the same status, provided the 3PL request it may make succeeds. -/
theorem Webhook_forwards_to_core_once (_3pl : usecase.ThirdPartyLogistics)
    (core : usecase.Core) (hour : Nat) (db : repo.DB) (input : domain.WebhookInput)
    (row : repo.Row) (hv : input.Validate = none)
    (hrow : db.find? (fun r => decide (r.uid = input.ShipmentUID)) = some row)
    (h3pl : ∀ req, _3pl req = none) :
    (usecase.Webhook _3pl core hour db input).webhooks
      = [{ ShipmentUID := input.ShipmentUID, Status := input.Status }] := by
  obtain ⟨uid, status⟩ := input
  simp only at hrow ⊢
  have hset := SetShipmentStatus_of_existing db uid status row hrow
  have hget := GetShipment_after_update db uid status row hrow
  unfold usecase.Webhook
  simp only [hv, hset]
  by_cases hs : status = "not_found"
  · by_cases hh : hour < 23
    · simp only [hs, hh, if_true]
      rw [hs] at hget
      simp only [hget, h3pl, usecase.forward]
      cases core _ <;> rfl
    · simp only [hs, hh, if_true, if_false, usecase.forward]
      cases core _ <;> rfl
  · simp only [hs, if_false, usecase.forward]
    cases core _ <;> rfl

/-- C9 (witness): a "not_found" webhook for the stored shipment `s1` at hour 10, with a 3PL
whose requests succeed. -/
theorem Webhook_forwards_to_core_once_witness :
    domain.WebhookInput.Validate ⟨"s1", "not_found"⟩ = none ∧
    [rowOf "s1" "requested"].find? (fun r => decide (r.uid = "s1"))
      = some (rowOf "s1" "requested") ∧
    (∀ req : domain.ThirdPartyLogisticsRequestDeliveryGuyInput,
      (fun _ => none : usecase.ThirdPartyLogistics) req = none) ∧
    (usecase.Webhook (fun _ => none) core.Webhook 10 [rowOf "s1" "requested"]
        ⟨"s1", "not_found"⟩).webhooks
      = [{ ShipmentUID := "s1", Status := "not_found" }] :=
  ⟨by decide, by decide, fun _ => rfl,
    Webhook_forwards_to_core_once (fun _ => none) core.Webhook 10
      [rowOf "s1" "requested"] ⟨"s1", "not_found"⟩ (rowOf "s1" "requested")
      (by decide) (by decide) (fun _ => rfl)⟩

/-! ## The statuses of the delivery store -/

theorem status_of_updateStatusIn (Q : String → Prop) (db : repo.DB) (status : String)
    (uids : List String) (hdb : ∀ r ∈ db, Q r.status) (hst : Q status) :
    ∀ r ∈ app.updateStatusIn db status uids, Q r.status := by
  intro r hr
  obtain ⟨r0, hr0, rfl⟩ := List.mem_map.mp hr
  by_cases h : r0.uid ∈ uids
  · simpa [h] using hst
  · simpa [h] using hdb r0 hr0

theorem status_of_updateStatus (Q : String → Prop) (db : repo.DB) (status uid : String)
    (hdb : ∀ r ∈ db, Q r.status) (hst : Q status) :
    ∀ r ∈ repo.updateStatus db status uid, Q r.status := by
  intro r hr
  obtain ⟨r0, hr0, rfl⟩ := List.mem_map.mp hr
  by_cases h : r0.uid = uid
  · simpa [h] using hst
  · simpa [h] using hdb r0 hr0

theorem Request_db_cases (_3pl : usecase.ThirdPartyLogistics) (nowValidate now : time.Time)
    (db : repo.DB) (input : domain.RequestInput) :
    (usecase.Request _3pl nowValidate now db input).db = db ∨
    ∃ row : repo.Row, (row.status = "requested" ∨ row.status = "queued") ∧
      (usecase.Request _3pl nowValidate now db input).db = db ++ [row] := by
  by_cases hv : input.Validate nowValidate = none
  · by_cases hu : repo.uniqueViolation db input.ShipmentUID = true
    · exact Or.inl (Request_db_of_refused _ _ _ _ _ (Or.inr hu))
    · right
      refine ⟨_, ?_, Request_db_of_insert _3pl nowValidate now db input hv (by simpa using hu)⟩
      by_cases hlt : time.Before input.ScheduledDeliveryWindow.StartTime now = true <;>
        simp [repo.insertedRow, hlt]
  · exact Or.inl (Request_db_of_refused _ _ _ _ _ (Or.inl hv))

theorem forward_db (core : usecase.Core) (db : repo.DB)
    (requests : List domain.ThirdPartyLogisticsRequestDeliveryGuyInput)
    (input : domain.WebhookInput) : (usecase.forward core db requests input).db = db := by
  unfold usecase.forward
  dsimp only
  cases core _ <;> rfl

theorem Webhook_db_cases (_3pl : usecase.ThirdPartyLogistics) (core : usecase.Core)
    (hour : Nat) (db : repo.DB) (input : domain.WebhookInput) :
    (usecase.Webhook _3pl core hour db input).db = db ∨
    (input.Validate = none ∧
      (usecase.Webhook _3pl core hour db input).db
        = repo.updateStatus db input.Status input.ShipmentUID) := by
  unfold usecase.Webhook
  cases hv : input.Validate with
  | some e => left; rfl
  | none =>
    dsimp only
    rcases SetShipmentStatus_cases db input.ShipmentUID input.Status with ⟨e, he⟩ | hok
    · left; rw [he]
    · right
      refine ⟨rfl, ?_⟩
      rw [hok]
      dsimp only
      split_ifs
      · cases repo.GetShipment (repo.updateStatus db input.Status input.ShipmentUID)
            input.ShipmentUID with
        | error e => rfl
        | ok s =>
          dsimp only
          cases _3pl _ with
          | some e => rfl
          | none => exact forward_db _ _ _ _
      · exact forward_db _ _ _ _
      · exact forward_db _ _ _ _

theorem pendingCycle_db_cases (cfg : config.WorkerConfig) (now : time.Time) (db : repo.DB) :
    (app.pendingCycle cfg now db).db = db ∨
    ∃ uids, (app.pendingCycle cfg now db).db = app.updateStatusIn db "pending" uids := by
  unfold app.pendingCycle
  cases app.limit cfg.PendingWorkerBatchSize _ with
  | error e => left; rfl
  | ok rows => right; exact ⟨_, rfl⟩

theorem Op_apply_status (cfg : config.WorkerConfig) (Q : String → Prop) (op : delivery.Op)
    (db : repo.DB) (hdb : ∀ r ∈ db, Q r.status)
    (hq : Q "queued") (hp : Q "pending") (hr : Q "requested")
    (hw : ∀ st, op.webhookStatus = some st → Q st) :
    ∀ r ∈ op.apply cfg db, Q r.status := by
  cases op with
  | request _3pl nowValidate now input =>
    simp only [delivery.Op.apply]
    rcases Request_db_cases _3pl nowValidate now db input with h | ⟨row, hrow, h⟩
    · rw [h]; exact hdb
    · rw [h]
      intro r hmem
      rcases List.mem_append.mp hmem with h1 | h1
      · exact hdb r h1
      · have : r = row := by simpa using h1
        subst this
        rcases hrow with h2 | h2 <;> rw [h2] <;> assumption
  | webhook _3pl core hour input =>
    simp only [delivery.Op.apply]
    rcases Webhook_db_cases _3pl core hour db input with h | ⟨hv, h⟩
    · rw [h]; exact hdb
    · rw [h]
      exact status_of_updateStatus Q db _ _ hdb
        (hw input.Status (by simp [delivery.Op.webhookStatus, hv]))
  | pendingWorker now =>
    simp only [delivery.Op.apply]
    rcases pendingCycle_db_cases cfg now db with h | ⟨uids, h⟩
    · rw [h]; exact hdb
    · rw [h]; exact status_of_updateStatusIn Q db _ _ hdb hp
  | dispatchWorker _3pl =>
    simp only [delivery.Op.apply]
    rcases shippingCycle_cases _3pl cfg db with ⟨_, h, _, _⟩ | ⟨rows, _, _, _, _, h, _, _⟩
    · rw [h]; exact hdb
    · rw [h]; exact status_of_updateStatusIn Q db _ _ hdb hr

theorem run_status (cfg : config.WorkerConfig) (Q : String → Prop)
    (hq : Q "queued") (hp : Q "pending") (hr : Q "requested") (ops : List delivery.Op) :
    ∀ db : repo.DB, (∀ r ∈ db, Q r.status) →
      (∀ op ∈ ops, ∀ st, op.webhookStatus = some st → Q st) →
      ∀ r ∈ delivery.run cfg ops db, Q r.status := by
  induction ops with
  | nil => intro db hdb _; simpa [delivery.run] using hdb
  | cons op rest ih =>
    intro db hdb hw
    have h1 := Op_apply_status cfg Q op db hdb hq hp hr (hw op (List.mem_cons_self _ _))
    have := ih (op.apply cfg db) h1 (fun o ho => hw o (List.mem_cons_of_mem _ ho))
    simpa [delivery.run] using this

/-- C10 (amended): in every state of the delivery store reachable from the empty table by
`Request`, `Webhook`, Pending Worker and Dispatch Worker operations, the status of every
Shipment row is "queued", "pending" or "requested", or is the status value of a validated
webhook input received before: `Webhook` stores the (non-empty) status of its input as it
comes, `Request` writes only "queued" or "requested", the Pending Worker only "pending" and
the Dispatch Worker only "requested". -/
theorem reachable_status_values (cfg : config.WorkerConfig) (ops : List delivery.Op) :
    ∀ r ∈ delivery.run cfg ops [],
      r.status = "queued" ∨ r.status = "pending" ∨ r.status = "requested" ∨
      (r.status ≠ "" ∧ some r.status ∈ ops.map delivery.Op.webhookStatus) := by
  refine run_status cfg
    (fun st => st = "queued" ∨ st = "pending" ∨ st = "requested" ∨
      (st ≠ "" ∧ some st ∈ ops.map delivery.Op.webhookStatus))
    (Or.inl rfl) (Or.inr (Or.inl rfl)) (Or.inr (Or.inr (Or.inl rfl))) ops [] (by simp) ?_
  intro op hop st hst
  refine Or.inr (Or.inr (Or.inr ⟨?_, ?_⟩))
  · cases op with
    | webhook _3pl core hour input =>
      simp only [delivery.Op.webhookStatus] at hst
      split_ifs at hst with hv
      simp only [Option.some.injEq] at hst
      subst hst
      intro hempty
      unfold domain.WebhookInput.Validate at hv
      rw [if_pos hempty] at hv
      split_ifs at hv
    | request _ _ _ _ => simp [delivery.Op.webhookStatus] at hst
    | pendingWorker _ => simp [delivery.Op.webhookStatus] at hst
    | dispatchWorker _ => simp [delivery.Op.webhookStatus] at hst
  · exact List.mem_map.mpr ⟨op, hop, hst⟩

/-- C10 (counterexample): after a `Request` for shipment `s1` and the "searching" webhook the
3PL sends for it, the row of `s1` has status "searching", which is none of queued, pending,
requested, shipped. -/
theorem Webhook_writes_searching_status :
    ¬ (∀ r ∈ delivery.run workerConfig
          [.request (fun _ => none) 0 1 requestEndingNow,
           .webhook (fun _ => none) core.Webhook 10 ⟨"s1", "searching"⟩] [],
        r.status = "queued" ∨ r.status = "pending" ∨ r.status = "requested" ∨
        r.status = "shipped") := by
  decide

/-- C10 (witness): the row of `s1` after its `Request` and a "searching" webhook. -/
theorem reachable_status_values_witness :
    rowOf "s1" "searching" ∈ delivery.run workerConfig
        [.request (fun _ => none) 0 1 requestEndingNow,
         .webhook (fun _ => none) core.Webhook 10 ⟨"s1", "searching"⟩] [] ∧
    ((rowOf "s1" "searching").status = "queued" ∨
      (rowOf "s1" "searching").status = "pending" ∨
      (rowOf "s1" "searching").status = "requested" ∨
      ((rowOf "s1" "searching").status ≠ "" ∧
        some (rowOf "s1" "searching").status ∈
          ([.request (fun _ => none) 0 1 requestEndingNow,
            .webhook (fun _ => none) core.Webhook 10 ⟨"s1", "searching"⟩] :
              List delivery.Op).map delivery.Op.webhookStatus)) :=
  ⟨by decide,
    reachable_status_values workerConfig
      [.request (fun _ => none) 0 1 requestEndingNow,
       .webhook (fun _ => none) core.Webhook 10 ⟨"s1", "searching"⟩]
      (rowOf "s1" "searching") (by decide)⟩

/-! ## Request and the intake of the 3PL -/

/-- C11: for every valid request whose insert is not refused: when the window start time has
elapsed at creation, `usecase.Request` appends the row of the shipment with status
"requested" and issues exactly one `RequestDeliveryGuy` call, for the `shipment_uid` of the
input, and the body of that call, handled by the 3PL intake against a tracking table with no
row for the identifier, is answered 200 and appends the row with status "requested",
retries 1 and next-check now + 5 minutes; when the start time has not elapsed the shipment is
created "queued" and no `RequestDeliveryGuy` call is issued. -/
theorem Request_requested_issues_one_intake (client : usecase.ThirdPartyLogistics)
    (nowValidate now : time.Time) (db : repo.DB) (input : domain.RequestInput)
    (hv : input.Validate nowValidate = none)
    (hins : repo.uniqueViolation db input.ShipmentUID = false) :
    (input.ScheduledDeliveryWindow.StartTime < now →
      (usecase.Request client nowValidate now db input).requests
        = [⟨input.ShipmentUID, input.RoutingInfo, input.ScheduledDeliveryWindow⟩] ∧
      (∃ row : repo.Row, (usecase.Request client nowValidate now db input).db = db ++ [row] ∧
        row.uid = input.ShipmentUID ∧ row.status = "requested") ∧
      (∀ (now3 : time.Time) (db3 : threepl.Database) (rows : List threepl.Shipment),
        db3 "shipments_3pl" = some rows →
        rows.find? (fun r => decide (r.ShipmentUID = input.ShipmentUID)) = none →
        ∀ req ∈ (usecase.Request client nowValidate now db input).requests,
          (threepl.requestHandler now3 db3 (_3pl.postedShipmentUID req)).1 "shipments_3pl"
            = some (rows ++ [⟨input.ShipmentUID, now3 + 5 * time.Minute, 1, "requested"⟩]) ∧
          (threepl.requestHandler now3 db3 (_3pl.postedShipmentUID req)).2 = 200)) ∧
    (¬ input.ScheduledDeliveryWindow.StartTime < now →
      (usecase.Request client nowValidate now db input).requests = [] ∧
      (∃ row : repo.Row, (usecase.Request client nowValidate now db input).db = db ++ [row] ∧
        row.uid = input.ShipmentUID ∧ row.status = "queued")) := by
  have hdb := Request_db_of_insert client nowValidate now db input hv hins
  constructor
  · intro hlt
    have hreq : (usecase.Request client nowValidate now db input).requests
        = [⟨input.ShipmentUID, input.RoutingInfo, input.ScheduledDeliveryWindow⟩] := by
      unfold usecase.Request
      simp only [hv, repo.InsertShipment, hins, time.Before, hlt, decide_True, if_true]
      cases client _ <;> simp
    refine ⟨hreq, ⟨_, hdb, rfl, ?_⟩, ?_⟩
    · simp [repo.insertedRow, time.Before, hlt]
    · intro now3 db3 rows hrel hnone req hmem
      rw [hreq] at hmem
      have : req = ⟨input.ShipmentUID, input.RoutingInfo, input.ScheduledDeliveryWindow⟩ := by
        simpa using hmem
      subst this
      exact requestHandler_of_absent now3 db3 input.ShipmentUID rows hrel hnone
  · intro hlt
    refine ⟨?_, ⟨_, hdb, rfl, ?_⟩⟩
    · unfold usecase.Request
      simp [hv, repo.InsertShipment, hins, time.Before, hlt]
    · simp [repo.insertedRow, time.Before, hlt]

/-- C11 (witness): the request `requestEndingNow`, validated at instant 0 and created at
instant 1 (its window started at 0) against an empty table. -/
theorem Request_requested_issues_one_intake_witness :
    domain.RequestInput.Validate requestEndingNow 0 = none ∧
    repo.uniqueViolation [] requestEndingNow.ShipmentUID = false ∧
    ((requestEndingNow.ScheduledDeliveryWindow.StartTime < 1 →
      (usecase.Request (fun _ => none) 0 1 [] requestEndingNow).requests
        = [⟨requestEndingNow.ShipmentUID, requestEndingNow.RoutingInfo,
            requestEndingNow.ScheduledDeliveryWindow⟩] ∧
      (∃ row : repo.Row, (usecase.Request (fun _ => none) 0 1 [] requestEndingNow).db
          = [] ++ [row] ∧
        row.uid = requestEndingNow.ShipmentUID ∧ row.status = "requested") ∧
      (∀ (now3 : time.Time) (db3 : threepl.Database) (rows : List threepl.Shipment),
        db3 "shipments_3pl" = some rows →
        rows.find? (fun r => decide (r.ShipmentUID = requestEndingNow.ShipmentUID)) = none →
        ∀ req ∈ (usecase.Request (fun _ => none) 0 1 [] requestEndingNow).requests,
          (threepl.requestHandler now3 db3 (_3pl.postedShipmentUID req)).1 "shipments_3pl"
            = some (rows ++
                [⟨requestEndingNow.ShipmentUID, now3 + 5 * time.Minute, 1, "requested"⟩]) ∧
          (threepl.requestHandler now3 db3 (_3pl.postedShipmentUID req)).2 = 200)) ∧
    (¬ requestEndingNow.ScheduledDeliveryWindow.StartTime < 1 →
      (usecase.Request (fun _ => none) 0 1 [] requestEndingNow).requests = [] ∧
      (∃ row : repo.Row, (usecase.Request (fun _ => none) 0 1 [] requestEndingNow).db
          = [] ++ [row] ∧
        row.uid = requestEndingNow.ShipmentUID ∧ row.status = "queued"))) :=
  ⟨by decide, by decide,
    Request_requested_issues_one_intake (fun _ => none) 0 1 [] requestEndingNow
      (by decide) (by decide)⟩

theorem Request_then_intake_example :
    (usecase.Request (fun _ => none) 0 1 [] requestEndingNow).requests.map
        _3pl.postedShipmentUID = [some "s1"] ∧
    (threepl.requestHandler 1000 (trackingOnly []) (some "s1")).1 "shipments_3pl"
      = some [⟨"s1", 1000 + 5 * time.Minute, 1, "requested"⟩] ∧
    (usecase.Request (fun _ => none) 0 0 [] requestEndingNow).requests = [] := by
  decide

/-! ## Rejection of a latitude out of range -/

/-- C18: for every request whose `shipment_uid`, `user_uid` and `address` are non-empty and
whose origin latitude is outside [-90,90], `RequestInput.Validate` returns the error
"routing_info.origin.lat must be between -90 and 90", and `usecase.Request` returns it as a
`ValidationError`, leaves the table unchanged and makes no `RequestDeliveryGuy` call. -/
theorem Request_rejects_origin_latitude (client : usecase.ThirdPartyLogistics)
    (nowValidate now : time.Time) (db : repo.DB) (input : domain.RequestInput)
    (huid : input.ShipmentUID ≠ "") (huser : input.UserInfo.UserUID ≠ "")
    (haddr : input.UserInfo.Address ≠ "")
    (hlat : input.RoutingInfo.Origin.Lat < -90 ∨ input.RoutingInfo.Origin.Lat > 90) :
    input.Validate nowValidate = some "routing_info.origin.lat must be between -90 and 90" ∧
    usecase.Request client nowValidate now db input
      = ⟨db, [], [],
          some (.ValidationError "routing_info.origin.lat must be between -90 and 90")⟩ := by
  have hu : input.UserInfo.Validate = none :=
    (UserInfo_Validate_none_iff _).mpr ⟨huser, haddr⟩
  have ho : input.RoutingInfo.Origin.Validate = some ".lat must be between -90 and 90" := by
    unfold domain.Location.Validate
    rw [if_pos hlat]
  have hr : input.RoutingInfo.Validate = some ".origin.lat must be between -90 and 90" := by
    unfold domain.RoutingInfo.Validate
    rw [ho]
    rfl
  have hval : input.Validate nowValidate
      = some "routing_info.origin.lat must be between -90 and 90" := by
    unfold domain.RequestInput.Validate
    rw [if_neg huid, hu, hr]
    rfl
  refine ⟨hval, ?_⟩
  unfold usecase.Request
  rw [hval]

/-- C18 (witness): the request `requestLat91`, with origin latitude 91 and longitude 0. -/
theorem Request_rejects_origin_latitude_witness :
    requestLat91.ShipmentUID ≠ "" ∧ requestLat91.UserInfo.UserUID ≠ "" ∧
    requestLat91.UserInfo.Address ≠ "" ∧
    (requestLat91.RoutingInfo.Origin.Lat < -90 ∨ requestLat91.RoutingInfo.Origin.Lat > 90) ∧
    domain.RequestInput.Validate requestLat91 0
      = some "routing_info.origin.lat must be between -90 and 90" ∧
    usecase.Request (fun _ => none) 0 1 [] requestLat91
      = ⟨[], [], [],
          some (.ValidationError "routing_info.origin.lat must be between -90 and 90")⟩ :=
  ⟨by decide, by decide, by decide, by decide,
    Request_rejects_origin_latitude (fun _ => none) 0 1 [] requestLat91
      (by decide) (by decide) (by decide) (by decide)⟩

/-! ## The coordinates of a stored shipment -/

theorem GetShipment_after_insert (db : repo.DB) (s : domain.Shipment)
    (h : repo.uniqueViolation db s.UID = false) :
    repo.GetShipment (db ++ [repo.insertedRow s]) s.UID
      = .ok { s with
          OriginPoint := { Lat := s.OriginPoint.Long, Long := s.OriginPoint.Lat }
          DestinationPoint :=
            { Lat := s.DestinationPoint.Long, Long := s.DestinationPoint.Lat } } := by
  have hnil := filter_uid_eq_nil_of_not_violation db s.UID h
  have hfind : db.find? (fun r => decide (r.uid = s.UID)) = none := by
    rw [← List.filter_head?, hnil]
    rfl
  unfold repo.GetShipment
  rw [List.find?_append, hfind]
  simp [repo.insertedRow, repo.scanShipment, domain.Location.Scan, repo.point]

/-- C20 (the code at the failing input): a shipment inserted with origin (lat 10, long 20)
and destination (lat 30, long 40) is read back by `GetShipment` with origin (lat 20, long 10)
and destination (lat 40, long 30): `InsertShipment` stores `point(Lat, Long)` and
`Location.Scan` reads the first coordinate as `Long` and the second as `Lat`. The re-request
`usecase.Webhook` issues after a "not_found" webhook carries the exchanged coordinates. -/
theorem GetShipment_exchanges_coordinates :
    (repo.InsertShipment [] shipmentTenTwenty).toOption
      = some [repo.insertedRow shipmentTenTwenty] ∧
    (repo.GetShipment [repo.insertedRow shipmentTenTwenty] "s1").toOption
      = some { shipmentTenTwenty with
          OriginPoint := { Lat := 20, Long := 10 }
          DestinationPoint := { Lat := 40, Long := 30 } } ∧
    (usecase.Webhook (fun _ => none) core.Webhook 10 [repo.insertedRow shipmentTenTwenty]
        ⟨"s1", "not_found"⟩).requests.map (fun r => r.RoutingInfo)
      = [{ Origin := { Lat := 20, Long := 10 }, Destination := { Lat := 40, Long := 30 } }] := by
  decide

/-! ## Claims over a keyed table -/

theorem filter_mem_of_sublist {α : Type} [DecidableEq α] {claimed l : List α}
    (hs : claimed.Sublist l) (hl : l.Nodup) :
    l.filter (fun a => decide (a ∈ claimed)) = claimed := by
  induction hs with
  | slnil => rfl
  | cons a hs ih =>
    have hnd := List.nodup_cons.mp hl
    have ha : a ∉ _ := fun h => hnd.1 (hs.subset h)
    rw [List.filter_cons_of_neg (by simpa using ha)]
    exact ih hnd.2
  | cons₂ a hs ih =>
    have hnd := List.nodup_cons.mp hl
    rw [List.filter_cons_of_pos (by simp)]
    congr 1
    rw [← ih hnd.2]
    apply List.filter_congr
    intro x hx
    have hxa : x ≠ a := fun h => hnd.1 (h ▸ hx)
    simp [hxa, ih hnd.2]

theorem key_mem_claimed_iff {α κ : Type} (key : α → κ) {claimed l : List α}
    (hkey : (l.map key).Nodup) (hs : ∀ a ∈ claimed, a ∈ l) {a : α} (ha : a ∈ l) :
    key a ∈ claimed.map key ↔ a ∈ claimed := by
  constructor
  · intro h
    obtain ⟨a0, ha0, hk⟩ := List.mem_map.mp h
    have : a0 = a := List.inj_on_of_nodup_map hkey (hs a0 ha0) ha hk
    exact this ▸ ha0
  · intro h
    exact List.mem_map.mpr ⟨a, h, rfl⟩

theorem pendingCycle_eq (cfg : config.WorkerConfig) (now : time.Time) (db : repo.DB)
    (hB : 0 ≤ cfg.PendingWorkerBatchSize) :
    app.pendingCycle cfg now db
      = ⟨app.updateStatusIn db "pending"
          (((db.filter (app.pendingDue cfg now)).take cfg.PendingWorkerBatchSize.toNat).map
            (fun r => r.uid)),
        (db.filter (fun r => decide (r.uid ∈
          ((db.filter (app.pendingDue cfg now)).take cfg.PendingWorkerBatchSize.toNat).map
            (fun r => r.uid)))).length,
        none⟩ := by
  unfold app.pendingCycle app.limit
  rw [if_neg (not_lt.mpr hB)]
  rfl

theorem updateStatusIn_claimed (db : repo.DB) (hkey : (db.map (fun r => r.uid)).Nodup)
    (status : String) (claimed : List repo.Row) (hs : claimed.Sublist db) :
    app.updateStatusIn db status (claimed.map (fun r => r.uid))
      = db.map (fun r => if r ∈ claimed then { r with status := status } else r) ∧
    (db.filter (fun r => decide (r.uid ∈ claimed.map (fun r => r.uid)))).length
      = claimed.length := by
  have hiff : ∀ r ∈ db, (r.uid ∈ claimed.map (fun r => r.uid) ↔ r ∈ claimed) :=
    fun r hr => key_mem_claimed_iff (fun r => r.uid) hkey (fun a ha => hs.subset ha) hr
  constructor
  · unfold app.updateStatusIn
    apply List.map_congr_left
    intro r hr
    by_cases h : r ∈ claimed
    · rw [if_pos h, if_pos ((hiff r hr).mpr h)]
    · rw [if_neg h, if_neg (fun h1 => h ((hiff r hr).mp h1))]
  · have hf : db.filter (fun r => decide (r.uid ∈ claimed.map (fun r => r.uid)))
        = db.filter (fun r => decide (r ∈ claimed)) := by
      apply List.filter_congr
      intro r hr
      simpa using hiff r hr
    rw [hf, filter_mem_of_sublist hs (List.Nodup.of_map _ hkey)]

/-! ## One claim cycle of the Pending Worker -/

/-- C12 (amended): for a batch limit B >= 1 and a table keyed by `uid`, one claim cycle of
the Pending Worker with lookahead L seconds claims a sublist `claimed` of the table of at
most B rows; every claimed row had status "queued" and `start_time <= now + L` before the
cycle; the table after the cycle is the table before it with the status of the claimed rows,
and nothing else, set to "pending"; the cycle counts the claimed rows; and it claims no row
only if the table has no queued row with `start_time <= now + L`. -/
theorem pendingCycle_claims_due_rows (cfg : config.WorkerConfig) (now : time.Time)
    (db : repo.DB) (hkey : (db.map (fun r => r.uid)).Nodup)
    (hB : 1 ≤ cfg.PendingWorkerBatchSize) :
    ∃ claimed : List repo.Row,
      claimed.Sublist db ∧
      (claimed.length : Int) ≤ cfg.PendingWorkerBatchSize ∧
      (∀ r ∈ claimed, r.status = "queued" ∧
        r.scheduled_delivery_min_time ≤ now + cfg.PendingIntervalInSeconds * time.Second) ∧
      (app.pendingCycle cfg now db).db
        = db.map (fun r => if r ∈ claimed then { r with status := "pending" } else r) ∧
      (app.pendingCycle cfg now db).updatedCount = claimed.length ∧
      (app.pendingCycle cfg now db).err = none ∧
      (claimed = [] → ∀ r ∈ db, ¬ (r.status = "queued" ∧
        r.scheduled_delivery_min_time ≤ now + cfg.PendingIntervalInSeconds * time.Second)) := by
  have hB0 : 0 ≤ cfg.PendingWorkerBatchSize := by omega
  have hsub : ((db.filter (app.pendingDue cfg now)).take
      cfg.PendingWorkerBatchSize.toNat).Sublist db :=
    (List.take_sublist _ _).trans (List.filter_sublist _)
  obtain ⟨h1, h2⟩ := updateStatusIn_claimed db hkey "pending" _ hsub
  refine ⟨(db.filter (app.pendingDue cfg now)).take cfg.PendingWorkerBatchSize.toNat,
    hsub, ?_, ?_, ?_, ?_, ?_, ?_⟩
  · have := List.length_take_le cfg.PendingWorkerBatchSize.toNat
      (db.filter (app.pendingDue cfg now))
    omega
  · intro r hr
    have := (List.mem_filter.mp (List.mem_of_mem_take hr)).2
    simpa [app.pendingDue] using this
  · rw [pendingCycle_eq cfg now db hB0]
    exact h1
  · rw [pendingCycle_eq cfg now db hB0]
    exact h2
  · rw [pendingCycle_eq cfg now db hB0]
  · intro hnil r hr hdue
    have hpos : 0 < cfg.PendingWorkerBatchSize.toNat := by omega
    have hmem : r ∈ db.filter (app.pendingDue cfg now) :=
      List.mem_filter.mpr ⟨hr, by simpa [app.pendingDue] using hdue⟩
    cases hf : db.filter (app.pendingDue cfg now) with
    | nil => rw [hf] at hmem; simp at hmem
    | cons a rest =>
      rw [hf] at hnil
      obtain ⟨n, hn⟩ : ∃ n, cfg.PendingWorkerBatchSize.toNat = n + 1 :=
        ⟨cfg.PendingWorkerBatchSize.toNat - 1, by omega⟩
      rw [hn] at hnil
      simp at hnil

/-- C12 (counterexample): with batch limit 0 a cycle of the Pending Worker claims no row and
changes nothing although the table holds a queued row whose start time is due. -/
theorem pendingCycle_zero_limit_claims_nothing :
    ¬ ((app.pendingCycle zeroBatchConfig 0 [rowOf "s1" "queued"]).updatedCount = 0 →
      ∀ r ∈ [rowOf "s1" "queued"], ¬ (r.status = "queued" ∧
        r.scheduled_delivery_min_time
          ≤ 0 + zeroBatchConfig.PendingIntervalInSeconds * time.Second)) := by
  decide

theorem pendingCycle_queuedTable :
    (app.pendingCycle batchOfTwo 0 queuedTable).db
      = [rowOf "s1" "pending", rowOf "s2" "pending", rowOf "s3" "requested",
          rowOf "s4" "queued"] ∧
    (app.pendingCycle batchOfTwo 0 queuedTable).updatedCount = 2 := by
  decide

/-- C12 (witness): a cycle with batch limit 2 over `queuedTable` at instant 0. -/
theorem pendingCycle_claims_due_rows_witness :
    (queuedTable.map (fun r => r.uid)).Nodup ∧ 1 ≤ batchOfTwo.PendingWorkerBatchSize ∧
    ∃ claimed : List repo.Row,
      claimed.Sublist queuedTable ∧
      (claimed.length : Int) ≤ batchOfTwo.PendingWorkerBatchSize ∧
      (∀ r ∈ claimed, r.status = "queued" ∧
        r.scheduled_delivery_min_time ≤ 0 + batchOfTwo.PendingIntervalInSeconds * time.Second) ∧
      (app.pendingCycle batchOfTwo 0 queuedTable).db
        = queuedTable.map (fun r => if r ∈ claimed then { r with status := "pending" } else r) ∧
      (app.pendingCycle batchOfTwo 0 queuedTable).updatedCount = claimed.length ∧
      (app.pendingCycle batchOfTwo 0 queuedTable).err = none ∧
      (claimed = [] → ∀ r ∈ queuedTable, ¬ (r.status = "queued" ∧
        r.scheduled_delivery_min_time
          ≤ 0 + batchOfTwo.PendingIntervalInSeconds * time.Second)) :=
  ⟨by decide, by decide,
    pendingCycle_claims_due_rows batchOfTwo 0 queuedTable (by decide) (by decide)⟩

/-! ## The drain run of the Pending Worker -/

theorem pendingPass_noFaults (cfg : config.WorkerConfig) (now : time.Time) (db : repo.DB) :
    app.pendingPass sql.noFaults cfg now db = app.pendingCycle cfg now db := by
  unfold app.pendingPass app.pendingCycle
  simp only [sql.noFaults, Bool.false_eq_true, if_false]
  cases hl : app.limit cfg.PendingWorkerBatchSize (db.filter (app.pendingDue cfg now)) with
  | error e =>
    have : app.limit cfg.PendingWorkerBatchSize (List.filter (fun r => decide (r.status = "queued" ∧
        r.scheduled_delivery_min_time ≤ now + cfg.PendingIntervalInSeconds * time.Second)) db)
        = .error e := hl
    rw [this]
  | ok rows =>
    have : app.limit cfg.PendingWorkerBatchSize (List.filter (fun r => decide (r.status = "queued" ∧
        r.scheduled_delivery_min_time ≤ now + cfg.PendingIntervalInSeconds * time.Second)) db)
        = .ok rows := hl
    rw [this]
    simp

theorem updateStatusIn_uids (db : repo.DB) (status : String) (uids : List String) :
    (app.updateStatusIn db status uids).map (fun r => r.uid) = db.map (fun r => r.uid) := by
  unfold app.updateStatusIn
  rw [List.map_map]
  apply List.map_congr_left
  intro r _
  simp only [Function.comp]
  split_ifs <;> rfl

/-- The number of due rows a committed cycle leaves: those it did not claim. -/
theorem pendingCycle_due_count (cfg : config.WorkerConfig) (now : time.Time) (db : repo.DB)
    (hkey : (db.map (fun r => r.uid)).Nodup) (hB : 0 ≤ cfg.PendingWorkerBatchSize) :
    (app.pendingCycle cfg now db).updatedCount
      = min cfg.PendingWorkerBatchSize.toNat (db.countP (app.pendingDue cfg now)) ∧
    (app.pendingCycle cfg now db).db.countP (app.pendingDue cfg now)
      = db.countP (app.pendingDue cfg now)
        - min cfg.PendingWorkerBatchSize.toNat (db.countP (app.pendingDue cfg now)) ∧
    ((app.pendingCycle cfg now db).db.map (fun r => r.uid)).Nodup ∧
    (app.pendingCycle cfg now db).err = none := by
  have hsub : ((db.filter (app.pendingDue cfg now)).take
      cfg.PendingWorkerBatchSize.toNat).Sublist db :=
    (List.take_sublist _ _).trans (List.filter_sublist _)
  obtain ⟨h1, h2⟩ := updateStatusIn_claimed db hkey "pending" _ hsub
  have hlen : ((db.filter (app.pendingDue cfg now)).take
      cfg.PendingWorkerBatchSize.toNat).length
      = min cfg.PendingWorkerBatchSize.toNat (db.countP (app.pendingDue cfg now)) := by
    rw [List.length_take, List.countP_eq_length_filter]
  have hdue : ∀ r ∈ (db.filter (app.pendingDue cfg now)).take cfg.PendingWorkerBatchSize.toNat,
      app.pendingDue cfg now r = true :=
    fun r hr => (List.mem_filter.mp (List.mem_of_mem_take hr)).2
  rw [pendingCycle_eq cfg now db hB]
  refine ⟨?_, ?_, ?_, rfl⟩
  · show (db.filter _).length = _
    rw [h2, hlen]
  · show (app.updateStatusIn db "pending" _).countP _ = _
    rw [h1, List.countP_map, ← hlen]
    have hfm := filter_mem_of_sublist hsub (List.Nodup.of_map _ hkey)
    generalize (db.filter (app.pendingDue cfg now)).take cfg.PendingWorkerBatchSize.toNat
      = claimed at hdue hfm ⊢
    have hsplit := List.length_eq_countP_add_countP (fun r => decide (r ∈ claimed))
      (db.filter (app.pendingDue cfg now))
    have hM := List.countP_eq_length_filter (app.pendingDue cfg now) db
    have ha : List.countP (fun r => decide (r ∈ claimed)) (db.filter (app.pendingDue cfg now))
        = claimed.length := by
      rw [List.countP_filter, List.countP_eq_length_filter]
      conv_rhs => rw [← hfm]
      congr 1
      apply List.filter_congr
      intro r _
      by_cases hr : r ∈ claimed
      · simp [hr, hdue r hr]
      · simp [hr]
    have hb : List.countP (fun r => decide ¬ (decide (r ∈ claimed) = true))
        (db.filter (app.pendingDue cfg now))
        = List.countP (app.pendingDue cfg now ∘ fun r =>
            if r ∈ claimed then { r with status := "pending" } else r) db := by
      rw [List.countP_filter]
      apply List.countP_congr
      intro r _
      by_cases hr : r ∈ claimed
      · simp [hr, app.pendingDue]
      · simp [hr]
    rw [ha, hb] at hsplit
    omega
  · show ((app.updateStatusIn db "pending" _).map _).Nodup
    rw [updateStatusIn_uids]
    exact hkey

theorem ceil_div_zero (b : Nat) (hb : 1 ≤ b) : (0 + b - 1) / b = 0 :=
  Nat.div_eq_of_lt (by omega)

theorem ceil_div_step (n b : Nat) (hb : 1 ≤ b) (hn : 0 < n) :
    (n + b - 1) / b = (n - min b n + b - 1) / b + 1 := by
  by_cases h : n ≤ b
  · have h1 : n - min b n = 0 := by omega
    rw [h1, ceil_div_zero b hb]
    exact Nat.div_eq_of_lt_le (by omega) (by omega)
  · have h1 : n - min b n + b - 1 = n - 1 := by omega
    have h2 : n + b - 1 = n - 1 + b := by omega
    rw [h1, h2, Nat.add_div_right _ (by omega)]

theorem runPendingWorker_drain_aux (cfg : config.WorkerConfig) (now : time.Time)
    (hB : 1 ≤ cfg.PendingWorkerBatchSize) :
    ∀ (n : Nat) (db : repo.DB), (db.map (fun r => r.uid)).Nodup →
      db.countP (app.pendingDue cfg now) = n →
      ∀ (fuel : Nat) (faults : Nat → sql.Faults) (clock : Nat → time.Time),
        (n + cfg.PendingWorkerBatchSize.toNat - 1) / cfg.PendingWorkerBatchSize.toNat + 1
          ≤ fuel →
        (∀ k, faults k = sql.noFaults) → (∀ k, clock k = now) →
        ∃ r, app.runPendingWorker cfg fuel faults clock db = some r ∧ r.err = none ∧
          r.db.countP (app.pendingDue cfg now) = 0 ∧
          r.counts.length
            = (n + cfg.PendingWorkerBatchSize.toNat - 1) / cfg.PendingWorkerBatchSize.toNat
              + 1 ∧
          (∀ c ∈ r.counts.dropLast, 0 < c) ∧ r.counts.getLast? = some 0 ∧
          r.counts.sum = n := by
  have hb : 1 ≤ cfg.PendingWorkerBatchSize.toNat := by omega
  obtain ⟨b, hbdef⟩ : ∃ b, cfg.PendingWorkerBatchSize.toNat = b := ⟨_, rfl⟩
  rw [hbdef] at hb ⊢
  intro n
  induction n using Nat.strong_induction_on with
  | _ n ih =>
    intro db hkey hn fuel faults clock hfuel hf hc
    have hfuel1 : 1 ≤ fuel := le_trans (Nat.le_add_left 1 _) hfuel
    obtain ⟨fuel, rfl⟩ : ∃ f, fuel = f + 1 := ⟨fuel - 1, by omega⟩
    obtain ⟨h1, h2, h3, h4⟩ := pendingCycle_due_count cfg now db hkey (by omega)
    rw [hn, hbdef] at h1 h2
    unfold app.runPendingWorker
    simp only [hf 0, hc 0, pendingPass_noFaults, h4]
    by_cases hz : n = 0
    · subst hz
      have h10 : (app.pendingCycle cfg now db).updatedCount = 0 := by omega
      rw [if_pos h10]
      refine ⟨_, rfl, rfl, ?_, ?_, by simp, by simp, by simp⟩
      · show List.countP _ (app.pendingCycle cfg now db).db = 0
        rw [h2]
        omega
      · show 1 = (0 + b - 1) / b + 1
        rw [ceil_div_zero b hb]
    · have hpos : 0 < n := Nat.pos_of_ne_zero hz
      have h1pos : (app.pendingCycle cfg now db).updatedCount ≠ 0 := by omega
      rw [if_neg h1pos]
      have hstep := ceil_div_step n b hb hpos
      have hfuel2 : (n - min b n + b - 1) / b + 1 ≤ fuel := by
        rw [hstep] at hfuel
        omega
      obtain ⟨r, hr, herr, hcount, hlen, hdl, hlast, hsum⟩ :=
        ih (n - min b n) (by omega)
          (app.pendingCycle cfg now db).db h3 h2 fuel (fun k => faults (k + 1))
          (fun k => clock (k + 1)) hfuel2 (fun k => hf (k + 1)) (fun k => hc (k + 1))
      rw [hr]
      have hne : r.counts ≠ [] := by
        intro h
        rw [h] at hlen
        simp at hlen
      refine ⟨_, rfl, herr, hcount, ?_, ?_, ?_, ?_⟩
      · simp only [List.length_cons, hlen]
        rw [hstep]
      · obtain ⟨x, rest, hx⟩ := List.exists_cons_of_ne_nil hne
        intro c hcmem
        rw [hx, List.dropLast_cons₂] at hcmem
        rcases List.mem_cons.mp hcmem with h | h
        · rw [h, h1]; omega
        · exact hdl c (by rw [hx]; exact h)
      · obtain ⟨x, rest, hx⟩ := List.exists_cons_of_ne_nil hne
        rw [hx] at hlast ⊢
        simpa [List.getLast?_cons_cons] using hlast
      · simp only [List.sum_cons, hsum, h1]
        omega

/-- C15: for every table keyed by `uid` and every batch limit B >= 1, a call of
`runPendingWorker` in which no store call or decode fails and the clock is fixed at `now`
returns (given fuel for its passes) without error; when it returns no row with status
"queued" and `start_time <= now + lookahead` remains; and with M such rows before the call
it makes ceil(M/B) passes that each claim at least one row, M rows in all, followed by
exactly one pass that claims none. -/
theorem runPendingWorker_drains_backlog (cfg : config.WorkerConfig) (now : time.Time)
    (db : repo.DB) (fuel : Nat) (faults : Nat → sql.Faults) (clock : Nat → time.Time)
    (hkey : (db.map (fun r => r.uid)).Nodup) (hB : 1 ≤ cfg.PendingWorkerBatchSize)
    (hf : ∀ k, faults k = sql.noFaults) (hc : ∀ k, clock k = now)
    (hfuel : ((db.filter (app.pendingDue cfg now)).length
        + cfg.PendingWorkerBatchSize.toNat - 1) / cfg.PendingWorkerBatchSize.toNat + 1
        ≤ fuel) :
    ∃ r, app.runPendingWorker cfg fuel faults clock db = some r ∧ r.err = none ∧
      (∀ x ∈ r.db, ¬ (x.status = "queued" ∧
        x.scheduled_delivery_min_time ≤ now + cfg.PendingIntervalInSeconds * time.Second)) ∧
      r.counts.length
        = ((db.filter (app.pendingDue cfg now)).length
            + cfg.PendingWorkerBatchSize.toNat - 1) / cfg.PendingWorkerBatchSize.toNat + 1 ∧
      (∀ c ∈ r.counts.dropLast, 0 < c) ∧ r.counts.getLast? = some 0 ∧
      r.counts.sum = (db.filter (app.pendingDue cfg now)).length := by
  obtain ⟨r, hr, herr, hcount, hlen, hdl, hlast, hsum⟩ :=
    runPendingWorker_drain_aux cfg now hB _ db hkey
      (List.countP_eq_length_filter (app.pendingDue cfg now) db) fuel faults clock hfuel hf hc
  refine ⟨r, hr, herr, ?_, hlen, hdl, hlast, hsum⟩
  intro x hx hdue
  have hall := List.countP_eq_zero.mp hcount x hx
  apply hall
  simpa [app.pendingDue] using hdue

theorem runPendingWorker_queuedTable :
    (app.runPendingWorker batchOfTwo 3 (fun _ => sql.noFaults) (fun _ => 0) queuedTable).map
        (fun r => (r.counts, r.db.map (fun x => x.status)))
      = some ([2, 1, 0], ["pending", "pending", "requested", "pending"]) := by
  decide

/-- C15 (witness): the drain of `queuedTable` (three due rows) with batch limit 2, in three
passes. -/
theorem runPendingWorker_drains_backlog_witness :
    (queuedTable.map (fun r => r.uid)).Nodup ∧ 1 ≤ batchOfTwo.PendingWorkerBatchSize ∧
    (∀ k : Nat, (fun _ => sql.noFaults : Nat → sql.Faults) k = sql.noFaults) ∧
    (∀ k : Nat, (fun _ => 0 : Nat → time.Time) k = 0) ∧
    ((queuedTable.filter (app.pendingDue batchOfTwo 0)).length
        + batchOfTwo.PendingWorkerBatchSize.toNat - 1) / batchOfTwo.PendingWorkerBatchSize.toNat
        + 1 ≤ 3 ∧
    ∃ r, app.runPendingWorker batchOfTwo 3 (fun _ => sql.noFaults) (fun _ => 0) queuedTable
        = some r ∧ r.err = none ∧
      (∀ x ∈ r.db, ¬ (x.status = "queued" ∧
        x.scheduled_delivery_min_time
          ≤ 0 + batchOfTwo.PendingIntervalInSeconds * time.Second)) ∧
      r.counts.length
        = ((queuedTable.filter (app.pendingDue batchOfTwo 0)).length
            + batchOfTwo.PendingWorkerBatchSize.toNat - 1)
            / batchOfTwo.PendingWorkerBatchSize.toNat + 1 ∧
      (∀ c ∈ r.counts.dropLast, 0 < c) ∧ r.counts.getLast? = some 0 ∧
      r.counts.sum = (queuedTable.filter (app.pendingDue batchOfTwo 0)).length :=
  ⟨by decide, by decide, fun _ => rfl, fun _ => rfl, by decide,
    runPendingWorker_drains_backlog batchOfTwo 0 queuedTable 3 (fun _ => sql.noFaults)
      (fun _ => 0) (by decide) (by decide) (fun _ => rfl) (fun _ => rfl) (by decide)⟩

/-! ## The Searching Worker of the 3PL -/

theorem posted_subset (delivery : threepl.Delivery) (bodies : List domain.WebhookInput)
    (w : domain.WebhookInput) (hw : w ∈ threepl.posted delivery bodies) : w ∈ bodies := by
  unfold threepl.posted at hw
  split at hw
  · exact (List.mem_filter.mp hw).1
  · exact hw

theorem posted_of_no_failure (delivery : threepl.Delivery) (bodies : List domain.WebhookInput)
    (h : bodies.any (threepl.postFails delivery) = false) :
    threepl.posted delivery bodies = bodies := by
  unfold threepl.posted
  rw [h]
  rfl

theorem posted_sublist (delivery : threepl.Delivery) (bodies : List domain.WebhookInput) :
    (threepl.posted delivery bodies).Sublist bodies := by
  unfold threepl.posted
  split
  · exact List.filter_sublist _
  · exact List.Sublist.refl _

theorem claimed_by_key {α κ : Type} [DecidableEq α] [DecidableEq κ] (key : α → κ)
    (g : α → α) {l claimed : List α} (hkey : (l.map key).Nodup) (hs : claimed.Sublist l) :
    l.map (fun a => if key a ∈ claimed.map key then g a else a)
      = l.map (fun a => if a ∈ claimed then g a else a) ∧
    l.filter (fun a => decide (key a ∈ claimed.map key)) = claimed := by
  have hiff : ∀ a ∈ l, (key a ∈ claimed.map key ↔ a ∈ claimed) :=
    fun a ha => key_mem_claimed_iff key hkey (fun x hx => hs.subset hx) ha
  constructor
  · apply List.map_congr_left
    intro a ha
    by_cases h : a ∈ claimed
    · rw [if_pos h, if_pos ((hiff a ha).mpr h)]
    · rw [if_neg h, if_neg (fun h1 => h ((hiff a ha).mp h1))]
  · have hf : l.filter (fun a => decide (key a ∈ claimed.map key))
        = l.filter (fun a => decide (a ∈ claimed)) := by
      apply List.filter_congr
      intro a ha
      simpa using hiff a ha
    rw [hf, filter_mem_of_sublist hs (List.Nodup.of_map _ hkey)]

theorem Database_set_other (db : threepl.Database) (rel : String) (rows : List threepl.Shipment)
    (name : String) (h : name ≠ rel) : (db.set rel rows) name = db name := by
  simp [threepl.Database.set, h]

theorem Database_set_same (db : threepl.Database) (rel : String)
    (rows : List threepl.Shipment) : (db.set rel rows) rel = some rows := by
  simp [threepl.Database.set]

theorem posted_map_ok (delivery : threepl.Delivery) (status : String) (uids : List String)
    (h : ∀ uid ∈ uids, threepl.postFails delivery ⟨uid, status⟩ = false) :
    (uids.map (fun uid => (⟨uid, status⟩ : domain.WebhookInput))).any
        (threepl.postFails delivery) = false ∧
    threepl.posted delivery (uids.map (fun uid => (⟨uid, status⟩ : domain.WebhookInput)))
      = uids.map (fun uid => (⟨uid, status⟩ : domain.WebhookInput)) := by
  have hany : (uids.map (fun uid => (⟨uid, status⟩ : domain.WebhookInput))).any
      (threepl.postFails delivery) = false := by
    rw [List.any_eq_false]
    intro w hw
    obtain ⟨uid, hu, rfl⟩ := List.mem_map.mp hw
    rw [h uid hu]
    decide
  exact ⟨hany, posted_of_no_failure _ _ hany⟩

theorem posted_map_fail (delivery : threepl.Delivery) (status : String) (uids : List String)
    (h : ∃ uid ∈ uids, threepl.postFails delivery ⟨uid, status⟩ = true) :
    (uids.map (fun uid => (⟨uid, status⟩ : domain.WebhookInput))).any
        (threepl.postFails delivery) = true ∧
    threepl.posted delivery (uids.map (fun uid => (⟨uid, status⟩ : domain.WebhookInput)))
      = (uids.filter delivery.reached).map
          (fun uid => (⟨uid, status⟩ : domain.WebhookInput)) := by
  have hany : (uids.map (fun uid => (⟨uid, status⟩ : domain.WebhookInput))).any
      (threepl.postFails delivery) = true := by
    obtain ⟨uid, hu, hf⟩ := h
    rw [List.any_eq_true]
    exact ⟨_, List.mem_map.mpr ⟨uid, hu, rfl⟩, hf⟩
  refine ⟨hany, ?_⟩
  unfold threepl.posted
  rw [if_pos hany, List.filter_map]
  rfl

/-- C13 (amended): for a tracking table keyed by `shipment_uid`: a pass of the Searching
Worker whose `Begin`, `Query` and `Commit` succeed claims the rows with status "requested"
and next-check time `<= now`, the first 100 of them in the order of the store when there are
more; the table after the pass is the table before it with the claimed rows, and no other,
set to status "searching" and next-check `now + 5 minutes`; other relations are untouched;
the identifiers it collects are those of the claimed rows (that decode). Every webhook the
pass posts carries the status "searching" and one of the collected identifiers. When no
post fails, one webhook is posted for each collected identifier and the pass goes on. When a post fails (transport error or a status code other than 200) the process
exits, and only the goroutines that had posted by then have posted. A pass whose `Begin`,
`Query` or `Commit` fails posts no webhook and leaves the database as it was: posts only
follow a commit. -/
theorem searchingPass_claims_requested (f : sql.Faults) (delivery : threepl.Delivery)
    (now : time.Time) (db : threepl.Database) (rows : List threepl.Shipment)
    (hrel : db "shipments_3pl" = some rows)
    (hkey : (rows.map (fun r => r.ShipmentUID)).Nodup) :
    (f.beginFails = false → f.queryFails = false → f.commitFails = false →
      ∃ claimed : List threepl.Shipment,
        claimed
          = (rows.filter (fun r => decide (r.Status = "requested" ∧ r.StartTime ≤ now))).take
              100 ∧
        claimed.Sublist rows ∧
        claimed.length
          = min 100 (rows.countP (fun r => decide (r.Status = "requested" ∧ r.StartTime ≤ now))) ∧
        (∀ r ∈ claimed, r.Status = "requested" ∧ r.StartTime ≤ now) ∧
        (threepl.searchingPass f delivery now db).db "shipments_3pl"
          = some (rows.map (fun r =>
              if r ∈ claimed then
                { r with Status := "searching", StartTime := now + 5 * time.Minute }
              else r)) ∧
        (∀ rel, rel ≠ "shipments_3pl" →
          (threepl.searchingPass f delivery now db).db rel = db rel) ∧
        (threepl.searchingPass f delivery now db).uids
          = (claimed.map (fun r => r.ShipmentUID)).filter (fun uid => !f.scanFails uid) ∧
        ((threepl.searchingPass f delivery now db).webhooks).Sublist
          ((threepl.searchingPass f delivery now db).uids.map
            (fun uid => { ShipmentUID := uid, Status := "searching" })) ∧
        ((∀ uid ∈ (threepl.searchingPass f delivery now db).uids,
            threepl.postFails delivery { ShipmentUID := uid, Status := "searching" } = false) →
          (threepl.searchingPass f delivery now db).webhooks
            = (threepl.searchingPass f delivery now db).uids.map
                (fun uid => { ShipmentUID := uid, Status := "searching" }) ∧
          (threepl.searchingPass f delivery now db).exit = false) ∧
        ((∃ uid ∈ (threepl.searchingPass f delivery now db).uids,
            threepl.postFails delivery { ShipmentUID := uid, Status := "searching" } = true) →
          (threepl.searchingPass f delivery now db).webhooks
            = ((threepl.searchingPass f delivery now db).uids.filter delivery.reached).map
                (fun uid => { ShipmentUID := uid, Status := "searching" }) ∧
          (threepl.searchingPass f delivery now db).exit = true)) ∧
    ((f.beginFails = true ∨ f.queryFails = true ∨ f.commitFails = true) →
      (threepl.searchingPass f delivery now db).db = db ∧
      (threepl.searchingPass f delivery now db).uids = [] ∧
      (threepl.searchingPass f delivery now db).webhooks = [] ∧
      (threepl.searchingPass f delivery now db).exit = true) := by
  constructor
  · intro hb hq hc
    have hsub : ((rows.filter (fun r => decide (r.Status = "requested" ∧ r.StartTime ≤ now))).take
        100).Sublist rows := (List.take_sublist _ _).trans (List.filter_sublist _)
    obtain ⟨h1, h2⟩ := claimed_by_key (fun r : threepl.Shipment => r.ShipmentUID)
      (fun r => { r with Status := "searching", StartTime := now + 5 * time.Minute }) hkey hsub
    refine ⟨_, rfl, hsub, ?_, ?_, ?_⟩
    · rw [List.length_take, List.countP_eq_length_filter]
    · intro r hr
      simpa using (List.mem_filter.mp (List.mem_of_mem_take hr)).2
    · unfold threepl.searchingPass
      simp only [hb, hq, hc, hrel, Bool.false_eq_true, if_false]
      rw [h2]
      split_ifs with hlen
      · refine ⟨?_, ?_, ?_, ?_, ?_, ?_⟩
        · dsimp only
          rw [Database_set_same, h1]
        · intro rel hne; exact Database_set_other _ _ _ _ hne
        · exact (List.length_eq_zero.mp hlen).symm
        · exact List.Sublist.refl _
        · intro _; exact ⟨rfl, rfl⟩
        · rintro ⟨uid, hu, _⟩
          exact absurd hu (List.not_mem_nil _)
      · refine ⟨?_, ?_, rfl, posted_sublist _ _, ?_, ?_⟩
        · dsimp only
          rw [Database_set_same, h1]
        · intro rel hne; exact Database_set_other _ _ _ _ hne
        · intro hall
          have := posted_map_ok delivery "searching" _ hall
          exact ⟨this.2, this.1⟩
        · intro hex
          have := posted_map_fail delivery "searching" _ hex
          exact ⟨this.2, this.1⟩
  · intro h
    unfold threepl.searchingPass
    rcases h with h | h | h
    · simp [h]
    · by_cases hb : f.beginFails = true <;> simp [h, hb]
    · by_cases hb : f.beginFails = true
      · simp [hb]
      · by_cases hq : f.queryFails = true
        · simp [hb, hq]
        · simp [hb, hq, h, hrel]

/-- C13 (counterexample): a pass of the Searching Worker at instant 1000 over
`requestedRows` whose claim commits and returns `a` and `b`. The delivery service answers the
post for `a` with 500, the goroutine of `a` calls `os.Exit(1)`, and the goroutine of `b` has
not posted by then: the claim returned `b`, the row of `b` is "searching" in the store, and
no webhook was sent for `b`. -/
theorem searchingPass_post_cut_off :
    (threepl.searchingPass sql.noFaults deliveryRefusingA 1000 (trackingOnly requestedRows)).db
        "shipments_3pl"
      = some [⟨"a", 1000 + 5 * time.Minute, 1, "searching"⟩,
          ⟨"b", 1000 + 5 * time.Minute, 1, "searching"⟩, ⟨"e", 1001, 1, "requested"⟩,
          ⟨"c", 0, 1, "searching"⟩] ∧
    (threepl.searchingPass sql.noFaults deliveryRefusingA 1000 (trackingOnly requestedRows)).uids
      = ["a", "b"] ∧
    (threepl.searchingPass sql.noFaults deliveryRefusingA 1000
        (trackingOnly requestedRows)).webhooks
      = [⟨"a", "searching"⟩] ∧
    (threepl.searchingPass sql.noFaults deliveryRefusingA 1000 (trackingOnly requestedRows)).exit
      = true := by
  decide

/-- C13 (witness): a pass of the Searching Worker at instant 1000 over `requestedRows`, with
no store failure and a delivery service that answers 200: it claims `a` and `b`, whose
next-check time is the instant of the pass, leaves `e`, due one nanosecond later, and posts
for `a` and `b`. -/
theorem searchingPass_claims_requested_witness :
    (threepl.searchingPass sql.noFaults deliveryOk 1000 (trackingOnly requestedRows)).db
        "shipments_3pl"
      = some [⟨"a", 1000 + 5 * time.Minute, 1, "searching"⟩,
          ⟨"b", 1000 + 5 * time.Minute, 1, "searching"⟩, ⟨"e", 1001, 1, "requested"⟩,
          ⟨"c", 0, 1, "searching"⟩] ∧
    (threepl.searchingPass sql.noFaults deliveryOk 1000 (trackingOnly requestedRows)).webhooks
      = [⟨"a", "searching"⟩, ⟨"b", "searching"⟩] ∧
    (threepl.searchingPass sql.noFaults deliveryOk 1000 (trackingOnly requestedRows)).exit
      = false ∧
    trackingOnly requestedRows "shipments_3pl" = some requestedRows ∧
    (requestedRows.map (fun r => r.ShipmentUID)).Nodup ∧
    ((sql.noFaults.beginFails = false → sql.noFaults.queryFails = false → sql.noFaults.commitFails = false →
      ∃ claimed : List threepl.Shipment,
        claimed
          = (requestedRows.filter (fun r => decide (r.Status = "requested" ∧ r.StartTime ≤ 1000))).take
              100 ∧
        claimed.Sublist requestedRows ∧
        claimed.length
          = min 100 (requestedRows.countP (fun r => decide (r.Status = "requested" ∧ r.StartTime ≤ 1000))) ∧
        (∀ r ∈ claimed, r.Status = "requested" ∧ r.StartTime ≤ 1000) ∧
        (threepl.searchingPass sql.noFaults deliveryOk 1000 (trackingOnly requestedRows)).db "shipments_3pl"
          = some (requestedRows.map (fun r =>
              if r ∈ claimed then
                { r with Status := "searching", StartTime := 1000 + 5 * time.Minute }
              else r)) ∧
        (∀ rel, rel ≠ "shipments_3pl" →
          (threepl.searchingPass sql.noFaults deliveryOk 1000 (trackingOnly requestedRows)).db rel = (trackingOnly requestedRows) rel) ∧
        (threepl.searchingPass sql.noFaults deliveryOk 1000 (trackingOnly requestedRows)).uids
          = (claimed.map (fun r => r.ShipmentUID)).filter (fun uid => !sql.noFaults.scanFails uid) ∧
        ((threepl.searchingPass sql.noFaults deliveryOk 1000 (trackingOnly requestedRows)).webhooks).Sublist
          ((threepl.searchingPass sql.noFaults deliveryOk 1000 (trackingOnly requestedRows)).uids.map
            (fun uid => { ShipmentUID := uid, Status := "searching" })) ∧
        ((∀ uid ∈ (threepl.searchingPass sql.noFaults deliveryOk 1000 (trackingOnly requestedRows)).uids,
            threepl.postFails deliveryOk { ShipmentUID := uid, Status := "searching" } = false) →
          (threepl.searchingPass sql.noFaults deliveryOk 1000 (trackingOnly requestedRows)).webhooks
            = (threepl.searchingPass sql.noFaults deliveryOk 1000 (trackingOnly requestedRows)).uids.map
                (fun uid => { ShipmentUID := uid, Status := "searching" }) ∧
          (threepl.searchingPass sql.noFaults deliveryOk 1000 (trackingOnly requestedRows)).exit = false) ∧
        ((∃ uid ∈ (threepl.searchingPass sql.noFaults deliveryOk 1000 (trackingOnly requestedRows)).uids,
            threepl.postFails deliveryOk { ShipmentUID := uid, Status := "searching" } = true) →
          (threepl.searchingPass sql.noFaults deliveryOk 1000 (trackingOnly requestedRows)).webhooks
            = ((threepl.searchingPass sql.noFaults deliveryOk 1000 (trackingOnly requestedRows)).uids.filter deliveryOk.reached).map
                (fun uid => { ShipmentUID := uid, Status := "searching" }) ∧
          (threepl.searchingPass sql.noFaults deliveryOk 1000 (trackingOnly requestedRows)).exit = true)) ∧
    ((sql.noFaults.beginFails = true ∨ sql.noFaults.queryFails = true ∨ sql.noFaults.commitFails = true) →
      (threepl.searchingPass sql.noFaults deliveryOk 1000 (trackingOnly requestedRows)).db = (trackingOnly requestedRows) ∧
      (threepl.searchingPass sql.noFaults deliveryOk 1000 (trackingOnly requestedRows)).uids = [] ∧
      (threepl.searchingPass sql.noFaults deliveryOk 1000 (trackingOnly requestedRows)).webhooks = [] ∧
      (threepl.searchingPass sql.noFaults deliveryOk 1000 (trackingOnly requestedRows)).exit = true)) :=
  ⟨by decide, by decide, by decide, by decide, by decide,
    searchingPass_claims_requested sql.noFaults deliveryOk 1000 (trackingOnly requestedRows)
      requestedRows (by decide) (by decide)⟩

/-! ## The Finding Worker of the 3PL -/

theorem findingPass_webhooks_not_found (f : sql.Faults) (delivery : threepl.Delivery)
    (now : time.Time) (db : threepl.Database) :
    ∀ w ∈ (threepl.findingPass f delivery now db).webhooks, w.Status = "not_found" := by
  intro w hw
  unfold threepl.findingPass at hw
  by_cases hb : f.beginFails = true
  · simp [hb] at hw
  by_cases hq : f.queryFails = true
  · simp [hb, hq] at hw
  rw [if_neg hb, if_neg hq] at hw
  cases hrel : db "shipments_3pl" with
  | none => rw [hrel] at hw; simp at hw
  | some rows =>
    rw [hrel] at hw
    dsimp only at hw
    split at hw
    · split at hw <;> simp at hw
    · split at hw
      · simp at hw
      · split at hw
        · simp at hw
        · obtain ⟨s, hs, rfl⟩ := List.mem_map.mp (posted_subset _ _ _ hw)
          obtain ⟨r, hr, rfl⟩ := List.mem_map.mp hs
          have hr2 := (List.mem_filter.mp (List.mem_of_mem_take (List.mem_filter.mp hr).1)).2
          have hst : r.Status = "searching" := (of_decide_eq_true hr2).1
          simp [threepl.scanShipment, hst]

/-- C14 (the code at the failing input): a pass of the Finding Worker at instant 1000 over a
table whose row `c` is "searching" and due sets the status of `c` to "found" in the table and
posts the webhook for `c` with status "not_found", not "found": the goroutines read the
status scanned from the row, which the assignment of "found" to the loop copy left as it
was. -/
theorem findingPass_posts_not_found :
    (threepl.findingPass sql.noFaults deliveryOk 1000 (trackingOnly trackingRows)).db
        "shipments_3pl"
      = some [⟨"a", 0, 1, "requested"⟩, ⟨"b", 5000, 1, "requested"⟩, ⟨"c", 0, 1, "found"⟩,
          ⟨"d", 0, 1, "found"⟩] ∧
    (threepl.findingPass sql.noFaults deliveryOk 1000 (trackingOnly trackingRows)).webhooks
      = [⟨"c", "not_found"⟩] ∧
    (threepl.findingPass sql.noFaults deliveryOk 1000 (trackingOnly trackingRows)).exit
      = false := by
  decide

/-! ## Store failures -/

theorem find_map_key {α : Type} (key : α → String) (g : α → α)
    (hg : ∀ a, key (g a) = key a) (l : List α) (u : String) :
    (l.map g).find? (fun x => decide (key x = u))
      = (l.find? (fun x => decide (key x = u))).map g := by
  rw [List.find?_map]
  have hcomp : ((fun x : α => decide (key x = u)) ∘ g) = fun x => decide (key x = u) := by
    funext a
    simp only [Function.comp, hg]
  rw [hcomp]

theorem find_key_of_mem {α : Type} (key : α → String) {l : List α}
    (hkey : (l.map key).Nodup) {a : α} (ha : a ∈ l) :
    l.find? (fun x => decide (key x = key a)) = some a := by
  cases h : l.find? (fun x => decide (key x = key a)) with
  | none =>
    have := List.find?_eq_none.mp h a ha
    simp at this
  | some a1 =>
    have h1 : key a1 = key a := by simpa using List.find?_some h
    have h2 : a1 ∈ l := List.mem_of_find?_eq_some h
    rw [List.inj_on_of_nodup_map hkey h2 ha h1]

theorem foldl_setStatus (shipments : List threepl.Shipment) :
    ∀ rows : List threepl.Shipment,
      shipments.foldl (fun acc shipment =>
          threepl.setStatus acc ({ shipment with Status := "found" } : threepl.Shipment).Status
            ({ shipment with Status := "found" } : threepl.Shipment).ShipmentUID) rows
        = rows.map (fun r =>
            if r.ShipmentUID ∈ shipments.map (fun s => s.ShipmentUID) then
              { r with Status := "found" }
            else r) := by
  induction shipments with
  | nil => intro rows; simp
  | cons s rest ih =>
    intro rows
    rw [List.foldl_cons, ih]
    unfold threepl.setStatus
    rw [List.map_map]
    apply List.map_congr_left
    intro r _
    simp only [Function.comp, List.map_cons, List.mem_cons]
    by_cases h1 : r.ShipmentUID = s.ShipmentUID
    · by_cases h2 : r.ShipmentUID ∈ rest.map (fun s => s.ShipmentUID) <;> simp [h1, h2]
    · by_cases h2 : r.ShipmentUID ∈ rest.map (fun s => s.ShipmentUID) <;> simp [h1, h2]

theorem shippingPass_cases (f : sql.Faults) (client : usecase.ThirdPartyLogistics)
    (cfg : config.WorkerConfig) (db : repo.DB) :
    (∀ s ∈ (app.shippingPass f client cfg db).shipments, f.scanFails s.UID = false) ∧
    ((app.shippingPass f client cfg db).db = db ∨
      ∃ uids : List String, (∀ u ∈ uids, f.scanFails u = false) ∧
        (app.shippingPass f client cfg db).db = app.updateStatusIn db "requested" uids) := by
  unfold app.shippingPass
  by_cases hb : f.beginFails = true
  · rw [if_pos hb]; exact ⟨by simp, Or.inl rfl⟩
  by_cases hq : f.queryFails = true
  · rw [if_neg hb, if_pos hq]; exact ⟨by simp, Or.inl rfl⟩
  rw [if_neg hb, if_neg hq]
  cases app.limit cfg.PendingWorkerBatchSize
      (db.filter (fun r => decide (r.status = "pending"))) with
  | error e => exact ⟨by simp, Or.inl rfl⟩
  | ok rows =>
    dsimp only
    have hdec : ∀ s ∈ (rows.filter (fun r => !f.scanFails r.uid)).map repo.scanShipment,
        f.scanFails s.UID = false := by
      intro s hs
      obtain ⟨r, hr, rfl⟩ := List.mem_map.mp hs
      simpa [repo.scanShipment] using (List.mem_filter.mp hr).2
    have huids : ∀ u ∈ (((rows.filter (fun r => !f.scanFails r.uid)).map
        repo.scanShipment).filter
          (fun s => (client (app.deliveryGuyInput s)).isNone)).map (fun s => s.UID),
        f.scanFails u = false := by
      intro u hu
      obtain ⟨s, hs, rfl⟩ := List.mem_map.mp hu
      exact hdec s (List.mem_filter.mp hs).1
    split
    · split <;> exact ⟨by simp, Or.inl rfl⟩
    · split
      · exact ⟨hdec, Or.inl rfl⟩
      · split
        · exact ⟨hdec, Or.inl rfl⟩
        · exact ⟨hdec, Or.inr ⟨_, huids, rfl⟩⟩

theorem shippingPass_scan_failure (f : sql.Faults) (client : usecase.ThirdPartyLogistics)
    (cfg : config.WorkerConfig) (db : repo.DB) (hkey : (db.map (fun r => r.uid)).Nodup)
    (r : repo.Row) (hr : r ∈ db) (hs : f.scanFails r.uid = true) :
    (app.shippingPass f client cfg db).db.find? (fun x => decide (x.uid = r.uid)) = some r ∧
    ∀ s ∈ (app.shippingPass f client cfg db).shipments, s.UID ≠ r.uid := by
  obtain ⟨h1, h2⟩ := shippingPass_cases f client cfg db
  have hfind := find_uid_of_mem hkey hr
  constructor
  · rcases h2 with h | ⟨uids, hu, h⟩
    · rw [h]; exact hfind
    · have hnin : r.uid ∉ uids := by
        intro hmem
        have := hu _ hmem
        rw [hs] at this
        exact absurd this (by decide)
      rw [h, find_updateStatusIn, hfind]
      simp [hnin]
  · intro s hsm heq
    have := h1 s hsm
    rw [heq, hs] at this
    exact absurd this (by decide)

theorem pendingPass_scan_failure (f : sql.Faults) (cfg : config.WorkerConfig)
    (now : time.Time) (db : repo.DB) (hkey : (db.map (fun r => r.uid)).Nodup)
    (hB : 0 ≤ cfg.PendingWorkerBatchSize)
    (hb : f.beginFails = false) (hq : f.queryFails = false) (hc : f.commitFails = false)
    (r : repo.Row)
    (hr : r ∈ (db.filter (app.pendingDue cfg now)).take cfg.PendingWorkerBatchSize.toNat) :
    r.status = "queued" ∧
    (app.pendingPass f cfg now db).db.find? (fun x => decide (x.uid = r.uid))
      = some { r with status := "pending" } ∧
    (app.pendingPass f cfg now db).updatedCount
      = (((db.filter (app.pendingDue cfg now)).take cfg.PendingWorkerBatchSize.toNat).filter
          (fun x => !f.scanFails x.uid)).length ∧
    (app.pendingPass f cfg now db).err = none := by
  have hsub : ((db.filter (app.pendingDue cfg now)).take
      cfg.PendingWorkerBatchSize.toNat).Sublist db :=
    (List.take_sublist _ _).trans (List.filter_sublist _)
  obtain ⟨_, h2⟩ := claimed_by_key (fun x : repo.Row => x.uid)
    (fun x => { x with status := "pending" }) hkey hsub
  have hrdb : r ∈ db := hsub.subset hr
  have hdue := (List.mem_filter.mp (List.mem_of_mem_take hr)).2
  have hst : r.status = "queued" := (of_decide_eq_true hdue).1
  have hpass : app.pendingPass f cfg now db
      = ⟨app.updateStatusIn db "pending"
          (((db.filter (app.pendingDue cfg now)).take cfg.PendingWorkerBatchSize.toNat).map
            (fun r => r.uid)),
        ((((db.filter (fun r => decide (r.uid ∈
          ((db.filter (app.pendingDue cfg now)).take cfg.PendingWorkerBatchSize.toNat).map
            (fun r => r.uid)))).map (fun r => r.uid)).filter
              (fun uid => !f.scanFails uid))).length,
        none⟩ := by
    unfold app.pendingPass app.limit
    simp only [hb, hq, hc, Bool.false_eq_true, if_false, if_neg (not_lt.mpr hB)]
  rw [hpass]
  refine ⟨hst, ?_, ?_, rfl⟩
  · show (app.updateStatusIn db "pending" _).find? _ = _
    rw [find_updateStatusIn, find_uid_of_mem hkey hrdb]
    have : r.uid ∈ ((db.filter (app.pendingDue cfg now)).take
        cfg.PendingWorkerBatchSize.toNat).map (fun r => r.uid) :=
      List.mem_map.mpr ⟨r, hr, rfl⟩
    simp only [Option.map_some']
    rw [if_pos this]
  · show (List.filter _ (List.map _ (db.filter _))).length = _
    rw [h2, List.filter_map, List.length_map]
    rfl

theorem searchingPass_scan_failure (f : sql.Faults) (webhook : threepl.Delivery)
    (now : time.Time) (db : threepl.Database) (rows : List threepl.Shipment)
    (hrel : db "shipments_3pl" = some rows)
    (hkey : (rows.map (fun r => r.ShipmentUID)).Nodup)
    (hb : f.beginFails = false) (hq : f.queryFails = false) (hc : f.commitFails = false)
    (r : threepl.Shipment)
    (hr : r ∈ (rows.filter (fun r => decide (r.Status = "requested" ∧ r.StartTime ≤ now))).take 100)
    (hs : f.scanFails r.ShipmentUID = true) :
    r.Status = "requested" ∧
    (∃ rows1, (threepl.searchingPass f webhook now db).db "shipments_3pl" = some rows1 ∧
      rows1.find? (fun x => decide (x.ShipmentUID = r.ShipmentUID))
        = some { r with Status := "searching", StartTime := now + 5 * time.Minute }) ∧
    r.ShipmentUID ∉ (threepl.searchingPass f webhook now db).uids ∧
    ∀ w ∈ (threepl.searchingPass f webhook now db).webhooks, w.ShipmentUID ≠ r.ShipmentUID := by
  have hsub : ((rows.filter (fun r => decide (r.Status = "requested" ∧ r.StartTime ≤ now))).take
      100).Sublist rows := (List.take_sublist _ _).trans (List.filter_sublist _)
  obtain ⟨_, h2⟩ := claimed_by_key (fun r : threepl.Shipment => r.ShipmentUID)
    (fun r => { r with Status := "searching", StartTime := now + 5 * time.Minute }) hkey hsub
  have hrows : r ∈ rows := hsub.subset hr
  have hst : r.Status = "requested" :=
    (of_decide_eq_true (List.mem_filter.mp (List.mem_of_mem_take hr)).2).1
  have hin : r.ShipmentUID ∈ ((rows.filter (fun r =>
      decide (r.Status = "requested" ∧ r.StartTime ≤ now))).take 100).map
        (fun r => r.ShipmentUID) := List.mem_map.mpr ⟨r, hr, rfl⟩
  have hfind : (rows.map (fun x : threepl.Shipment =>
      if x.ShipmentUID ∈ ((rows.filter (fun r =>
          decide (r.Status = "requested" ∧ r.StartTime ≤ now))).take 100).map
            (fun r => r.ShipmentUID) then
        { x with Status := "searching", StartTime := now + 5 * time.Minute }
      else x)).find? (fun x => decide (x.ShipmentUID = r.ShipmentUID))
      = some { r with Status := "searching", StartTime := now + 5 * time.Minute } := by
    rw [find_map_key (fun x : threepl.Shipment => x.ShipmentUID) _ _ rows r.ShipmentUID,
      find_key_of_mem (fun x : threepl.Shipment => x.ShipmentUID) hkey hrows]
    · simp only [Option.map_some']
      rw [if_pos hin]
    · intro a
      dsimp only
      split_ifs <;> rfl
  have hnd : r.ShipmentUID ∉ (((rows.filter (fun r =>
      decide (r.Status = "requested" ∧ r.StartTime ≤ now))).take 100).map
        (fun r => r.ShipmentUID)).filter (fun uid => !f.scanFails uid) := by
    intro hmem
    have := (List.mem_filter.mp hmem).2
    rw [hs] at this
    exact absurd this (by decide)
  refine ⟨hst, ?_⟩
  unfold threepl.searchingPass
  simp only [hb, hq, hc, hrel, Bool.false_eq_true, if_false]
  rw [h2]
  split_ifs with hlen
  · refine ⟨⟨_, (by dsimp only; exact Database_set_same _ _ _), hfind⟩, by simp, by simp⟩
  · refine ⟨⟨_, (by dsimp only; exact Database_set_same _ _ _), hfind⟩, hnd, ?_⟩
    intro w hw heq
    obtain ⟨u, hu, rfl⟩ := List.mem_map.mp (posted_subset _ _ _ hw)
    exact hnd (heq ▸ hu)

theorem shippingPass3pl_scan_failure (f : sql.Faults) (webhook : threepl.Delivery)
    (now : time.Time) (db : threepl.Database) (rows : List threepl.Shipment)
    (hrel : db "shipments_3pl" = some rows)
    (hkey : (rows.map (fun r => r.ShipmentUID)).Nodup)
    (hb : f.beginFails = false) (hq : f.queryFails = false) (hc : f.commitFails = false)
    (r : threepl.Shipment)
    (hr : r ∈ (rows.filter (fun r => decide (r.Status = "found" ∧ r.StartTime ≤ now))).take 100)
    (hs : f.scanFails r.ShipmentUID = true) :
    r.Status = "found" ∧
    (∃ rows1, (threepl.shippingPass f webhook now db).db "shipments_3pl" = some rows1 ∧
      rows1.find? (fun x => decide (x.ShipmentUID = r.ShipmentUID))
        = some { r with Status := "shipped", StartTime := now }) ∧
    r.ShipmentUID ∉ (threepl.shippingPass f webhook now db).uids ∧
    ∀ w ∈ (threepl.shippingPass f webhook now db).webhooks, w.ShipmentUID ≠ r.ShipmentUID := by
  have hsub : ((rows.filter (fun r => decide (r.Status = "found" ∧ r.StartTime ≤ now))).take
      100).Sublist rows := (List.take_sublist _ _).trans (List.filter_sublist _)
  obtain ⟨_, h2⟩ := claimed_by_key (fun r : threepl.Shipment => r.ShipmentUID)
    (fun r => { r with Status := "shipped", StartTime := now }) hkey hsub
  have hrows : r ∈ rows := hsub.subset hr
  have hst : r.Status = "found" :=
    (of_decide_eq_true (List.mem_filter.mp (List.mem_of_mem_take hr)).2).1
  have hin : r.ShipmentUID ∈ ((rows.filter (fun r =>
      decide (r.Status = "found" ∧ r.StartTime ≤ now))).take 100).map
        (fun r => r.ShipmentUID) := List.mem_map.mpr ⟨r, hr, rfl⟩
  have hfind : (rows.map (fun x : threepl.Shipment =>
      if x.ShipmentUID ∈ ((rows.filter (fun r =>
          decide (r.Status = "found" ∧ r.StartTime ≤ now))).take 100).map
            (fun r => r.ShipmentUID) then
        { x with Status := "shipped", StartTime := now }
      else x)).find? (fun x => decide (x.ShipmentUID = r.ShipmentUID))
      = some { r with Status := "shipped", StartTime := now } := by
    rw [find_map_key (fun x : threepl.Shipment => x.ShipmentUID) _ _ rows r.ShipmentUID,
      find_key_of_mem (fun x : threepl.Shipment => x.ShipmentUID) hkey hrows]
    · simp only [Option.map_some']
      rw [if_pos hin]
    · intro a
      dsimp only
      split_ifs <;> rfl
  have hnd : r.ShipmentUID ∉ (((rows.filter (fun r =>
      decide (r.Status = "found" ∧ r.StartTime ≤ now))).take 100).map
        (fun r => r.ShipmentUID)).filter (fun uid => !f.scanFails uid) := by
    intro hmem
    have := (List.mem_filter.mp hmem).2
    rw [hs] at this
    exact absurd this (by decide)
  refine ⟨hst, ?_⟩
  unfold threepl.shippingPass
  simp only [hb, hq, hc, hrel, Bool.false_eq_true, if_false]
  rw [h2]
  split_ifs with hlen
  · refine ⟨⟨_, (by dsimp only; exact Database_set_same _ _ _), hfind⟩, by simp, by simp⟩
  · refine ⟨⟨_, (by dsimp only; exact Database_set_same _ _ _), hfind⟩, hnd, ?_⟩
    intro w hw heq
    obtain ⟨u, hu, rfl⟩ := List.mem_map.mp (posted_subset _ _ _ hw)
    exact hnd (heq ▸ hu)

theorem findingPass_scan_failure (f : sql.Faults) (webhook : threepl.Delivery)
    (now : time.Time) (db : threepl.Database) (rows : List threepl.Shipment)
    (hrel : db "shipments_3pl" = some rows)
    (hkey : (rows.map (fun r => r.ShipmentUID)).Nodup)
    (r : threepl.Shipment) (hr : r ∈ rows) (hs : f.scanFails r.ShipmentUID = true) :
    (∃ rows1, (threepl.findingPass f webhook now db).db "shipments_3pl" = some rows1 ∧
      rows1.find? (fun x => decide (x.ShipmentUID = r.ShipmentUID)) = some r) ∧
    (∀ s ∈ (threepl.findingPass f webhook now db).shipments,
      s.ShipmentUID ≠ r.ShipmentUID) ∧
    ∀ w ∈ (threepl.findingPass f webhook now db).webhooks,
      w.ShipmentUID ≠ r.ShipmentUID := by
  have hfind := find_key_of_mem (fun x : threepl.Shipment => x.ShipmentUID) hkey hr
  have hun : ∃ rows1, db "shipments_3pl" = some rows1 ∧
      rows1.find? (fun x => decide (x.ShipmentUID = r.ShipmentUID)) = some r :=
    ⟨rows, hrel, hfind⟩
  unfold threepl.findingPass
  by_cases hb : f.beginFails = true
  · rw [if_pos hb]; exact ⟨hun, by simp, by simp⟩
  by_cases hq : f.queryFails = true
  · rw [if_neg hb, if_pos hq]; exact ⟨hun, by simp, by simp⟩
  rw [if_neg hb, if_neg hq, hrel]
  dsimp only
  have hdec : ∀ s ∈ (((rows.filter (fun r =>
      decide (r.Status = "searching" ∧ r.StartTime ≤ now + 5 * time.Minute))).take 100).filter
        (fun r => !f.scanFails r.ShipmentUID)).map threepl.scanShipment,
      s.ShipmentUID ≠ r.ShipmentUID := by
    intro s hsm heq
    obtain ⟨x, hx, rfl⟩ := List.mem_map.mp hsm
    have hx2 := (List.mem_filter.mp hx).2
    have hxu : x.ShipmentUID = r.ShipmentUID := heq
    rw [hxu, hs] at hx2
    exact absurd hx2 (by decide)
  split
  · split <;> exact ⟨hun, by simp, by simp⟩
  · split
    · exact ⟨hun, by simp, by simp⟩
    · split
      · exact ⟨hun, by simp, by simp⟩
      · refine ⟨⟨_, (by dsimp only; exact Database_set_same _ _ _), ?_⟩, hdec, ?_⟩
        · rw [foldl_setStatus,
            find_map_key (fun x : threepl.Shipment => x.ShipmentUID) _ _ rows r.ShipmentUID,
            hfind]
          · simp only [Option.map_some']
            rw [if_neg]
            intro hmem
            obtain ⟨s, hsm, hsu⟩ := List.mem_map.mp hmem
            exact hdec s hsm hsu
          · intro a
            dsimp only
            split_ifs <;> rfl
        · intro w hw heq
          obtain ⟨s, hsm, rfl⟩ := List.mem_map.mp (posted_subset _ _ _ hw)
          exact hdec s hsm heq

/-- C17 (amended): a claimed row whose fields fail to decode is dropped from the batch of the
pass. In the Dispatch Worker and the Finding Worker, which select, decode and then update,
the row is left out of `shipments`, no request or webhook is made for it, and the row in the
store after the pass is the row before it. In the Pending Worker, the Searching Worker and
the Shipping Worker of the 3PL, whose one `UPDATE ... RETURNING` advances the row before the
returned identifier is decoded, a pass that commits leaves the row with the target status
("pending"; "searching" with next-check now + 5 minutes; "shipped" with next-check now)
although it was "queued", "requested" or "found" before; the row is only left out of the
count and of the identifiers for which a webhook is posted. Tables are keyed by
identifier. -/
theorem scan_failure_by_worker (f : sql.Faults) (client : usecase.ThirdPartyLogistics)
    (webhook : threepl.Delivery) (cfg : config.WorkerConfig) (now : time.Time)
    (db : repo.DB) (db3 : threepl.Database) (rows : List threepl.Shipment)
    (hkey : (db.map (fun r => r.uid)).Nodup)
    (hrel : db3 "shipments_3pl" = some rows)
    (hkey3 : (rows.map (fun r => r.ShipmentUID)).Nodup)
    (hB : 0 ≤ cfg.PendingWorkerBatchSize)
    (hb : f.beginFails = false) (hq : f.queryFails = false) (hc : f.commitFails = false) :
    (∀ r ∈ db, f.scanFails r.uid = true →
      (app.shippingPass f client cfg db).db.find? (fun x => decide (x.uid = r.uid)) = some r ∧
      ∀ s ∈ (app.shippingPass f client cfg db).shipments, s.UID ≠ r.uid) ∧
    (∀ r ∈ rows, f.scanFails r.ShipmentUID = true →
      (∃ rows1, (threepl.findingPass f webhook now db3).db "shipments_3pl" = some rows1 ∧
        rows1.find? (fun x => decide (x.ShipmentUID = r.ShipmentUID)) = some r) ∧
      (∀ s ∈ (threepl.findingPass f webhook now db3).shipments,
        s.ShipmentUID ≠ r.ShipmentUID) ∧
      ∀ w ∈ (threepl.findingPass f webhook now db3).webhooks,
        w.ShipmentUID ≠ r.ShipmentUID) ∧
    (∀ r ∈ (db.filter (app.pendingDue cfg now)).take cfg.PendingWorkerBatchSize.toNat,
      f.scanFails r.uid = true →
      r.status = "queued" ∧
      (app.pendingPass f cfg now db).db.find? (fun x => decide (x.uid = r.uid))
        = some { r with status := "pending" } ∧
      (app.pendingPass f cfg now db).updatedCount
        = (((db.filter (app.pendingDue cfg now)).take cfg.PendingWorkerBatchSize.toNat).filter
            (fun x => !f.scanFails x.uid)).length) ∧
    (∀ r ∈ (rows.filter (fun r => decide (r.Status = "requested" ∧ r.StartTime ≤ now))).take 100,
      f.scanFails r.ShipmentUID = true →
      r.Status = "requested" ∧
      (∃ rows1, (threepl.searchingPass f webhook now db3).db "shipments_3pl" = some rows1 ∧
        rows1.find? (fun x => decide (x.ShipmentUID = r.ShipmentUID))
          = some { r with Status := "searching", StartTime := now + 5 * time.Minute }) ∧
      r.ShipmentUID ∉ (threepl.searchingPass f webhook now db3).uids ∧
      ∀ w ∈ (threepl.searchingPass f webhook now db3).webhooks,
        w.ShipmentUID ≠ r.ShipmentUID) ∧
    (∀ r ∈ (rows.filter (fun r => decide (r.Status = "found" ∧ r.StartTime ≤ now))).take 100,
      f.scanFails r.ShipmentUID = true →
      r.Status = "found" ∧
      (∃ rows1, (threepl.shippingPass f webhook now db3).db "shipments_3pl" = some rows1 ∧
        rows1.find? (fun x => decide (x.ShipmentUID = r.ShipmentUID))
          = some { r with Status := "shipped", StartTime := now }) ∧
      r.ShipmentUID ∉ (threepl.shippingPass f webhook now db3).uids ∧
      ∀ w ∈ (threepl.shippingPass f webhook now db3).webhooks,
        w.ShipmentUID ≠ r.ShipmentUID) := by
  refine ⟨?_, ?_, ?_, ?_, ?_⟩
  · intro r hr hs
    exact shippingPass_scan_failure f client cfg db hkey r hr hs
  · intro r hr hs
    exact findingPass_scan_failure f webhook now db3 rows hrel hkey3 r hr hs
  · intro r hr _
    obtain ⟨h1, h2, h3, _⟩ := pendingPass_scan_failure f cfg now db hkey hB hb hq hc r hr
    exact ⟨h1, h2, h3⟩
  · intro r hr hs
    exact searchingPass_scan_failure f webhook now db3 rows hrel hkey3 hb hq hc r hr hs
  · intro r hr hs
    exact shippingPass3pl_scan_failure f webhook now db3 rows hrel hkey3 hb hq hc r hr hs

/-- C17 (counterexample): in a pass of the Pending Worker in which the returned `uid` of the
claimed row `s1` fails to decode, the status of `s1` after the pass is "pending", not the
"queued" it had before, and only the other claimed row is counted; in a pass of the Searching
Worker in which the identifier of the claimed row `a` fails to decode, `a` ends "searching"
and no webhook is posted for it. -/
theorem scan_failure_after_update_advances_status :
    ¬ (((app.pendingPass (scanFailure "s1") batchOfTwo 0 queuedTable).db.find?
          (fun x => decide (x.uid = "s1"))).map (fun x => x.status)
        = (queuedTable.find? (fun x => decide (x.uid = "s1"))).map (fun x => x.status)) ∧
    ((app.pendingPass (scanFailure "s1") batchOfTwo 0 queuedTable).db.find?
        (fun x => decide (x.uid = "s1"))).map (fun x => x.status) = some "pending" ∧
    (app.pendingPass (scanFailure "s1") batchOfTwo 0 queuedTable).updatedCount = 1 ∧
    (threepl.searchingPass (scanFailure "a") deliveryOk 1000 (trackingOnly trackingRows)).db
        "shipments_3pl"
      = some [⟨"a", 1000 + 5 * time.Minute, 1, "searching"⟩, ⟨"b", 5000, 1, "requested"⟩,
          ⟨"c", 0, 1, "searching"⟩, ⟨"d", 0, 1, "found"⟩] ∧
    (threepl.searchingPass (scanFailure "a") deliveryOk 1000
        (trackingOnly trackingRows)).webhooks = [] := by
  decide

theorem scan_failure_before_update_keeps_status :
    (app.shippingPass (scanFailure "s1") (fun _ => none) workerConfig dispatchTable).db
      = [rowOf "s1" "pending", rowOf "s2" "requested", rowOf "s3" "queued"] ∧
    (threepl.findingPass (scanFailure "c") deliveryOk 1000 (trackingOnly trackingRows)).db
        "shipments_3pl" = some trackingRows ∧
    (threepl.findingPass (scanFailure "c") deliveryOk 1000
        (trackingOnly trackingRows)).webhooks = [] := by
  decide

/-- C17 (witness): passes over `dispatchTable` and `trackingRows` at instant 1000 in which
the rows `s1`, `s3`, `a`, `c` and `d` fail to decode. -/
theorem scan_failure_by_worker_witness :
    (dispatchTable.map (fun r => r.uid)).Nodup ∧
    trackingOnly trackingRows "shipments_3pl" = some trackingRows ∧
    (trackingRows.map (fun r => r.ShipmentUID)).Nodup ∧
    0 ≤ batchOfTwo.PendingWorkerBatchSize ∧
    (scanFailureOf ["s1", "s3", "a", "c", "d"]).beginFails = false ∧ (scanFailureOf ["s1", "s3", "a", "c", "d"]).queryFails = false ∧ (scanFailureOf ["s1", "s3", "a", "c", "d"]).commitFails = false ∧
    ((∀ r ∈ dispatchTable, (scanFailureOf ["s1", "s3", "a", "c", "d"]).scanFails r.uid = true →
      (app.shippingPass (scanFailureOf ["s1", "s3", "a", "c", "d"]) (fun _ => none) batchOfTwo dispatchTable).db.find? (fun x => decide (x.uid = r.uid)) = some r ∧
      ∀ s ∈ (app.shippingPass (scanFailureOf ["s1", "s3", "a", "c", "d"]) (fun _ => none) batchOfTwo dispatchTable).shipments, s.UID ≠ r.uid) ∧
    (∀ r ∈ trackingRows, (scanFailureOf ["s1", "s3", "a", "c", "d"]).scanFails r.ShipmentUID = true →
      (∃ rows1, (threepl.findingPass (scanFailureOf ["s1", "s3", "a", "c", "d"]) deliveryOk 1000 (trackingOnly trackingRows)).db "shipments_3pl" = some rows1 ∧
        rows1.find? (fun x => decide (x.ShipmentUID = r.ShipmentUID)) = some r) ∧
      (∀ s ∈ (threepl.findingPass (scanFailureOf ["s1", "s3", "a", "c", "d"]) deliveryOk 1000 (trackingOnly trackingRows)).shipments,
        s.ShipmentUID ≠ r.ShipmentUID) ∧
      ∀ w ∈ (threepl.findingPass (scanFailureOf ["s1", "s3", "a", "c", "d"]) deliveryOk 1000 (trackingOnly trackingRows)).webhooks,
        w.ShipmentUID ≠ r.ShipmentUID) ∧
    (∀ r ∈ (dispatchTable.filter (app.pendingDue batchOfTwo 1000)).take batchOfTwo.PendingWorkerBatchSize.toNat,
      (scanFailureOf ["s1", "s3", "a", "c", "d"]).scanFails r.uid = true →
      r.status = "queued" ∧
      (app.pendingPass (scanFailureOf ["s1", "s3", "a", "c", "d"]) batchOfTwo 1000 dispatchTable).db.find? (fun x => decide (x.uid = r.uid))
        = some { r with status := "pending" } ∧
      (app.pendingPass (scanFailureOf ["s1", "s3", "a", "c", "d"]) batchOfTwo 1000 dispatchTable).updatedCount
        = (((dispatchTable.filter (app.pendingDue batchOfTwo 1000)).take batchOfTwo.PendingWorkerBatchSize.toNat).filter
            (fun x => !(scanFailureOf ["s1", "s3", "a", "c", "d"]).scanFails x.uid)).length) ∧
    (∀ r ∈ (trackingRows.filter (fun r => decide (r.Status = "requested" ∧ r.StartTime ≤ 1000))).take 100,
      (scanFailureOf ["s1", "s3", "a", "c", "d"]).scanFails r.ShipmentUID = true →
      r.Status = "requested" ∧
      (∃ rows1, (threepl.searchingPass (scanFailureOf ["s1", "s3", "a", "c", "d"]) deliveryOk 1000 (trackingOnly trackingRows)).db "shipments_3pl" = some rows1 ∧
        rows1.find? (fun x => decide (x.ShipmentUID = r.ShipmentUID))
          = some { r with Status := "searching", StartTime := 1000 + 5 * time.Minute }) ∧
      r.ShipmentUID ∉ (threepl.searchingPass (scanFailureOf ["s1", "s3", "a", "c", "d"]) deliveryOk 1000 (trackingOnly trackingRows)).uids ∧
      ∀ w ∈ (threepl.searchingPass (scanFailureOf ["s1", "s3", "a", "c", "d"]) deliveryOk 1000 (trackingOnly trackingRows)).webhooks,
        w.ShipmentUID ≠ r.ShipmentUID) ∧
    (∀ r ∈ (trackingRows.filter (fun r => decide (r.Status = "found" ∧ r.StartTime ≤ 1000))).take 100,
      (scanFailureOf ["s1", "s3", "a", "c", "d"]).scanFails r.ShipmentUID = true →
      r.Status = "found" ∧
      (∃ rows1, (threepl.shippingPass (scanFailureOf ["s1", "s3", "a", "c", "d"]) deliveryOk 1000 (trackingOnly trackingRows)).db "shipments_3pl" = some rows1 ∧
        rows1.find? (fun x => decide (x.ShipmentUID = r.ShipmentUID))
          = some { r with Status := "shipped", StartTime := 1000 }) ∧
      r.ShipmentUID ∉ (threepl.shippingPass (scanFailureOf ["s1", "s3", "a", "c", "d"]) deliveryOk 1000 (trackingOnly trackingRows)).uids ∧
      ∀ w ∈ (threepl.shippingPass (scanFailureOf ["s1", "s3", "a", "c", "d"]) deliveryOk 1000 (trackingOnly trackingRows)).webhooks,
        w.ShipmentUID ≠ r.ShipmentUID)) :=
  ⟨by decide, by decide, by decide, by decide, rfl, rfl, rfl,
    scan_failure_by_worker (scanFailureOf ["s1", "s3", "a", "c", "d"]) (fun _ => none) deliveryOk batchOfTwo 1000 dispatchTable
      (trackingOnly trackingRows) trackingRows (by decide) (by decide) (by decide)
      (by decide) rfl rfl rfl⟩

theorem shippingPass_noFaults (client : usecase.ThirdPartyLogistics)
    (cfg : config.WorkerConfig) (db : repo.DB) :
    app.shippingPass sql.noFaults client cfg db = app.shippingCycle client cfg db := by
  unfold app.shippingPass app.shippingCycle
  simp only [sql.noFaults, Bool.false_eq_true, if_false]
  cases app.limit cfg.PendingWorkerBatchSize
      (db.filter (fun r => decide (r.status = "pending"))) with
  | error e => rfl
  | ok rows =>
    dsimp only
    have hf : rows.filter (fun _ => !false) = rows := by simp
    rw [hf]

/-! ## The drain loop of the Dispatch Worker -/

theorem updateStatusIn_nil (db : repo.DB) (status : String) :
    app.updateStatusIn db status [] = db := by
  unfold app.updateStatusIn
  simp

theorem runShippingWorker_examples :
    (app.runShippingWorker workerConfig 3 (fun _ => sql.noFaults) failingFirstPass
        dispatchTable).map (fun r => (r.batches, r.db.map (fun x => x.status), r.webhooks))
      = some ([2, 2, 0], ["requested", "requested", "queued"],
          [⟨"s1", "requested"⟩, ⟨"s2", "requested"⟩]) ∧
    app.runShippingWorker workerConfig 5 (fun _ => sql.noFaults) (fun _ => alwaysFailing)
        dispatchTable = none ∧
    (app.shippingPass sql.noFaults alwaysFailing workerConfig dispatchTable).db
      = dispatchTable ∧
    (app.shippingPass sql.noFaults alwaysFailing workerConfig dispatchTable).webhooks = [] := by
  decide

/-- What a pass of `runShippingWorker` leaves, from the shipments it selected. -/
theorem shippingPass_struct (f : sql.Faults) (client : usecase.ThirdPartyLogistics)
    (cfg : config.WorkerConfig) (db : repo.DB) :
    (∀ s ∈ (app.shippingPass f client cfg db).shipments,
      ∃ r ∈ db, r.status = "pending" ∧ repo.scanShipment r = s) ∧
    ((app.shippingPass f client cfg db).err = none →
      (app.shippingPass f client cfg db).db
        = app.updateStatusIn db "requested"
            (((app.shippingPass f client cfg db).shipments.filter
              (fun s => (client (app.deliveryGuyInput s)).isNone)).map (fun s => s.UID)) ∧
      (app.shippingPass f client cfg db).webhooks
        = (((app.shippingPass f client cfg db).shipments.filter
              (fun s => (client (app.deliveryGuyInput s)).isNone)).map (fun s => s.UID)).map
            (fun uid => { ShipmentUID := uid, Status := "requested" })) ∧
    ((app.shippingPass f client cfg db).err ≠ none →
      (app.shippingPass f client cfg db).db = db ∧
      (app.shippingPass f client cfg db).webhooks = []) := by
  have hnil : db = app.updateStatusIn db "requested"
      ((([] : List domain.Shipment).filter
        (fun s => (client (app.deliveryGuyInput s)).isNone)).map (fun s => s.UID)) := by
    simp [updateStatusIn_nil]
  unfold app.shippingPass
  by_cases hb : f.beginFails = true
  · rw [if_pos hb]; exact ⟨by simp, by simp, fun _ => ⟨rfl, rfl⟩⟩
  by_cases hq : f.queryFails = true
  · rw [if_neg hb, if_pos hq]; exact ⟨by simp, by simp, fun _ => ⟨rfl, rfl⟩⟩
  rw [if_neg hb, if_neg hq]
  cases hl : app.limit cfg.PendingWorkerBatchSize
      (db.filter (fun r => decide (r.status = "pending"))) with
  | error e => exact ⟨by simp, by simp, fun _ => ⟨rfl, rfl⟩⟩
  | ok rows =>
    dsimp only
    have hsel : ∀ s ∈ (rows.filter (fun r => !f.scanFails r.uid)).map repo.scanShipment,
        ∃ r ∈ db, r.status = "pending" ∧ repo.scanShipment r = s := by
      intro s hs
      obtain ⟨r, hr, rfl⟩ := List.mem_map.mp hs
      have hr1 := List.mem_filter.mp (limit_ok_mem _ _ _ hl r (List.mem_filter.mp hr).1)
      exact ⟨r, hr1.1, by simpa using hr1.2, rfl⟩
    split
    · split
      · exact ⟨by simp, by simp, fun _ => ⟨rfl, rfl⟩⟩
      · exact ⟨by simp, fun _ => ⟨hnil, rfl⟩, fun h => absurd rfl h⟩
    · split
      · exact ⟨hsel, by simp, fun _ => ⟨rfl, rfl⟩⟩
      · split
        · exact ⟨hsel, by simp, fun _ => ⟨rfl, rfl⟩⟩
        · exact ⟨hsel, fun _ => ⟨rfl, rfl⟩, fun h => absurd rfl h⟩

theorem runShippingWorker_exit (cfg : config.WorkerConfig) (fuel : Nat) :
    ∀ (faults : Nat → sql.Faults) (clients : Nat → usecase.ThirdPartyLogistics)
      (db : repo.DB) (r : app.ShippingRun),
      app.runShippingWorker cfg fuel faults clients db = some r → r.err = none →
      r.batches.getLast? = some 0 ∧ ∀ b ∈ r.batches.dropLast, 0 < b := by
  induction fuel with
  | zero => intro faults clients db r h; simp [app.runShippingWorker] at h
  | succ fuel ih =>
    intro faults clients db r h herr
    unfold app.runShippingWorker at h
    dsimp only at h
    cases hc : (app.shippingPass (faults 0) (clients 0) cfg db).err with
    | some e =>
      rw [hc] at h
      simp only [Option.some.injEq] at h
      subst h
      simp at herr
    | none =>
      rw [hc] at h
      dsimp only at h
      by_cases hlen : (app.shippingPass (faults 0) (clients 0) cfg db).shipments.length = 0
      · rw [if_pos hlen] at h
        simp only [Option.some.injEq] at h
        subst h
        simp
      · rw [if_neg hlen] at h
        cases hrec : app.runShippingWorker cfg fuel (fun k => faults (k + 1))
            (fun k => clients (k + 1)) (app.shippingPass (faults 0) (clients 0) cfg db).db with
        | none => rw [hrec] at h; simp at h
        | some r1 =>
          rw [hrec] at h
          simp only [Option.some.injEq] at h
          subst h
          obtain ⟨h1, h2⟩ := ih _ _ _ r1 hrec herr
          have hne : r1.batches ≠ [] := by
            intro hn
            rw [hn] at h1
            simp at h1
          obtain ⟨x, rest, hx⟩ := List.exists_cons_of_ne_nil hne
          dsimp only
          rw [hx] at h1 h2 ⊢
          refine ⟨by simpa [List.getLast?_cons_cons] using h1, ?_⟩
          intro b hb
          rw [List.dropLast_cons₂] at hb
          rcases List.mem_cons.mp hb with h | h
          · rw [h]; exact Nat.pos_of_ne_zero hlen
          · exact h2 b h

theorem runShippingWorker_continue (cfg : config.WorkerConfig) (fuel : Nat)
    (faults : Nat → sql.Faults) (clients : Nat → usecase.ThirdPartyLogistics) (db : repo.DB)
    (herr : (app.shippingPass (faults 0) (clients 0) cfg db).err = none)
    (hsel : (app.shippingPass (faults 0) (clients 0) cfg db).shipments ≠ []) :
    app.runShippingWorker cfg (fuel + 1) faults clients db
      = (app.runShippingWorker cfg fuel (fun k => faults (k + 1)) (fun k => clients (k + 1))
          (app.shippingPass (faults 0) (clients 0) cfg db).db).map (fun r =>
            ⟨r.db,
              (app.shippingPass (faults 0) (clients 0) cfg db).shipments.length :: r.batches,
              (app.shippingPass (faults 0) (clients 0) cfg db).requests ++ r.requests,
              (app.shippingPass (faults 0) (clients 0) cfg db).webhooks ++ r.webhooks,
              r.err⟩) := by
  have hlen : ¬ (app.shippingPass (faults 0) (clients 0) cfg db).shipments.length = 0 :=
    fun h => hsel (List.length_eq_zero.mp h)
  conv_lhs => unfold app.runShippingWorker
  dsimp only
  rw [herr]
  dsimp only
  rw [if_neg hlen]
  cases app.runShippingWorker cfg fuel (fun k => faults (k + 1)) (fun k => clients (k + 1))
      (app.shippingPass (faults 0) (clients 0) cfg db).db <;> rfl

theorem shippingPass_all_fail (f : sql.Faults) (client : usecase.ThirdPartyLogistics)
    (cfg : config.WorkerConfig) (db : repo.DB)
    (hfail : ∀ s ∈ (app.shippingPass f client cfg db).shipments,
      client (app.deliveryGuyInput s) ≠ none) :
    (app.shippingPass f client cfg db).db = db ∧
    (app.shippingPass f client cfg db).webhooks = [] := by
  obtain ⟨_, h2, h3⟩ := shippingPass_struct f client cfg db
  have hnone : (app.shippingPass f client cfg db).shipments.filter
      (fun s => (client (app.deliveryGuyInput s)).isNone) = [] := by
    rw [List.filter_eq_nil_iff]
    intro s hs
    have := hfail s hs
    cases hcl : client (app.deliveryGuyInput s) with
    | none => exact absurd hcl this
    | some e => simp
  cases herr : (app.shippingPass f client cfg db).err with
  | none =>
    obtain ⟨h4, h5⟩ := h2 herr
    rw [hnone] at h4 h5
    exact ⟨by rw [h4]; exact updateStatusIn_nil _ _, by rw [h5]; rfl⟩
  | some e => exact h3 (by rw [herr]; simp)

theorem shippingPass_progress (f : sql.Faults) (client : usecase.ThirdPartyLogistics)
    (cfg : config.WorkerConfig) (db : repo.DB)
    (hlt : (app.shippingPass f client cfg db).db.countP (fun r => decide (r.status = "pending"))
      < db.countP (fun r => decide (r.status = "pending"))) :
    ∃ s ∈ (app.shippingPass f client cfg db).shipments,
      client (app.deliveryGuyInput s) = none := by
  by_contra hno
  have hfail : ∀ s ∈ (app.shippingPass f client cfg db).shipments,
      client (app.deliveryGuyInput s) ≠ none := fun s hs h => hno ⟨s, hs, h⟩
  rw [(shippingPass_all_fail f client cfg db hfail).1] at hlt
  exact absurd hlt (lt_irrefl _)

theorem shippingCycle_selects (client : usecase.ThirdPartyLogistics)
    (cfg : config.WorkerConfig) (db : repo.DB) (hB : 1 ≤ cfg.PendingWorkerBatchSize)
    (hp : ∃ r ∈ db, r.status = "pending") :
    (app.shippingCycle client cfg db).err = none ∧
    (app.shippingCycle client cfg db).shipments ≠ [] := by
  obtain ⟨r, hr, hst⟩ := hp
  have hmem : r ∈ db.filter (fun r => decide (r.status = "pending")) :=
    List.mem_filter.mpr ⟨hr, by simpa using hst⟩
  obtain ⟨n, hn⟩ : ∃ n, cfg.PendingWorkerBatchSize.toNat = n + 1 :=
    ⟨cfg.PendingWorkerBatchSize.toNat - 1, by omega⟩
  obtain ⟨a, rest, hcons⟩ := List.exists_cons_of_ne_nil (List.ne_nil_of_mem hmem)
  have hlen : ¬ (List.map repo.scanShipment
      (List.take cfg.PendingWorkerBatchSize.toNat
        (db.filter (fun r => decide (r.status = "pending"))))).length = 0 := by
    rw [hn, hcons]
    simp
  unfold app.shippingCycle app.limit
  rw [if_neg (by omega)]
  dsimp only
  rw [if_neg hlen]
  refine ⟨rfl, fun h => hlen ?_⟩
  have h2 : List.map repo.scanShipment
      (List.take cfg.PendingWorkerBatchSize.toNat
        (db.filter (fun r => decide (r.status = "pending")))) = [] := h
  rw [h2]
  rfl

/-- While every 3PL request fails and a pending row exists, `runShippingWorker` never
returns: no amount of fuel finishes the call. -/
theorem runShippingWorker_spins (cfg : config.WorkerConfig) (db : repo.DB)
    (hB : 1 ≤ cfg.PendingWorkerBatchSize) (hp : ∃ r ∈ db, r.status = "pending")
    (fuel : Nat) :
    ∀ (faults : Nat → sql.Faults) (clients : Nat → usecase.ThirdPartyLogistics),
      (∀ k, faults k = sql.noFaults) → (∀ k input, clients k input ≠ none) →
      app.runShippingWorker cfg fuel faults clients db = none := by
  induction fuel with
  | zero => intro faults clients _ _; rfl
  | succ fuel ih =>
    intro faults clients hf hc
    have hsel := shippingCycle_selects (clients 0) cfg db hB hp
    rw [← shippingPass_noFaults, ← hf 0] at hsel
    rw [runShippingWorker_continue cfg fuel faults clients db hsel.1 hsel.2,
      (shippingPass_all_fail (faults 0) (clients 0) cfg db (fun s _ => hc 0 _)).1,
      ih _ _ (fun k => hf (k + 1)) (fun k => hc (k + 1))]
    rfl

/-- C21: for every call of `runShippingWorker`: (1) when it returns without error, the last
pass selected no shipment and every pass before it selected at least one; (2) a pass that
does not fail on the store, selects at least one shipment and in which every
`RequestDeliveryGuy` call fails leaves the table as it was, with every selected row still
"pending", makes no `core.Webhook` call, and the call goes on at once with the next pass
over the same table; (3) a pass leaves strictly fewer "pending" rows than it found only if
at least one of its `RequestDeliveryGuy` calls returned no error. -/
theorem runShippingWorker_progress_needs_success (cfg : config.WorkerConfig) (fuel : Nat)
    (faults : Nat → sql.Faults) (clients : Nat → usecase.ThirdPartyLogistics)
    (db : repo.DB) :
    (∀ r, app.runShippingWorker cfg fuel faults clients db = some r → r.err = none →
      r.batches.getLast? = some 0 ∧ ∀ b ∈ r.batches.dropLast, 0 < b) ∧
    ((app.shippingPass (faults 0) (clients 0) cfg db).err = none →
      (app.shippingPass (faults 0) (clients 0) cfg db).shipments ≠ [] →
      (∀ s ∈ (app.shippingPass (faults 0) (clients 0) cfg db).shipments,
        clients 0 (app.deliveryGuyInput s) ≠ none) →
      (app.shippingPass (faults 0) (clients 0) cfg db).db = db ∧
      (∀ s ∈ (app.shippingPass (faults 0) (clients 0) cfg db).shipments,
        ∃ r ∈ (app.shippingPass (faults 0) (clients 0) cfg db).db,
          r.status = "pending" ∧ repo.scanShipment r = s) ∧
      (app.shippingPass (faults 0) (clients 0) cfg db).webhooks = [] ∧
      app.runShippingWorker cfg (fuel + 1) faults clients db
        = (app.runShippingWorker cfg fuel (fun k => faults (k + 1))
            (fun k => clients (k + 1)) db).map (fun r =>
              ⟨r.db,
                (app.shippingPass (faults 0) (clients 0) cfg db).shipments.length :: r.batches,
                (app.shippingPass (faults 0) (clients 0) cfg db).requests ++ r.requests,
                r.webhooks,
                r.err⟩)) ∧
    ((app.shippingPass (faults 0) (clients 0) cfg db).db.countP
        (fun r => decide (r.status = "pending"))
      < db.countP (fun r => decide (r.status = "pending")) →
      ∃ s ∈ (app.shippingPass (faults 0) (clients 0) cfg db).shipments,
        clients 0 (app.deliveryGuyInput s) = none) := by
  refine ⟨fun r h herr => runShippingWorker_exit cfg fuel faults clients db r h herr, ?_,
    shippingPass_progress (faults 0) (clients 0) cfg db⟩
  intro herr hsel hfail
  obtain ⟨hdb, hw⟩ := shippingPass_all_fail (faults 0) (clients 0) cfg db hfail
  refine ⟨hdb, ?_, hw, ?_⟩
  · intro s hs
    rw [hdb]
    exact (shippingPass_struct (faults 0) (clients 0) cfg db).1 s hs
  · rw [runShippingWorker_continue cfg fuel faults clients db herr hsel, hdb, hw]
    rfl

/-- C21 (witness): a call over `dispatchTable` whose first pass has every 3PL request fail:
the pass selects the two pending shipments, changes nothing and notifies nobody, and the
call goes on with the next pass. -/
theorem runShippingWorker_progress_needs_success_witness :
    (app.shippingPass ((fun _ => sql.noFaults) 0) (failingFirstPass 0) workerConfig dispatchTable).err = none ∧
    (app.shippingPass ((fun _ => sql.noFaults) 0) (failingFirstPass 0) workerConfig dispatchTable).shipments ≠ [] ∧
    (∀ s ∈ (app.shippingPass ((fun _ => sql.noFaults) 0) (failingFirstPass 0) workerConfig dispatchTable).shipments,
      failingFirstPass 0 (app.deliveryGuyInput s) ≠ none) ∧
    ((∀ r, app.runShippingWorker workerConfig 2 (fun _ => sql.noFaults) failingFirstPass dispatchTable = some r → r.err = none →
      r.batches.getLast? = some 0 ∧ ∀ b ∈ r.batches.dropLast, 0 < b) ∧
    ((app.shippingPass ((fun _ => sql.noFaults) 0) (failingFirstPass 0) workerConfig dispatchTable).err = none →
      (app.shippingPass ((fun _ => sql.noFaults) 0) (failingFirstPass 0) workerConfig dispatchTable).shipments ≠ [] →
      (∀ s ∈ (app.shippingPass ((fun _ => sql.noFaults) 0) (failingFirstPass 0) workerConfig dispatchTable).shipments,
        failingFirstPass 0 (app.deliveryGuyInput s) ≠ none) →
      (app.shippingPass ((fun _ => sql.noFaults) 0) (failingFirstPass 0) workerConfig dispatchTable).db = dispatchTable ∧
      (∀ s ∈ (app.shippingPass ((fun _ => sql.noFaults) 0) (failingFirstPass 0) workerConfig dispatchTable).shipments,
        ∃ r ∈ (app.shippingPass ((fun _ => sql.noFaults) 0) (failingFirstPass 0) workerConfig dispatchTable).db,
          r.status = "pending" ∧ repo.scanShipment r = s) ∧
      (app.shippingPass ((fun _ => sql.noFaults) 0) (failingFirstPass 0) workerConfig dispatchTable).webhooks = [] ∧
      app.runShippingWorker workerConfig (2 + 1) (fun _ => sql.noFaults) failingFirstPass dispatchTable
        = (app.runShippingWorker workerConfig 2 (fun k => (fun _ => sql.noFaults) (k + 1))
            (fun k => failingFirstPass (k + 1)) dispatchTable).map (fun r =>
              ⟨r.db,
                (app.shippingPass ((fun _ => sql.noFaults) 0) (failingFirstPass 0) workerConfig dispatchTable).shipments.length :: r.batches,
                (app.shippingPass ((fun _ => sql.noFaults) 0) (failingFirstPass 0) workerConfig dispatchTable).requests ++ r.requests,
                r.webhooks,
                r.err⟩)) ∧
    ((app.shippingPass ((fun _ => sql.noFaults) 0) (failingFirstPass 0) workerConfig dispatchTable).db.countP
        (fun r => decide (r.status = "pending"))
      < dispatchTable.countP (fun r => decide (r.status = "pending")) →
      ∃ s ∈ (app.shippingPass ((fun _ => sql.noFaults) 0) (failingFirstPass 0) workerConfig dispatchTable).shipments,
        failingFirstPass 0 (app.deliveryGuyInput s) = none)) :=
  ⟨by decide, by decide, by decide,
    runShippingWorker_progress_needs_success workerConfig 2 (fun _ => sql.noFaults) failingFirstPass
      dispatchTable⟩

/-! ## Store failures in the loops of the workers -/

theorem workerLoop_append (run : Nat → repo.DB → Option (repo.DB × Option String))
    (more : List app.Signal) :
    ∀ (signals : List app.Signal) (n : Nat) (db db1 : repo.DB) (m : Nat),
      app.workerLoop run n signals db = some ⟨db1, m, none⟩ →
      app.workerLoop run n (signals ++ more) db = app.workerLoop run m more db1 := by
  intro signals
  induction signals with
  | nil =>
    intro n db db1 m h
    simp only [app.workerLoop, Option.some.injEq, app.Worker.mk.injEq] at h
    obtain ⟨h1, h2, -⟩ := h
    subst h1 h2
    rfl
  | cons s rest ih =>
    intro n db db1 m h
    cases s with
    | done => simp [app.workerLoop] at h
    | tick =>
      rw [List.cons_append]
      simp only [app.workerLoop] at h ⊢
      cases hr : run n db with
      | none => rw [hr] at h; simp at h
      | some p =>
        obtain ⟨db2, e⟩ := p
        cases e with
        | some err => rw [hr] at h; simp at h
        | none =>
          rw [hr] at h
          dsimp only at h ⊢
          exact ih _ _ _ _ h

theorem startWorker_append (run : Nat → repo.DB → Option (repo.DB × Option String))
    (signals more : List app.Signal) (db db1 : repo.DB) (m : Nat)
    (h : app.startWorker run false signals db = some ⟨db1, m, none⟩) :
    app.startWorker run false (signals ++ more) db = app.workerLoop run m more db1 := by
  unfold app.startWorker at h ⊢
  simp only [Bool.false_eq_true, if_false] at h ⊢
  cases hr : run 0 db with
  | none => rw [hr] at h; simp at h
  | some p =>
    obtain ⟨db2, e⟩ := p
    cases e with
    | some err => rw [hr] at h; simp at h
    | none =>
      rw [hr] at h
      dsimp only at h ⊢
      exact workerLoop_append run more _ _ _ _ _ h

theorem startWorker_tick_ok (run : Nat → repo.DB → Option (repo.DB × Option String))
    (signals : List app.Signal) (db db1 db2 : repo.DB) (n : Nat)
    (h : app.startWorker run false signals db = some ⟨db1, n, none⟩)
    (hr : run n db1 = some (db2, none)) :
    app.startWorker run false (signals ++ [.tick]) db = some ⟨db2, n + 1, none⟩ := by
  rw [startWorker_append run signals _ db db1 n h]
  unfold app.workerLoop
  rw [hr]
  rfl

